import Mathlib

/-!
# Ray tracer: a verification development for `raytracer.cpp`

The C++ program computes with `double`/`float`.  Here every floating-point
quantity is a value of an arbitrary linearly ordered field `K` (exact
arithmetic, no rounding, no infinities); the definitions are executable at
`K = ℚ`, and every theorem holds in particular for `K = ℝ`.

* Functions of `math.h` that leave the field (`sqrt`, `pow`, `acos`, `atan2`,
  the constant `M_PI`) are passed to the definitions as a record `Libm K`;
  the theorems state which property of them they use.
* `__DBL_MAX__`, the start value of `tmin` in the closest-hit loops, is the
  finite constant `DBL_MAX = 2^1024 - 2^971`.
* A null pointer is `Box.null` for a `Box*` and `none` for a `Hit*` or a
  `PointLight*`; a C++ `throw` is `Except.error`.
* Reading a vector or an array outside its bounds is undefined behaviour in
  C++; `vecAt` then yields a fixed value, and no theorem rests on which.
* A quotient by zero is `x / 0 = 0` in a field, where the C++ quotient is an
  infinity or a NaN.  The definitions agree with the program where no such
  quotient is formed: `ray_box_intersect` for a direction without zero
  component, `ray_sphere_intersect` for a non-zero direction, `Vec3f.normalize`
  for a non-zero vector.
* The conversion `(int)x` is `cint`, with the range of a 32-bit `int`.  The
  store of a colour into `unsigned char` is the identity on `0..255`; a
  negative value is outside the range of `unsigned char` and is kept as it
  is, so a statement about stored bytes is about the program for colours
  whose rounded value is not negative.
* `parser.h` is not part of the sources: its types, macros and vector
  operations are modelled from their use in `raytracer.cpp` and from the spec.

The file has two parts: the definitions (the program, then the notions the
statements need, then concrete inputs), and the theorems.
-/

namespace RayTracer

/-! ## Data model (`parser.h` declarations, as used by `raytracer.cpp`) -/

/-- Modelled from the spec: the macro `MIN` of `parser.h` (not in src), the
minimum of two values. -/
def MIN {K : Type} [LinearOrder K] (x y : K) : K := if x < y then x else y

/-- Modelled from the spec: the macro `MAX` of `parser.h` (not in src), the
maximum of two values. -/
def MAX {K : Type} [LinearOrder K] (x y : K) : K := if x > y then x else y

/-- The functions of `math.h` the program calls that are not field
operations. -/
structure Libm (K : Type) where
  sqrt : K → K
  pow : K → K → K
  acos : K → K
  atan2 : K → K → K
  pi : K

/-- A three-component vector, `Vec3f`. -/
structure Vec3f (K : Type) where
  x : K
  y : K
  z : K
deriving DecidableEq

/-- A two-component vector, `Vec2f`. -/
structure Vec2f (K : Type) where
  x : K
  y : K
deriving DecidableEq

namespace Vec3f

variable {K : Type} [LinearOrderedField K]

/-- Modelled from the spec: `Vec3f::operator+` of `parser.h` (not in src). -/
def add (p q : Vec3f K) : Vec3f K := ⟨p.x + q.x, p.y + q.y, p.z + q.z⟩

/-- Modelled from the spec: `Vec3f::operator-` of `parser.h` (not in src). -/
def sub (p q : Vec3f K) : Vec3f K := ⟨p.x - q.x, p.y - q.y, p.z - q.z⟩

/-- Modelled from the spec: `Vec3f::operator*(double)` of `parser.h` (not in
src), the scalar multiple. -/
def smul (p : Vec3f K) (k : K) : Vec3f K := ⟨p.x * k, p.y * k, p.z * k⟩

/-- Modelled from the spec: `Vec3f::dot` of `parser.h` (not in src). -/
def dot (p q : Vec3f K) : K := p.x * q.x + p.y * q.y + p.z * q.z

/-- Modelled from the spec: `Vec3f::normalize` of `parser.h` (not in src),
the vector divided by its length.  For the zero vector the length is 0 and
the C++ quotient is a NaN, where a field has `0 / 0 = 0`: the definition
agrees with the program for non-zero vectors. -/
def normalize (m : Libm K) (p : Vec3f K) : Vec3f K :=
  ⟨p.x / m.sqrt (p.dot p), p.y / m.sqrt (p.dot p), p.z / m.sqrt (p.dot p)⟩

end Vec3f

/-- A ray: `struct Ray`. -/
structure Ray (K : Type) where
  start : Vec3f K
  dir : Vec3f K

/-- A vertex of a face: coordinates and texture coordinates. -/
structure Vertex (K : Type) where
  coordinates : Vec3f K
  u : K
  v : K

/-- A triangle: three vertices and the precomputed normal. -/
structure Face (K : Type) where
  v0 : Vertex K
  v1 : Vertex K
  v2 : Vertex K
  normal : Vec3f K

/-- A sphere, with the local frame used for texture coordinates. -/
structure Sphere (K : Type) where
  center_vertex : Vec3f K
  radius : K
  material_id : Int
  texture_id : Int
  u : Vec3f K
  v : Vec3f K
  w : Vec3f K

/-- A node of a mesh's bounding-volume hierarchy, reached through a `Box*`:
`null` is the null pointer. -/
inductive Box (K : Type) where
  | null : Box K
  | node (min max : Vec3f K) (left right : Box K) (leftindex rigthindex : Int) : Box K

section Geometry

variable {K : Type} [LinearOrderedField K]

/-! ## Ray / primitive intersection -/

/-- The determinant `det` of `ray_triangle_intersect` (line 55). -/
def triDet (ray : Ray K) (triangle : Face K) : K :=
  let d := ray.dir
  let a := triangle.v0.coordinates
  let b := triangle.v1.coordinates
  let c := triangle.v2.coordinates
  ((-d.x) * ((b.y - a.y) * (c.z - a.z) - (b.z - a.z) * (c.y - a.y))
    - (-d.y) * ((b.x - a.x) * (c.z - a.z) - (b.z - a.z) * (c.x - a.x))
    + (-d.z) * ((b.x - a.x) * (c.y - a.y) - (b.y - a.y) * (c.x - a.x)))

/-- The ray parameter `t` of `ray_triangle_intersect` (line 58). -/
def triT (ray : Ray K) (triangle : Face K) : K :=
  let e := ray.start
  let a := triangle.v0.coordinates
  let b := triangle.v1.coordinates
  let c := triangle.v2.coordinates
  ((e.x - a.x) * ((b.y - a.y) * (c.z - a.z) - (b.z - a.z) * (c.y - a.y))
    - (e.y - a.y) * ((b.x - a.x) * (c.z - a.z) - (b.z - a.z) * (c.x - a.x))
    + (e.z - a.z) * ((b.x - a.x) * (c.y - a.y) - (b.y - a.y) * (c.x - a.x)))
    / triDet ray triangle

/-- The barycentric coordinate `beta` of `ray_triangle_intersect` (line 59). -/
def triBeta (ray : Ray K) (triangle : Face K) : K :=
  let e := ray.start
  let d := ray.dir
  let a := triangle.v0.coordinates
  let c := triangle.v2.coordinates
  ((-d.x) * ((e.y - a.y) * (c.z - a.z) - (e.z - a.z) * (c.y - a.y))
    - (-d.y) * ((e.x - a.x) * (c.z - a.z) - (e.z - a.z) * (c.x - a.x))
    + (-d.z) * ((e.x - a.x) * (c.y - a.y) - (e.y - a.y) * (c.x - a.x)))
    / triDet ray triangle

/-- The barycentric coordinate `gamma` of `ray_triangle_intersect` (line 60). -/
def triGamma (ray : Ray K) (triangle : Face K) : K :=
  let e := ray.start
  let d := ray.dir
  let a := triangle.v0.coordinates
  let b := triangle.v1.coordinates
  ((-d.x) * ((b.y - a.y) * (e.z - a.z) - (b.z - a.z) * (e.y - a.y))
    - (-d.y) * ((b.x - a.x) * (e.z - a.z) - (b.z - a.z) * (e.x - a.x))
    + (-d.z) * ((b.x - a.x) * (e.y - a.y) - (b.y - a.y) * (e.x - a.x)))
    / triDet ray triangle

/-- The function `ray_triangle_intersect`: the ray parameter of the hit, or the miss value
`-1`. -/
def ray_triangle_intersect (ray : Ray K) (triangle : Face K) : K :=
  if triDet ray triangle = 0 then -1
  else if triBeta ray triangle ≥ 0 ∧ triGamma ray triangle ≥ 0
      ∧ triBeta ray triangle + triGamma ray triangle ≤ 1 ∧ triT ray triangle > 0 then
    triT ray triangle
  else -1

/-- The coefficient `A` of `ray_sphere_intersect` (line 83). -/
def sphereA (ray : Ray K) : K :=
  let d := ray.dir
  d.x * d.x + d.y * d.y + d.z * d.z

/-- The coefficient `B` of `ray_sphere_intersect` (line 84). -/
def sphereB (ray : Ray K) (sphere : Sphere K) : K :=
  let c := sphere.center_vertex
  let e := ray.start
  let d := ray.dir
  2 * ((e.x - c.x) * d.x + (e.y - c.y) * d.y + (e.z - c.z) * d.z)

/-- The coefficient `C` of `ray_sphere_intersect` (line 85). -/
def sphereC (ray : Ray K) (sphere : Sphere K) : K :=
  let r := sphere.radius
  let c := sphere.center_vertex
  let e := ray.start
  (e.x - c.x) * (e.x - c.x) + (e.y - c.y) * (e.y - c.y) + (e.z - c.z) * (e.z - c.z) - r * r

/-- The discriminant `delta` of `ray_sphere_intersect` (line 87). -/
def sphereDelta (ray : Ray K) (sphere : Sphere K) : K :=
  sphereB ray sphere * sphereB ray sphere - 4 * sphereA ray * sphereC ray sphere

/-- The function `ray_sphere_intersect`: a root of `A t^2 + B t + C = 0`, or `-1` when the
discriminant is negative. -/
def ray_sphere_intersect (m : Libm K) (ray : Ray K) (sphere : Sphere K) : K :=
  let A := sphereA ray
  let B := sphereB ray sphere
  let delta := sphereDelta ray sphere
  if delta ≥ 0 then
    let mindis := MIN ((-B - m.sqrt delta) / (2 * A)) ((-B + m.sqrt delta) / (2 * A))
    let maxdis := MAX ((-B - m.sqrt delta) / (2 * A)) ((-B + m.sqrt delta) / (2 * A))
    if mindis > 0 then mindis else maxdis
  else -1

/-- The function `ray_box_intersect` on a non-null box with corners `bmin`, `bmax`.
The six quotients are by the components of the direction: for a component
equal to 0 the C++ quotient is an infinity or a NaN, where a field has
`x / 0 = 0`, so the definition agrees with the program for directions
without zero component. -/
def ray_box_intersect (ray : Ray K) (bmin bmax : Vec3f K) : Bool :=
  let minx := MIN ((bmin.x - ray.start.x) / ray.dir.x) ((bmax.x - ray.start.x) / ray.dir.x)
  let miny := MIN ((bmin.y - ray.start.y) / ray.dir.y) ((bmax.y - ray.start.y) / ray.dir.y)
  let minz := MIN ((bmin.z - ray.start.z) / ray.dir.z) ((bmax.z - ray.start.z) / ray.dir.z)
  let maxx := MAX ((bmin.x - ray.start.x) / ray.dir.x) ((bmax.x - ray.start.x) / ray.dir.x)
  let maxy := MAX ((bmin.y - ray.start.y) / ray.dir.y) ((bmax.y - ray.start.y) / ray.dir.y)
  let maxz := MAX ((bmin.z - ray.start.z) / ray.dir.z) ((bmax.z - ray.start.z) / ray.dir.z)
  let tmin := MAX (MAX minx miny) minz
  let tmax := MIN (MIN maxx maxy) maxz
  if tmin ≤ tmax ∧ tmax ≥ 0 then true else false

/-- The point `e + t*d` of the ray is the point of the triangle's plane with
barycentric coordinates `beta`, `gamma`: `a + beta*(b-a) + gamma*(c-a)`. -/
def OnTriangleAt (ray : Ray K) (triangle : Face K) (beta gamma t : K) : Prop :=
  ray.start.add (ray.dir.smul t)
    = (triangle.v0.coordinates.add
        ((triangle.v1.coordinates.sub triangle.v0.coordinates).smul beta)).add
        ((triangle.v2.coordinates.sub triangle.v0.coordinates).smul gamma)

/-- Cross product of two vectors (used to state the determinant of the
specification, not by the program). -/
def cross (p q : Vec3f K) : Vec3f K :=
  ⟨p.y * q.z - p.z * q.y, p.z * q.x - p.x * q.z, p.x * q.y - p.y * q.x⟩

/-- The determinant as the specification writes it: `-d . ((b-a) x (c-a))`. -/
def specDet (ray : Ray K) (triangle : Face K) : K :=
  -(ray.dir.dot (cross (triangle.v1.coordinates.sub triangle.v0.coordinates)
      (triangle.v2.coordinates.sub triangle.v0.coordinates)))

/-- The point `e + t*d` of the ray lies on the sphere:
`|e + t*d - c|^2 = r^2`. -/
def OnSphereAt (ray : Ray K) (sphere : Sphere K) (t : K) : Prop :=
  ((ray.start.add (ray.dir.smul t)).sub sphere.center_vertex).dot
      ((ray.start.add (ray.dir.smul t)).sub sphere.center_vertex)
    = sphere.radius * sphere.radius

/-- The point `p` lies in the closed box with corners `bmin`, `bmax`. -/
def InBox (p bmin bmax : Vec3f K) : Prop :=
  (bmin.x ≤ p.x ∧ p.x ≤ bmax.x) ∧ (bmin.y ≤ p.y ∧ p.y ≤ bmax.y) ∧ (bmin.z ≤ p.z ∧ p.z ≤ bmax.z)

/-- What the theorems use of `sqrt` at an argument `x`: the result is
non-negative and its square is `x`. -/
def SqrtAt (m : Libm K) (x : K) : Prop := 0 ≤ m.sqrt x ∧ m.sqrt x * m.sqrt x = x

end Geometry

/-! ## Scene data (`parser.h`) -/

/-- Modelled from the spec: the constants `MESHHIT`, `TRIANGLEHIT`, `SPHEREHIT`
of `parser.h` (not in src), the values the field `Hit::hitType` is compared
with; `other` is any other value of the field. -/
inductive HitType where
  | MESHHIT
  | TRIANGLEHIT
  | SPHEREHIT
  | other (code : Int)
deriving DecidableEq

/-- Modelled from the spec: the repeat modes `REPEAT`, `CLAMP` of `parser.h`
(not in src); `other` is any other value of the field. -/
inductive RepeatMode where
  | REPEAT
  | CLAMP
  | other (code : Int)
deriving DecidableEq

/-- Modelled from the spec: the interpolation modes `NEAREST`, `BILINEAR` of
`parser.h` (not in src); `other` is any other value of the field. -/
inductive Interpolation where
  | NEAREST
  | BILINEAR
  | other (code : Int)
deriving DecidableEq

/-- Modelled from the spec: the colour modes `REPLACE_KD`, `BLEND_KD`,
`REPLACE_ALL` of `parser.h` (not in src); `other` is any other value of the
field. -/
inductive ColorMode where
  | REPLACE_KD
  | BLEND_KD
  | REPLACE_ALL
  | other (code : Int)
deriving DecidableEq

/-- A material. -/
structure Material (K : Type) where
  ambient : Vec3f K
  diffuse : Vec3f K
  specular : Vec3f K
  mirror : Vec3f K
  phong_exponent : K

/-- A point light. -/
structure PointLight (K : Type) where
  position : Vec3f K
  intensity : Vec3f K

/-- A texture: `image` holds `3 * width * height` bytes, row by row. -/
structure Texture where
  image : List Nat
  width : Int
  height : Int
  repeatmode : RepeatMode
  interpolation : Interpolation
  colormode : ColorMode

/-- A mesh: its faces, material, texture (`-1` for none) and the root of its
bounding-volume hierarchy. -/
structure Mesh (K : Type) where
  faces : List (Face K)
  material_id : Int
  texture_id : Int
  head : Box K

/-- A free triangle. -/
structure Triangle (K : Type) where
  indices : Face K
  material_id : Int
  texture_id : Int

/-- The scene, as far as rendering reads it. -/
structure Scene (K : Type) where
  background_color : Vec3f K
  ambient_light : Vec3f K
  shadow_ray_epsilon : K
  max_recursion_depth : Int
  point_lights : List (PointLight K)
  materials : List (Material K)
  textures : List Texture
  meshes : List (Mesh K)
  triangles : List (Triangle K)
  spheres : List (Sphere K)

/-- The record `struct Hit`. -/
structure Hit (K : Type) where
  hitOccur : Bool
  materialID : Int
  hitType : HitType
  hitID : Int
  faceID : Int
  replace_all_drawn : Bool
  intersectPoint : Vec3f K
  normal : Vec3f K
  t : K

/-- Element `i` of a `std::vector` or array, `v[i]`.  An index outside the
vector is undefined behaviour in C++; the read then yields `dflt`. -/
def vecAt {α : Type} (v : List α) (i : Int) (dflt : α) : α :=
  if 0 ≤ i then v.getD i.toNat dflt else dflt

section Intersector

variable {K : Type} [LinearOrderedField K]

/-- The constant `__DBL_MAX__`: the largest finite `double`,
`(2 - 2^-52) * 2^1023`. -/
def DBL_MAX : K := 2 ^ 1024 - 2 ^ 971

/-- A `Hit` not yet assigned (`Hit ret;`, `new Hit`): its fields hold no
meaningful value. -/
def Hit.unset : Hit K :=
  ⟨false, 0, HitType.other 0, 0, 0, false, ⟨0, 0, 0⟩, ⟨0, 0, 0⟩, 0⟩

/-- The value read for a face index outside the mesh. -/
def Face.unset : Face K :=
  ⟨⟨⟨0, 0, 0⟩, 0, 0⟩, ⟨⟨0, 0, 0⟩, 0, 0⟩, ⟨⟨0, 0, 0⟩, 0, 0⟩, ⟨0, 0, 0⟩⟩

/-- The face indices `lo, lo+1, ..., hi-1` a `for` loop runs through. -/
def faceRange (lo hi : Int) : List Int :=
  (List.range (hi - lo).toNat).map (fun i : Nat => lo + (i : Int))

/-- One iteration of the loop of `ClosestHitInBox` (lines 123-135) on the
state `(ret, tmin)`. -/
def boxStep (ray : Ray K) (mesh : Mesh K) (st : Hit K × K) (faceID : Int) : Hit K × K :=
  let triangle := vecAt mesh.faces faceID Face.unset
  let t := ray_triangle_intersect ray triangle
  if t ≥ 0 ∧ t < st.2 then
    ({ st.1 with
        intersectPoint := ray.start.add (ray.dir.smul t)
        normal := triangle.normal
        materialID := mesh.material_id
        hitOccur := true
        t := t
        hitType := HitType.MESHHIT
        faceID := faceID
        replace_all_drawn := false }, t)
  else st

/-- The function `ClosestHitInBox`; `none` is the null pointer. -/
def ClosestHitInBox (ray : Ray K) (box : Box K) (mesh : Mesh K) : Option (Hit K) :=
  match box with
  | Box.null => none
  | Box.node _ _ _ _ leftindex rigthindex =>
    let st := (faceRange leftindex rigthindex).foldl (boxStep ray mesh)
      ({ (Hit.unset : Hit K) with hitOccur := false }, DBL_MAX)
    if st.1.hitOccur then some st.1 else none

/-- Whether a `Box*` is the null pointer. -/
def Box.isNull : Box K → Bool
  | Box.null => true
  | Box.node _ _ _ _ _ _ => false

/-- The end of `meshBVH` (lines 157-166): which of the two children's results
is returned. -/
def closerHit (retl retr : Option (Hit K)) : Option (Hit K) :=
  match retl, retr with
  | none, retr => retr
  | some retl, none => some retl
  | some retl, some retr => if retl.t < retr.t then some retl else some retr

/-- The function `meshBVH`; `none` is the null pointer. -/
def meshBVH (ray : Ray K) (box : Box K) (mesh : Mesh K) : Option (Hit K) :=
  match box with
  | Box.null => none
  | Box.node bmin bmax left right leftindex rigthindex =>
    if !ray_box_intersect ray bmin bmax then none
    else if left.isNull && right.isNull then
      ClosestHitInBox ray (Box.node bmin bmax left right leftindex rigthindex) mesh
    else
      closerHit (meshBVH ray left mesh) (meshBVH ray right mesh)

/-- One iteration of the mesh loop of `ClosestHit` (lines 177-187). -/
def meshStep (ray : Ray K) (st : Hit K × K) (meshID : Int) (mesh : Mesh K) : Hit K × K :=
  match meshBVH ray mesh.head mesh with
  | some meshHit =>
    if meshHit.t < st.2 then
      ({ meshHit with hitID := meshID, replace_all_drawn := false }, meshHit.t)
    else st
  | none => st

/-- One iteration of the triangle loop of `ClosestHit` (lines 191-203). -/
def triangleStep (ray : Ray K) (st : Hit K × K) (triangleID : Int) (tr : Triangle K) :
    Hit K × K :=
  let triangle := tr.indices
  let t := ray_triangle_intersect ray triangle
  if t ≥ 0 ∧ t < st.2 then
    ({ st.1 with
        intersectPoint := ray.start.add (ray.dir.smul t)
        normal := triangle.normal
        materialID := tr.material_id
        hitOccur := true
        t := t
        hitType := HitType.TRIANGLEHIT
        hitID := triangleID
        replace_all_drawn := false }, t)
  else st

/-- One iteration of the sphere loop of `ClosestHit` (lines 207-218). -/
def sphereStep (m : Libm K) (ray : Ray K) (st : Hit K × K) (sphereID : Int)
    (sphere : Sphere K) : Hit K × K :=
  let t := ray_sphere_intersect m ray sphere
  if t ≥ 0 ∧ t < st.2 then
    ({ st.1 with
        intersectPoint := ray.start.add (ray.dir.smul t)
        normal := ((ray.start.add (ray.dir.smul t)).sub sphere.center_vertex).normalize m
        materialID := sphere.material_id
        hitOccur := true
        t := t
        hitType := HitType.SPHEREHIT
        hitID := sphereID }, t)
  else st

/-- A loop `for (id = first; ...; id++)` over the elements of a vector,
threading a state through `step`. -/
def indexedLoop {α σ : Type} (step : σ → Int → α → σ) : List α → Int → σ → σ
  | [], _, st => st
  | x :: rest, id, st => indexedLoop step rest (id + 1) (step st id x)

/-- The function `ClosestHit`: the three loops over meshes, free triangles and spheres. -/
def ClosestHit (m : Libm K) (ray : Ray K) (scene : Scene K) : Hit K :=
  let st0 : Hit K × K := ({ (Hit.unset : Hit K) with hitOccur := false }, DBL_MAX)
  let st1 := indexedLoop (meshStep ray) scene.meshes 0 st0
  let st2 := indexedLoop (triangleStep ray) scene.triangles 0 st1
  let st3 := indexedLoop (sphereStep m ray) scene.spheres 0 st2
  st3.1

end Intersector

/-! ## Texture sampling and shading -/

/-- The values the program throws: `throw -1.0`, `throw true`, `throw 'a'`,
`throw -1`. -/
inductive Thrown where
  | double
  | bool
  | char
  | int
deriving DecidableEq

/-- Three `unsigned char`: the colour of a pixel.  A channel holds the value
stored; the program stores values `0..255` only when the colour computed is
not negative (storing a negative value is undefined behaviour in C++, and is
kept here as the negative integer). -/
structure RGB where
  r : Int
  g : Int
  b : Int
deriving DecidableEq

section Shader

variable {K : Type} [LinearOrderedField K] [FloorRing K]

/-- The function `round` of `math.h`: the nearest integer, halves away from
zero. -/
def cround (x : K) : Int := if 0 ≤ x then Int.floor (x + 1 / 2) else Int.ceil (x - 1 / 2)

/-- The integer part of a value: truncation towards zero. -/
def ctrunc (x : K) : Int := if 0 ≤ x then Int.floor x else Int.ceil x

/-- The conversion `(int)x` of a floating-point value to `int` (32 bits): the
integer part of `x` when it is in the range of `int`, that is for
`-2^31 - 1 < x < 2^31`.  Outside that range the conversion is undefined
behaviour in C++; it then yields `INT_MIN = -2^31`, the value the x86
conversion instruction gives. -/
def cint (x : K) : Int :=
  if -(2 : K) ^ 31 - 1 < x ∧ x < (2 : K) ^ 31 then ctrunc x else -(2 : Int) ^ 31

/-- The macro `clip(a)`: `MIN(round(a), 255)` (line 12). -/
def clip (a : K) : K := MIN ((cround a : Int) : K) 255

/-- Modelled from the spec: the macro `ROUND` of `parser.h` (not in src); the
spec gives the pixel address as `px = round(U * width)`. -/
def ROUND (x : K) : Int := cround x

/-- The value read for a material index outside the vector. -/
def Material.unset : Material K :=
  ⟨⟨0, 0, 0⟩, ⟨0, 0, 0⟩, ⟨0, 0, 0⟩, ⟨0, 0, 0⟩, 0⟩

/-- The value read for a mesh index outside the vector. -/
def Mesh.unset : Mesh K := ⟨[], 0, 0, Box.null⟩

/-- The value read for a triangle index outside the vector. -/
def Triangle.unset : Triangle K := ⟨Face.unset, 0, 0⟩

/-- The value read for a sphere index outside the vector. -/
def Sphere.unset : Sphere K := ⟨⟨0, 0, 0⟩, 0, 0, 0, ⟨0, 0, 0⟩, ⟨0, 0, 0⟩, ⟨0, 0, 0⟩⟩

/-- The value read for a texture index outside the vector. -/
def Texture.unset : Texture :=
  ⟨[], 0, 0, RepeatMode.other 0, Interpolation.other 0, ColorMode.other 0⟩

/-- The material of a hit: `scene.materials[hit.materialID - 1]`. -/
def hitMaterial (hit : Hit K) (scene : Scene K) : Material K :=
  vecAt scene.materials (hit.materialID - 1) Material.unset

/-- The function `Specular` (lines 223-237). -/
def Specular (m : Libm K) (ray : Ray K) (hit : Hit K) (light : PointLight K)
    (scene : Scene K) : Vec3f K :=
  let toSource := (ray.start.sub hit.intersectPoint).normalize m
  let toLight := light.position.sub hit.intersectPoint
  let dSquare := toLight.dot toLight
  let toLight := toLight.normalize m
  let halfWay := (toSource.add toLight).normalize m
  let temp := halfWay.dot hit.normal
  let mat := hitMaterial hit scene
  ⟨mat.specular.x * m.pow temp mat.phong_exponent * light.intensity.x / dSquare,
   mat.specular.y * m.pow temp mat.phong_exponent * light.intensity.y / dSquare,
   mat.specular.z * m.pow temp mat.phong_exponent * light.intensity.z / dSquare⟩

/-- The function `uvForTriangle` (lines 239-260): the same `beta`, `gamma` as
`ray_triangle_intersect`, without the test of the determinant. -/
def uvForTriangle (ray : Ray K) (triangle : Face K) : Vec2f K :=
  let beta := triBeta ray triangle
  let gamma := triGamma ray triangle
  ⟨(1 - beta - gamma) * triangle.v0.u + beta * triangle.v1.u + gamma * triangle.v2.u,
   (1 - beta - gamma) * triangle.v0.v + beta * triangle.v1.v + gamma * triangle.v2.v⟩

/-- Modelled from the spec: the product `hit.intersectPoint * M` of
`uvForSphere`, with `M = CameraT(u, v, w) * translate(-center)` built by
functions of `parser.h` (not in src): the hit point translated by `-center`,
then expressed in the frame `(u, v, w)`. -/
def sphereLocal (p : Vec3f K) (sphere : Sphere K) : Vec3f K :=
  let q := p.sub sphere.center_vertex
  ⟨sphere.u.dot q, sphere.v.dot q, sphere.w.dot q⟩

/-- The function `uvForSphere` (lines 262-274). -/
def uvForSphere (m : Libm K) (hit : Hit K) (sphere : Sphere K) : Vec2f K :=
  let hitCoor := sphereLocal hit.intersectPoint sphere
  let theta := m.acos (hitCoor.y / sphere.radius)
  let phi := m.atan2 hitCoor.z hitCoor.x
  ⟨(m.pi - phi) / (2 * m.pi), theta / m.pi⟩

/-- The byte `texture.image[i]`, as a floating-point value.  An index outside
the image is undefined behaviour in C++; the read then yields `0`. -/
def texel (texture : Texture) (i : Int) : K := ((vecAt texture.image i 0 : Nat) : K)

/-- The macro `PIXEL(x, y)` of `ColorTexture` (line 292). -/
def PIXEL (texture : Texture) (x y : Int) : Int := 3 * (y * texture.width + x)

/-- The address wrap of `ColorTexture` (lines 278-286). -/
def wrapUV (UV : Vec2f K) (texture : Texture) : Except Thrown (Vec2f K) :=
  match texture.repeatmode with
  | RepeatMode.REPEAT => Except.ok ⟨UV.x - ((cint UV.x : Int) : K), UV.y - ((cint UV.y : Int) : K)⟩
  | RepeatMode.CLAMP => Except.ok ⟨MIN UV.x 1, MIN UV.y 1⟩
  | RepeatMode.other _ => Except.error Thrown.double

/-- The filtering of `ColorTexture` (lines 287-315), on wrapped coordinates. -/
def sampleUV (UV : Vec2f K) (texture : Texture) : Except Thrown (Vec3f K) :=
  let pixelx : Int := ROUND (UV.x * (texture.width : K))
  let pixely : Int := ROUND (UV.y * (texture.height : K))
  match texture.interpolation with
  | Interpolation.NEAREST =>
    Except.ok ⟨texel texture (PIXEL texture pixelx pixely),
      texel texture (PIXEL texture pixelx pixely + 1),
      texel texture (PIXEL texture pixelx pixely + 2)⟩
  | Interpolation.BILINEAR =>
    let dx := UV.x * (texture.width : K) - (pixelx : K)
    let dy := UV.y * (texture.height : K) - (pixely : K)
    Except.ok
      ⟨dx * dy * texel texture (PIXEL texture (pixelx + 1) (pixely + 1))
        + (1 - dx) * dy * texel texture (PIXEL texture pixelx (pixely + 1))
        + dx * (1 - dy) * texel texture (PIXEL texture (pixelx + 1) pixely)
        + (1 - dx) * (1 - dy) * texel texture (PIXEL texture pixelx pixely),
       dx * dy * texel texture (PIXEL texture (pixelx + 1) (pixely + 1) + 1)
        + (1 - dx) * dy * texel texture (PIXEL texture pixelx (pixely + 1) + 1)
        + dx * (1 - dy) * texel texture (PIXEL texture (pixelx + 1) pixely + 1)
        + (1 - dx) * (1 - dy) * texel texture (PIXEL texture pixelx pixely + 1),
       dx * dy * texel texture (PIXEL texture (pixelx + 1) (pixely + 1) + 2)
        + (1 - dx) * dy * texel texture (PIXEL texture pixelx (pixely + 1) + 2)
        + dx * (1 - dy) * texel texture (PIXEL texture (pixelx + 1) pixely + 2)
        + (1 - dx) * (1 - dy) * texel texture (PIXEL texture pixelx pixely + 2)⟩
  | Interpolation.other _ => Except.error Thrown.bool

/-- The function `ColorTexture` (lines 276-317). -/
def ColorTexture (UV : Vec2f K) (texture : Texture) : Except Thrown (Vec3f K) :=
  match wrapUV UV texture with
  | Except.error e => Except.error e
  | Except.ok UV1 => sampleUV UV1 texture

/-- The start of `Diffuse` (lines 326-343): the texture of the primitive hit
and the texture coordinates of the hit, `none` when the primitive has no
texture (`texture_id == -1`). -/
def hitTexture (m : Libm K) (ray : Ray K) (hit : Hit K) (scene : Scene K) :
    Except Thrown (Option (Texture × Vec2f K)) :=
  match hit.hitType with
  | HitType.MESHHIT =>
    let mesh := vecAt scene.meshes hit.hitID Mesh.unset
    if mesh.texture_id ≠ -1 then
      Except.ok (some (vecAt scene.textures (mesh.texture_id - 1) Texture.unset,
        uvForTriangle ray (vecAt mesh.faces hit.faceID Face.unset)))
    else Except.ok none
  | HitType.TRIANGLEHIT =>
    let tr := vecAt scene.triangles hit.hitID Triangle.unset
    if tr.texture_id ≠ -1 then
      Except.ok (some (vecAt scene.textures (tr.texture_id - 1) Texture.unset,
        uvForTriangle ray tr.indices))
    else Except.ok none
  | HitType.SPHEREHIT =>
    let sphere := vecAt scene.spheres hit.hitID Sphere.unset
    if sphere.texture_id ≠ -1 then
      Except.ok (some (vecAt scene.textures (sphere.texture_id - 1) Texture.unset,
        uvForSphere m hit sphere))
    else Except.ok none
  | HitType.other _ => Except.error Thrown.char

/-- The end of `Diffuse` (lines 390-399): the coefficient `ret` scaled by the
cosine and the light's intensity over the squared distance. -/
def diffuseLit (m : Libm K) (hit : Hit K) (light : PointLight K) (ret : Vec3f K) : Vec3f K :=
  let toLight := light.position.sub hit.intersectPoint
  let dSquare := toLight.dot toLight
  let toLight := toLight.normalize m
  let temp := MAX (toLight.dot hit.normal) 0
  ⟨ret.x * temp * (light.intensity.x / dSquare),
   ret.y * temp * (light.intensity.y / dSquare),
   ret.z * temp * (light.intensity.z / dSquare)⟩

/-- The function `Diffuse` (lines 319-400); `light = none` is the call with a null
light. -/
def Diffuse (m : Libm K) (ray : Ray K) (hit : Hit K) (light : Option (PointLight K))
    (scene : Scene K) : Except Thrown (Vec3f K) :=
  match hitTexture m ray hit scene with
  | Except.error e => Except.error e
  | Except.ok (some (texture, UV)) =>
    match ColorTexture UV texture with
    | Except.error e => Except.error e
    | Except.ok ret =>
      match light with
      | none =>
        if texture.colormode = ColorMode.REPLACE_ALL then Except.ok ret
        else Except.ok ⟨0, 0, 0⟩
      | some light =>
        let ret : Vec3f K := ⟨ret.x / 255, ret.y / 255, ret.z / 255⟩
        if texture.colormode = ColorMode.REPLACE_ALL then Except.ok ⟨0, 0, 0⟩
        else if texture.colormode = ColorMode.REPLACE_KD then
          Except.ok (diffuseLit m hit light ret)
        else if texture.colormode = ColorMode.BLEND_KD then
          Except.ok (diffuseLit m hit light
            ⟨(ret.x + (hitMaterial hit scene).diffuse.x) / 2,
             (ret.y + (hitMaterial hit scene).diffuse.y) / 2,
             (ret.z + (hitMaterial hit scene).diffuse.z) / 2⟩)
        else Except.error Thrown.int
  | Except.ok none =>
    match light with
    | none => Except.ok ⟨0, 0, 0⟩
    | some light => Except.ok (diffuseLit m hit light (hitMaterial hit scene).diffuse)

/-- The function `isShadow` (lines 402-421). -/
def isShadow (m : Libm K) (hit : Hit K) (light : PointLight K) (scene : Scene K) : Bool :=
  let toLight := light.position.sub hit.intersectPoint
  let newRay : Ray K :=
    ⟨hit.intersectPoint.add (hit.normal.smul scene.shadow_ray_epsilon), toLight⟩
  let d := toLight.dot toLight
  let hitsh := ClosestHit m newRay scene
  if hitsh.hitOccur then
    let toShadow := hitsh.intersectPoint.sub hit.intersectPoint
    let ds := toShadow.dot toShadow
    if ds < d then true else false
  else false

/-- One iteration of the loop over the lights in `CalculateColor`
(lines 451-470). -/
def lightStep (m : Libm K) (ray : Ray K) (hit : Hit K) (scene : Scene K)
    (color : Vec3f K) (currentLight : PointLight K) : Except Thrown (Vec3f K) :=
  if isShadow m hit currentLight scene then Except.ok color
  else
    let color := color.add (Specular m ray hit currentLight scene)
    match Diffuse m ray hit (some currentLight) scene with
    | Except.error e => Except.error e
    | Except.ok diffuse => Except.ok (color.add diffuse)

/-- The loop over the lights in `CalculateColor` (line 450). -/
def lightLoop (m : Libm K) (ray : Ray K) (hit : Hit K) (scene : Scene K) :
    List (PointLight K) → Vec3f K → Except Thrown (Vec3f K)
  | [], color => Except.ok color
  | light :: rest, color =>
    match lightStep m ray hit scene color light with
    | Except.error e => Except.error e
    | Except.ok color1 => lightLoop m ray hit scene rest color1

/-- Lines 440-471 of `CalculateColor`: ambient colour, the call of `Diffuse`
without light, and the loop over the lights. -/
def directColor (m : Libm K) (ray : Ray K) (hit : Hit K) (scene : Scene K) :
    Except Thrown (Vec3f K) :=
  let color : Vec3f K :=
    ⟨0 + (hitMaterial hit scene).ambient.x * scene.ambient_light.x,
     0 + (hitMaterial hit scene).ambient.y * scene.ambient_light.y,
     0 + (hitMaterial hit scene).ambient.z * scene.ambient_light.z⟩
  match Diffuse m ray hit none scene with
  | Except.error e => Except.error e
  | Except.ok diffuse => lightLoop m ray hit scene scene.point_lights (color.add diffuse)

/-- The reflected ray of `CalculateColor` (lines 476-479). -/
def mirrorRay (m : Libm K) (ray : Ray K) (hit : Hit K) (scene : Scene K) : Ray K :=
  let toSource := (ray.start.sub hit.intersectPoint).normalize m
  ⟨hit.intersectPoint.add (hit.normal.smul scene.shadow_ray_epsilon),
   ((hit.normal.smul 2).smul (hit.normal.dot toSource)).sub toSource⟩

/-- The test `mirror.x || mirror.y || mirror.z` (line 475). -/
def hasMirror (mat : Material K) : Bool :=
  decide (mat.mirror.x ≠ 0) || decide (mat.mirror.y ≠ 0) || decide (mat.mirror.z ≠ 0)

/-- The three stores `ret[i] = clip(color.i)`: rounding, clipping and the
conversion to `unsigned char`.  For a colour whose rounded value is not
negative, `clip` gives an integer in `0..255` and the conversion keeps it.  A
negative rounded value is outside the range of `unsigned char` (the
conversion is undefined behaviour in C++); it is kept here as it is, so the
bytes of a colour are those of the program when `0 <= round(color.i)` in
each channel. -/
def clipRGB (color : Vec3f K) : RGB :=
  ⟨ctrunc (clip color.x), ctrunc (clip color.y), ctrunc (clip color.z)⟩

/-- The function `CalculateColor` (lines 423-493), together with a log: the values of
`iterationCount` passed to the recursive invocations of `CalculateColor` that the call
triggers, in the order they are made. -/
def CalculateColorLog (m : Libm K) (ray : Ray K) (iterationCount : Int) (scene : Scene K) :
    Except Thrown RGB × List Int :=
  if _hneg : iterationCount < 0 then (Except.ok ⟨0, 0, 0⟩, [])
  else
    let hit := ClosestHit m ray scene
    if !hit.hitOccur then (Except.ok (clipRGB scene.background_color), [])
    else
      match directColor m ray hit scene with
      | Except.error e => (Except.error e, [])
      | Except.ok color =>
        if hasMirror (hitMaterial hit scene) then
          let sub := CalculateColorLog m (mirrorRay m ray hit scene) (iterationCount - 1) scene
          match sub.1 with
          | Except.error e => (Except.error e, (iterationCount - 1) :: sub.2)
          | Except.ok mirrorness =>
            (Except.ok (clipRGB
              ⟨color.x + (mirrorness.r : K) * (hitMaterial hit scene).mirror.x,
               color.y + (mirrorness.g : K) * (hitMaterial hit scene).mirror.y,
               color.z + (mirrorness.b : K) * (hitMaterial hit scene).mirror.z⟩),
             (iterationCount - 1) :: sub.2)
        else (Except.ok (clipRGB color), [])
termination_by (iterationCount + 1).toNat
decreasing_by omega

/-- The function `CalculateColor`: the colour of the pixel, or the value thrown. -/
def CalculateColor (m : Libm K) (ray : Ray K) (iterationCount : Int) (scene : Scene K) :
    Except Thrown RGB :=
  (CalculateColorLog m ray iterationCount scene).1

/-- The recursive invocations of `CalculateColor` that a call triggers: their
arguments `iterationCount`, in the order the invocations are made. -/
def CalculateColorCalls (m : Libm K) (ray : Ray K) (iterationCount : Int) (scene : Scene K) :
    List Int :=
  (CalculateColorLog m ray iterationCount scene).2

end Shader

/-! ## Ray generation and the workers -/

/-- The pixel buffer `unsigned char* image`: the byte at each index. -/
abbrev Image := Int → Int

section Workers

variable {K : Type} [LinearOrderedField K] [FloorRing K]

/-- The store `image[idx] = value`. -/
def store (image : Image) (idx value : Int) : Image :=
  fun n => if n = idx then value else image n

end Workers

section IntersectorSpec

variable {K : Type} [LinearOrderedField K]

/-- The face indices of the leaves below a node of the hierarchy. -/
def Box.facesBelow : Box K → List Int
  | Box.null => []
  | Box.node _ _ left right leftindex rigthindex =>
    if left.isNull && right.isNull then faceRange leftindex rigthindex
    else left.facesBelow ++ right.facesBelow

/-- The three vertices of a face lie in the closed box. -/
def FaceInBox (f : Face K) (bmin bmax : Vec3f K) : Prop :=
  InBox f.v0.coordinates bmin bmax ∧ InBox f.v1.coordinates bmin bmax
    ∧ InBox f.v2.coordinates bmin bmax

/-- Every node's box contains every triangle of the leaf ranges below it. -/
def Box.Contains (mesh : Mesh K) : Box K → Prop
  | Box.null => True
  | Box.node bmin bmax left right leftindex rigthindex =>
    (∀ i ∈ (Box.node bmin bmax left right leftindex rigthindex).facesBelow,
        FaceInBox (vecAt mesh.faces i Face.unset) bmin bmax)
      ∧ left.Contains mesh ∧ right.Contains mesh

/-- A well-formed hierarchy: the leaf ranges index faces of the mesh, together
they cover every face, and every node's box contains the triangles below
it. -/
def WellFormedBVH (mesh : Mesh K) : Prop :=
  (∀ i ∈ mesh.head.facesBelow, 0 ≤ i ∧ i < (mesh.faces.length : Int))
    ∧ (∀ i : Int, 0 ≤ i → i < (mesh.faces.length : Int) → i ∈ mesh.head.facesBelow)
    ∧ mesh.head.Contains mesh

/-- The invariant of the closest-hit loops on the state `(ret, tmin)`, after
the candidates `P` (a tag and a ray parameter each, in the order tested):
without a hit, `tmin` is still `DBL_MAX` and no candidate was below it; with
a hit, `ret` is the first candidate of least parameter. -/
def ScanInv {τ : Type} (ray : Ray K) (tag : Hit K → τ) (st : Hit K × K)
    (P : List (τ × K)) : Prop :=
  (st.1.hitOccur = false → st.2 = DBL_MAX ∧ ∀ c ∈ P, DBL_MAX ≤ c.2)
  ∧ (st.1.hitOccur = true →
      st.1.t = st.2 ∧ st.2 < DBL_MAX
      ∧ st.1.intersectPoint = ray.start.add (ray.dir.smul st.1.t)
      ∧ ∃ pre post : List (τ × K), P = pre ++ (tag st.1, st.2) :: post
          ∧ (∀ c ∈ pre, st.2 < c.2) ∧ (∀ c ∈ post, st.2 ≤ c.2))

/-- The faces among `ids` that the ray strikes, with their ray parameter, in
the order of `ids`. -/
def faceCands (ray : Ray K) (mesh : Mesh K) (ids : List Int) : List (Int × K) :=
  ids.filterMap (fun i =>
    if ray_triangle_intersect ray (vecAt mesh.faces i Face.unset) ≥ 0 then
      some (i, ray_triangle_intersect ray (vecAt mesh.faces i Face.unset))
    else none)

/-- The result `r` of a traversal is a closest struck face among `ids`: `none`
when no struck face has a parameter below `DBL_MAX`, else a hit whose `t` is
the least parameter of the struck faces. -/
def IsClosest (ray : Ray K) (mesh : Mesh K) (ids : List Int) (r : Option (Hit K)) : Prop :=
  match r with
  | none => ∀ i ∈ ids, ray_triangle_intersect ray (vecAt mesh.faces i Face.unset) ≥ 0 →
      DBL_MAX ≤ ray_triangle_intersect ray (vecAt mesh.faces i Face.unset)
  | some h =>
    (∃ i ∈ ids, ray_triangle_intersect ray (vecAt mesh.faces i Face.unset) ≥ 0
        ∧ h.t = ray_triangle_intersect ray (vecAt mesh.faces i Face.unset))
    ∧ h.t < DBL_MAX
    ∧ ∀ i ∈ ids, ray_triangle_intersect ray (vecAt mesh.faces i Face.unset) ≥ 0 →
        h.t ≤ ray_triangle_intersect ray (vecAt mesh.faces i Face.unset)

end IntersectorSpec

/-! ## Concrete inputs -/

/-- A `math.h` for evaluating the definitions at rational inputs: `sqrt` is
exact on squares of rationals, `pow` takes the integer part of the exponent;
the trigonometric entries are placeholders that no evaluation below uses. -/
def ratLibm : Libm ℚ :=
  { sqrt := Rat.sqrt, pow := fun x y => x ^ (Int.floor y), acos := fun _ => 0,
    atan2 := fun _ _ => 0, pi := 22 / 7 }

/-- A sphere without material or texture, with the standard frame. -/
def sph (cx cy cz r : ℚ) : Sphere ℚ := ⟨⟨cx, cy, cz⟩, r, 1, -1, ⟨1, 0, 0⟩, ⟨0, 1, 0⟩, ⟨0, 0, 1⟩⟩

/-- The ray from `(2, 2, 2)` in direction `(-1, -1, -1)`. -/
def diagRay : Ray ℚ := ⟨⟨2, 2, 2⟩, ⟨-1, -1, -1⟩⟩

/-- The ray from `(0, 0, 3)` in direction `(0, 0, -1)`. -/
def axisRay : Ray ℚ := ⟨⟨0, 0, 3⟩, ⟨0, 0, -1⟩⟩

/-- A vertex without texture coordinates. -/
def vtx (x y z : ℚ) : Vertex ℚ := ⟨⟨x, y, z⟩, 0, 0⟩

/-- The triangle `(0,0,0), (1,0,0), (0,1,0)` with normal `(0,0,1)`. -/
def unitTriangle : Face ℚ := ⟨vtx 0 0 0, vtx 1 0 0, vtx 0 1 0, ⟨0, 0, 1⟩⟩

/-- The ray from `(0.25, 0.25, 1)` in direction `(0, 0, -1)`. -/
def downRay : Ray ℚ := ⟨⟨1/4, 1/4, 1⟩, ⟨0, 0, -1⟩⟩

/-- A ray that reaches the plane `z = 0` at the point `(1/4, 1/4, 0)` when its
parameter is `T`; no component of its direction is zero. -/
def slantRay (T : ℚ) : Ray ℚ := ⟨⟨1 / 4 - T, 1 / 4 - T, T⟩, ⟨1, 1, -1⟩⟩

/-- The slanted ray that reaches the triangle at the parameter `DBL_MAX`. -/
def farRay : Ray ℚ := slantRay DBL_MAX

/-- A mesh of one face, `unitTriangle`, under a hierarchy of one leaf whose box
is the bounding box of the face. -/
def farMesh : Mesh ℚ :=
  ⟨[unitTriangle], 1, -1, Box.node ⟨0, 0, 0⟩ ⟨1, 1, 0⟩ Box.null Box.null 0 1⟩

section ClosestHitSpec

variable {K : Type} [LinearOrderedField K]

/-- The candidates a loop `for (id = first; ...; id++)` over a vector sees, in
the order tested. -/
def indexedCands {α β : Type} (cand : Int → α → List β) : List α → Int → List β
  | [], _ => []
  | x :: rest, id => cand id x ++ indexedCands cand rest (id + 1)

/-- A mesh is struck when `meshBVH` returns a hit; its parameter is the `t` of
that hit. -/
def meshCand (ray : Ray K) (meshID : Int) (mesh : Mesh K) : List ((HitType × Int) × K) :=
  match meshBVH ray mesh.head mesh with
  | some meshHit => [((HitType.MESHHIT, meshID), meshHit.t)]
  | none => []

/-- A free triangle is struck when `ray_triangle_intersect` is not the miss value. -/
def triangleCand (ray : Ray K) (triangleID : Int) (tr : Triangle K) :
    List ((HitType × Int) × K) :=
  if ray_triangle_intersect ray tr.indices ≠ -1 then
    [((HitType.TRIANGLEHIT, triangleID), ray_triangle_intersect ray tr.indices)]
  else []

/-- A sphere is struck when `ray_sphere_intersect` is not negative. -/
def sphereCand (m : Libm K) (ray : Ray K) (sphereID : Int) (sphere : Sphere K) :
    List ((HitType × Int) × K) :=
  if ray_sphere_intersect m ray sphere < 0 then []
  else [((HitType.SPHEREHIT, sphereID), ray_sphere_intersect m ray sphere)]

/-- The struck primitives of the scene with their kind, index and ray
parameter, in the order `ClosestHit` tests them: meshes, then free triangles,
then spheres, each kind by increasing index. -/
def struck (m : Libm K) (ray : Ray K) (scene : Scene K) : List ((HitType × Int) × K) :=
  indexedCands (meshCand ray) scene.meshes 0
    ++ indexedCands (triangleCand ray) scene.triangles 0
    ++ indexedCands (sphereCand m ray) scene.spheres 0

/-- No primitive of the scene is struck: `meshBVH` returns no hit for every
mesh, `ray_triangle_intersect` is a miss for every free triangle and `ray_sphere_intersect` is
negative for every sphere. -/
def NothingStruck (m : Libm K) (ray : Ray K) (scene : Scene K) : Prop :=
  (∀ mesh ∈ scene.meshes, meshBVH ray mesh.head mesh = none)
  ∧ (∀ tr ∈ scene.triangles, ray_triangle_intersect ray tr.indices = -1)
  ∧ (∀ sphere ∈ scene.spheres, ray_sphere_intersect m ray sphere < 0)

/-- What every hit record of a mesh traversal satisfies. -/
def MeshHitOK (ray : Ray K) (h : Hit K) : Prop :=
  h.hitOccur = true ∧ h.hitType = HitType.MESHHIT
    ∧ h.intersectPoint = ray.start.add (ray.dir.smul h.t) ∧ 0 < h.t

end ClosestHitSpec

/-- A scene with nothing in it: black background, no light. -/
def emptyScene : Scene ℚ :=
  { background_color := ⟨0, 0, 0⟩, ambient_light := ⟨0, 0, 0⟩, shadow_ray_epsilon := 1 / 1000,
    max_recursion_depth := 0, point_lights := [], materials := [], textures := [],
    meshes := [], triangles := [], spheres := [] }

/-- The ray from `(1/4, 1/4, DBL_MAX)` in direction `(0, 0, -1)`: it reaches the
plane `z = 0` at the parameter `DBL_MAX`. -/
def highRay : Ray ℚ := ⟨⟨1 / 4, 1 / 4, DBL_MAX⟩, ⟨0, 0, -1⟩⟩

/-- A scene whose only primitive is the free triangle `unitTriangle`. -/
def triangleScene : Scene ℚ := { emptyScene with triangles := [⟨unitTriangle, 1, -1⟩] }

/-- A scene whose only primitives are two copies of `unitTriangle`. -/
def twoTriangleScene : Scene ℚ :=
  { emptyScene with triangles := [⟨unitTriangle, 1, -1⟩, ⟨unitTriangle, 1, -1⟩] }

/-- A scene whose only primitive is the unit sphere at the origin. -/
def sphereScene : Scene ℚ := { emptyScene with spheres := [sph 0 0 0 1] }

/-- The ray from the point `(1, 0, 0)` of the unit sphere, pointing away from
it in direction `(1, 0, 0)`. -/
def outwardRay : Ray ℚ := ⟨⟨1, 0, 0⟩, ⟨1, 0, 0⟩⟩

section ShaderSpec

variable {K : Type} [LinearOrderedField K] [FloorRing K]

/-- The colour `color` after the specular terms of the lights that `isShadow`
does not report as occluded are added to it, light after light. -/
def specularSum (m : Libm K) (ray : Ray K) (hit : Hit K) (scene : Scene K) :
    List (PointLight K) → Vec3f K → Vec3f K
  | [], color => color
  | light :: rest, color =>
    specularSum m ray hit scene rest
      (if isShadow m hit light scene then color
        else color.add (Specular m ray hit light scene))

/-- The colour of a hit on a `REPLACE_ALL` texture before rounding: the
ambient term `material.ambient * scene.ambient_light` of the material
`scene.materials[hit.materialID - 1]` plus the sampled texture colour, then
the specular terms of the lights not in shadow. -/
def replaceAllSum (m : Libm K) (ray : Ray K) (hit : Hit K) (scene : Scene K)
    (sampled : Vec3f K) : Vec3f K :=
  specularSum m ray hit scene scene.point_lights
    ⟨(vecAt scene.materials (hit.materialID - 1) Material.unset).ambient.x
        * scene.ambient_light.x + sampled.x,
     (vecAt scene.materials (hit.materialID - 1) Material.unset).ambient.y
        * scene.ambient_light.y + sampled.y,
     (vecAt scene.materials (hit.materialID - 1) Material.unset).ambient.z
        * scene.ambient_light.z + sampled.z⟩

/-- The rounded value of every channel of `color` is not negative: `clip`
then gives integers in `0..255`, which the conversion to `unsigned char`
keeps. -/
def ByteColour (color : Vec3f K) : Prop :=
  0 ≤ cround color.x ∧ 0 ≤ cround color.y ∧ 0 ≤ cround color.z

end ShaderSpec

/-- A material that reflects: ambient `(1,1,1)`, mirror `(1,1,1)`. -/
def mirrorMaterial : Material ℚ := ⟨⟨1, 1, 1⟩, ⟨0, 0, 0⟩, ⟨0, 0, 0⟩, ⟨1, 1, 1⟩, 1⟩

/-- The unit sphere at the origin, of a reflecting material. -/
def mirrorScene : Scene ℚ := { sphereScene with materials := [mirrorMaterial] }

/-- A texture of one texel `(100, 100, 100)` with colour mode `REPLACE_ALL`. -/
def flatTexture : Texture :=
  ⟨[100, 100, 100], 1, 1, RepeatMode.REPEAT, Interpolation.NEAREST, ColorMode.REPLACE_ALL⟩

/-- A material that does not reflect: ambient, diffuse and specular
`(1,1,1)`, mirror `(0,0,0)`. -/
def texMaterial : Material ℚ := ⟨⟨1, 1, 1⟩, ⟨1, 1, 1⟩, ⟨1, 1, 1⟩, ⟨0, 0, 0⟩, 1⟩

/-- The triangle `unitTriangle` with the texture `flatTexture`, under an
ambient light `(10, 10, 10)` and without point light. -/
def texScene : Scene ℚ :=
  { emptyScene with
      ambient_light := ⟨10, 10, 10⟩
      materials := [texMaterial]
      textures := [flatTexture]
      triangles := [⟨unitTriangle, 1, 1⟩] }

section DiffuseSpec

variable {K : Type} [LinearOrderedField K] [FloorRing K]

/-- The `texture_id` of the primitive a hit names (`-1` when the primitive has
no texture); `none` when `hitType` is none of the three kinds. -/
def hitTextureId (hit : Hit K) (scene : Scene K) : Option Int :=
  match hit.hitType with
  | HitType.MESHHIT => some (vecAt scene.meshes hit.hitID Mesh.unset).texture_id
  | HitType.TRIANGLEHIT => some (vecAt scene.triangles hit.hitID Triangle.unset).texture_id
  | HitType.SPHEREHIT => some (vecAt scene.spheres hit.hitID Sphere.unset).texture_id
  | HitType.other _ => none

/-- The texture coordinates of a hit: those `uvForTriangle` gives for the face
hit, of a mesh or a free triangle, and those `uvForSphere` gives for the sphere
hit. -/
def hitUV (m : Libm K) (ray : Ray K) (hit : Hit K) (scene : Scene K) : Vec2f K :=
  match hit.hitType with
  | HitType.MESHHIT =>
    uvForTriangle ray (vecAt (vecAt scene.meshes hit.hitID Mesh.unset).faces hit.faceID
      Face.unset)
  | HitType.TRIANGLEHIT =>
    uvForTriangle ray (vecAt scene.triangles hit.hitID Triangle.unset).indices
  | HitType.SPHEREHIT => uvForSphere m hit (vecAt scene.spheres hit.hitID Sphere.unset)
  | HitType.other _ => ⟨0, 0⟩

/-- The diffuse term as the specification writes it, per channel:
`Kd * max(N . toLight, 0) * light.intensity / d^2`, with
`toLight = normalize(light.position - hit.point)` and
`d^2 = |light.position - hit.point|^2`. -/
def lambert (m : Libm K) (hit : Hit K) (light : PointLight K) (Kd : Vec3f K) : Vec3f K :=
  let toLight := (light.position.sub hit.intersectPoint).normalize m
  let dsq := (light.position.sub hit.intersectPoint).dot
    (light.position.sub hit.intersectPoint)
  ⟨Kd.x * max (hit.normal.dot toLight) 0 * light.intensity.x / dsq,
   Kd.y * max (hit.normal.dot toLight) 0 * light.intensity.y / dsq,
   Kd.z * max (hit.normal.dot toLight) 0 * light.intensity.z / dsq⟩

end DiffuseSpec

section SpecularSpec

variable {K : Type} [LinearOrderedField K]

/-- The value `temp = halfWay.dot(hit.normal)` of `Specular` (lines 226-232):
the cosine `H . N` between the half vector and the normal. -/
def halfwayDot (m : Libm K) (ray : Ray K) (hit : Hit K) (light : PointLight K) : K :=
  let toSource := (ray.start.sub hit.intersectPoint).normalize m
  let toLight := (light.position.sub hit.intersectPoint).normalize m
  ((toSource.add toLight).normalize m).dot hit.normal

end SpecularSpec

/-- The ray from `(1/4, 1/4, -1)` in direction `(0, 0, 1)`: it reaches
`unitTriangle` from the side its normal points away from. -/
def upRay : Ray ℚ := ⟨⟨1 / 4, 1 / 4, -1⟩, ⟨0, 0, 1⟩⟩

/-- A point light above the plane of `unitTriangle`, at distance 25 from the
point `(1/4, 1/4, 0)`, of intensity 625. -/
def highLight : PointLight ℚ := ⟨⟨1 / 4 + 24, 1 / 4, 7⟩, ⟨625, 625, 625⟩⟩

/-- The triangle `unitTriangle`, of material `texMaterial` (specular `(1,1,1)`,
Phong exponent 1), lit by `highLight`. -/
def backScene : Scene ℚ :=
  { emptyScene with
      materials := [texMaterial]
      triangles := [⟨unitTriangle, 1, -1⟩]
      point_lights := [highLight] }

section SamplerSpec

variable {K : Type} [LinearOrderedField K] [FloorRing K]

/-- The byte indices of `texture.image` that the filtering of `ColorTexture`
reads (lines 293-311), in the order of the source, on wrapped coordinates. -/
def sampleReads (UV : Vec2f K) (texture : Texture) : List Int :=
  let pixelx : Int := ROUND (UV.x * (texture.width : K))
  let pixely : Int := ROUND (UV.y * (texture.height : K))
  match texture.interpolation with
  | Interpolation.NEAREST =>
    [PIXEL texture pixelx pixely, PIXEL texture pixelx pixely + 1,
      PIXEL texture pixelx pixely + 2]
  | Interpolation.BILINEAR =>
    [PIXEL texture (pixelx + 1) (pixely + 1), PIXEL texture pixelx (pixely + 1),
      PIXEL texture (pixelx + 1) pixely, PIXEL texture pixelx pixely,
      PIXEL texture (pixelx + 1) (pixely + 1) + 1, PIXEL texture pixelx (pixely + 1) + 1,
      PIXEL texture (pixelx + 1) pixely + 1, PIXEL texture pixelx pixely + 1,
      PIXEL texture (pixelx + 1) (pixely + 1) + 2, PIXEL texture pixelx (pixely + 1) + 2,
      PIXEL texture (pixelx + 1) pixely + 2, PIXEL texture pixelx pixely + 2]
  | Interpolation.other _ => []

/-- The byte indices of `texture.image` that `ColorTexture` reads. -/
def ColorTextureReads (UV : Vec2f K) (texture : Texture) : List Int :=
  match wrapUV UV texture with
  | Except.error _ => []
  | Except.ok UV1 => sampleReads UV1 texture

/-- The texels `(x, y)` that `ColorTexture` addresses: `(px, py)` for
`NEAREST`, and also `(px+1, py)`, `(px, py+1)`, `(px+1, py+1)` for `BILINEAR`,
on wrapped coordinates. -/
def sampleTexels (UV : Vec2f K) (texture : Texture) : List (Int × Int) :=
  let pixelx : Int := ROUND (UV.x * (texture.width : K))
  let pixely : Int := ROUND (UV.y * (texture.height : K))
  match texture.interpolation with
  | Interpolation.NEAREST => [(pixelx, pixely)]
  | Interpolation.BILINEAR =>
    [(pixelx, pixely), (pixelx + 1, pixely), (pixelx, pixely + 1), (pixelx + 1, pixely + 1)]
  | Interpolation.other _ => []

end SamplerSpec

/-- A texture of one texel with repeat mode `CLAMP` and `NEAREST`
interpolation: `width = height = 1`, an image of `3 * 1 * 1` bytes. -/
def clampTexture : Texture :=
  ⟨[100, 100, 100], 1, 1, RepeatMode.CLAMP, Interpolation.NEAREST, ColorMode.REPLACE_KD⟩

/-- A texture of `4 x 2` texels with `BILINEAR` interpolation: the texel
`(1, 0)` is `(255, 255, 255)`, the seven others are `(0, 0, 0)`. -/
def stripTexture : Texture :=
  ⟨[0, 0, 0, 255, 255, 255, 0, 0, 0, 0, 0, 0,
    0, 0, 0, 0, 0, 0, 0, 0, 0, 0, 0, 0],
   4, 2, RepeatMode.REPEAT, Interpolation.BILINEAR, ColorMode.REPLACE_KD⟩

/-- A texture of `4 x 1` texels with repeat mode `REPEAT` and `NEAREST`
interpolation: an image of `3 * 4 * 1` bytes. -/
def quadTexture : Texture :=
  ⟨[10, 10, 10, 20, 20, 20, 30, 30, 30, 40, 40, 40],
   4, 1, RepeatMode.REPEAT, Interpolation.NEAREST, ColorMode.REPLACE_KD⟩

/-- A texture like `flatTexture` whose colour mode is none of `REPLACE_KD`,
`BLEND_KD`, `REPLACE_ALL`. -/
def oddTexture : Texture :=
  ⟨[100, 100, 100], 1, 1, RepeatMode.REPEAT, Interpolation.NEAREST, ColorMode.other 7⟩

/-- The scene `texScene` with the texture of its triangle replaced by
`oddTexture`; there is no point light. -/
def oddScene : Scene ℚ := { texScene with textures := [oddTexture] }

/-- A scene whose only primitive is a sphere of radius 0 at the origin. -/
def pointScene : Scene ℚ := { emptyScene with spheres := [sph 0 0 0 0] }

section WorkersSpec

variable {K : Type} [LinearOrderedField K] [FloorRing K]

/-- A list of stores applied to a buffer, one after the other. -/
def applyStores (l : List (Int × Int)) (image : Image) : Image :=
  l.foldl (fun im s => store im s.1 s.2) image

end WorkersSpec

section ShadowSpec

variable {K : Type} [LinearOrderedField K]

/-- The ray `newRay` of `isShadow` (lines 406-409): from the hit point moved by
`shadow_ray_epsilon` along the normal, with direction the vector from the hit
point to the light. -/
def shadowRay (hit : Hit K) (light : PointLight K) (scene : Scene K) : Ray K :=
  ⟨hit.intersectPoint.add (hit.normal.smul scene.shadow_ray_epsilon),
    light.position.sub hit.intersectPoint⟩

/-- The record `h` holds the parameter and the normal of face `h.faceID` of
`mesh`, a face of the mesh. -/
def FaceOf (ray : Ray K) (mesh : Mesh K) (h : Hit K) : Prop :=
  vecAt mesh.faces h.faceID Face.unset ∈ mesh.faces
  ∧ h.t = ray_triangle_intersect ray (vecAt mesh.faces h.faceID Face.unset)
  ∧ h.normal = (vecAt mesh.faces h.faceID Face.unset).normal

/-- The record `h` was produced by the primitive of the scene it names
through `hitType`, `hitID` and `faceID`: that primitive is in the scene, `h.t`
is its intersection parameter with `ray` and `h.normal` its normal. -/
def HitOf (m : Libm K) (ray : Ray K) (scene : Scene K) (h : Hit K) : Prop :=
  (h.hitType = HitType.MESHHIT
    ∧ vecAt scene.meshes h.hitID Mesh.unset ∈ scene.meshes
    ∧ FaceOf ray (vecAt scene.meshes h.hitID Mesh.unset) h)
  ∨ (h.hitType = HitType.TRIANGLEHIT
    ∧ vecAt scene.triangles h.hitID Triangle.unset ∈ scene.triangles
    ∧ h.t = ray_triangle_intersect ray (vecAt scene.triangles h.hitID Triangle.unset).indices
    ∧ h.normal = (vecAt scene.triangles h.hitID Triangle.unset).indices.normal)
  ∨ (h.hitType = HitType.SPHEREHIT
    ∧ vecAt scene.spheres h.hitID Sphere.unset ∈ scene.spheres
    ∧ h.t = ray_sphere_intersect m ray (vecAt scene.spheres h.hitID Sphere.unset)
    ∧ h.normal = (h.intersectPoint.sub
        (vecAt scene.spheres h.hitID Sphere.unset).center_vertex).normalize m)

/-- Two hit records name the same primitive: same `hitType`, `hitID` and
`faceID`. -/
def SamePrimitive (a b : Hit K) : Prop :=
  a.hitType = b.hitType ∧ a.hitID = b.hitID ∧ a.faceID = b.faceID

/-- The stored normal of a face is a non-zero vector perpendicular to the
two edges from `v0`. -/
def FlatNormal (f : Face K) : Prop :=
  f.normal.dot (f.v1.coordinates.sub f.v0.coordinates) = 0
  ∧ f.normal.dot (f.v2.coordinates.sub f.v0.coordinates) = 0
  ∧ f.normal ≠ ⟨0, 0, 0⟩

/-- The function `sqrt` is a square root at `x` whenever `x` is not negative. -/
def SqrtExact (m : Libm K) (x : K) : Prop := 0 ≤ x → SqrtAt m x

end ShadowSpec

/-- A light at `(0, 0, -5)`, below the unit sphere. -/
def backLight : PointLight ℚ := ⟨⟨0, 0, -5⟩, ⟨1, 1, 1⟩⟩

/-- The unit sphere at the origin lit by `backLight`. -/
def darkSideScene : Scene ℚ := { sphereScene with point_lights := [backLight] }

/-- A light at `(0, 0, 6)`, above the unit sphere. -/
def frontLight : PointLight ℚ := ⟨⟨0, 0, 6⟩, ⟨1, 1, 1⟩⟩

/-- The unit sphere at the origin lit by `frontLight`. -/
def litSideScene : Scene ℚ := { sphereScene with point_lights := [frontLight] }

section ScaleSpec

variable {K : Type} [LinearOrderedField K]

/-- The ray `(e, k*d)`: the ray `(e, d)` with its direction scaled by `k`. -/
def scaleRay (ray : Ray K) (k : K) : Ray K := ⟨ray.start, ray.dir.smul k⟩

/-- The hit record `h` with its parameter divided by `k`. -/
def Hit.scaleT (h : Hit K) (k : K) : Hit K := { h with t := h.t / k }

/-- The parameter `t` is below `DBL_MAX` for the ray and for the ray scaled
by `k`, where it becomes `t / k`. -/
def BelowMax (k t : K) : Prop := t < DBL_MAX ∧ t / k < DBL_MAX

/-- How the parameter `t` of a primitive for the ray and its parameter `t2`
for the scaled ray are related: both pass the test `>= 0` or neither, and
then `t2 = t / k`. -/
def CandRel (k t t2 : K) : Prop := (0 ≤ t2 ↔ 0 ≤ t) ∧ (0 ≤ t → t2 = t / k)

/-- How the loop state `(ret, tmin)` of a closest-hit loop for the ray and
the state for the scaled ray are related: the records agree up to the
parameter, divided by `k`; without a hit both `tmin` are `DBL_MAX`, with a hit
the second is the first divided by `k`. -/
def ScaleRel (k : K) (st st2 : Hit K × K) : Prop :=
  st2.1 = st.1.scaleT k
  ∧ ((st.1.hitOccur = false ∧ st.2 = DBL_MAX ∧ st2.2 = DBL_MAX)
    ∨ (st.1.hitOccur = true ∧ st2.2 = st.2 / k))

end ScaleSpec

section MirrorSpec

variable {K : Type} [LinearOrderedField K] [FloorRing K]

/-- The material with its `mirror` set to `(0,0,0)`. -/
def Material.noMirror (mat : Material K) : Material K := { mat with mirror := ⟨0, 0, 0⟩ }

/-- The scene with the `mirror` of every material set to `(0,0,0)`. -/
def Scene.noMirror (scene : Scene K) : Scene K :=
  { scene with materials := scene.materials.map Material.noMirror }

/-- The colour made of the ambient term, the texture and the direct diffuse
and specular lighting only: the background when the ray hits nothing, else
the colour of lines 440-471 of `CalculateColor`, rounded and clipped. -/
def directOnly (m : Libm K) (ray : Ray K) (scene : Scene K) : Except Thrown RGB :=
  if !(ClosestHit m ray scene).hitOccur then Except.ok (clipRGB scene.background_color)
  else (directColor m ray (ClosestHit m ray scene) scene).map clipRGB

end MirrorSpec

/-- A hit record at the point `(2, 3, 0)` of the plane of `unitTriangle`
(outside the triangle), with the normal of the triangle. -/
def planeHit : Hit ℚ :=
  { (Hit.unset : Hit ℚ) with hitOccur := true, intersectPoint := ⟨2, 3, 0⟩, normal := ⟨0, 0, 1⟩ }

/-! # Theorems -/

section GeometryFacts

variable {K : Type} [LinearOrderedField K]

theorem specDet_eq_triDet (ray : Ray K) (triangle : Face K) :
    specDet ray triangle = triDet ray triangle := by
  simp only [specDet, triDet, cross, Vec3f.dot, Vec3f.sub]; ring

theorem onTriangleAt_iff (ray : Ray K) (triangle : Face K) (beta gamma t : K) :
    OnTriangleAt ray triangle beta gamma t ↔
      (ray.start.x + ray.dir.x * t = triangle.v0.coordinates.x
          + (triangle.v1.coordinates.x - triangle.v0.coordinates.x) * beta
          + (triangle.v2.coordinates.x - triangle.v0.coordinates.x) * gamma)
      ∧ (ray.start.y + ray.dir.y * t = triangle.v0.coordinates.y
          + (triangle.v1.coordinates.y - triangle.v0.coordinates.y) * beta
          + (triangle.v2.coordinates.y - triangle.v0.coordinates.y) * gamma)
      ∧ (ray.start.z + ray.dir.z * t = triangle.v0.coordinates.z
          + (triangle.v1.coordinates.z - triangle.v0.coordinates.z) * beta
          + (triangle.v2.coordinates.z - triangle.v0.coordinates.z) * gamma) := by
  simp only [OnTriangleAt, Vec3f.add, Vec3f.smul, Vec3f.sub, Vec3f.mk.injEq]

/-- Cramer's rule, uniqueness: with a non-zero determinant, any solution of
the hit equation is the one the program computes. -/
theorem onTriangleAt_unique (ray : Ray K) (triangle : Face K) (beta gamma t : K)
    (hdet : triDet ray triangle ≠ 0) (h : OnTriangleAt ray triangle beta gamma t) :
    beta = triBeta ray triangle ∧ gamma = triGamma ray triangle ∧ t = triT ray triangle := by
  rw [onTriangleAt_iff] at h
  obtain ⟨hx, hy, hz⟩ := h
  have hx1 : ray.start.x - triangle.v0.coordinates.x
      = (triangle.v1.coordinates.x - triangle.v0.coordinates.x) * beta
        + (triangle.v2.coordinates.x - triangle.v0.coordinates.x) * gamma
        - ray.dir.x * t := by linear_combination hx
  have hy1 : ray.start.y - triangle.v0.coordinates.y
      = (triangle.v1.coordinates.y - triangle.v0.coordinates.y) * beta
        + (triangle.v2.coordinates.y - triangle.v0.coordinates.y) * gamma
        - ray.dir.y * t := by linear_combination hy
  have hz1 : ray.start.z - triangle.v0.coordinates.z
      = (triangle.v1.coordinates.z - triangle.v0.coordinates.z) * beta
        + (triangle.v2.coordinates.z - triangle.v0.coordinates.z) * gamma
        - ray.dir.z * t := by linear_combination hz
  refine ⟨?_, ?_, ?_⟩
  · rw [triBeta, eq_div_iff hdet]
    simp only [hx1, hy1, hz1, triDet]; ring
  · rw [triGamma, eq_div_iff hdet]
    simp only [hx1, hy1, hz1, triDet]; ring
  · rw [triT, eq_div_iff hdet]
    simp only [hx1, hy1, hz1, triDet]; ring

/-- Cramer's rule, existence: with a non-zero determinant, the values the
program computes solve the hit equation. -/
theorem onTriangleAt_cramer (ray : Ray K) (triangle : Face K)
    (hdet : triDet ray triangle ≠ 0) :
    OnTriangleAt ray triangle (triBeta ray triangle) (triGamma ray triangle)
      (triT ray triangle) := by
  rw [onTriangleAt_iff]
  simp only [triBeta, triGamma, triT]
  have hdet1 := hdet
  simp only [triDet] at hdet1
  refine ⟨?_, ?_, ?_⟩ <;>
  · field_simp
    simp only [triDet]
    ring

theorem ray_triangle_intersect_hit (ray : Ray K) (triangle : Face K)
    (h : ray_triangle_intersect ray triangle ≠ -1) :
    triDet ray triangle ≠ 0 ∧ triBeta ray triangle ≥ 0 ∧ triGamma ray triangle ≥ 0
      ∧ triBeta ray triangle + triGamma ray triangle ≤ 1 ∧ triT ray triangle > 0
      ∧ ray_triangle_intersect ray triangle = triT ray triangle := by
  unfold ray_triangle_intersect at h ⊢
  split_ifs at h ⊢ with h0 h1
  · exact absurd rfl h
  · exact ⟨h0, h1.1, h1.2.1, h1.2.2.1, h1.2.2.2, rfl⟩
  · exact absurd rfl h

theorem ray_triangle_intersect_of_cond (ray : Ray K) (triangle : Face K)
    (h0 : triDet ray triangle ≠ 0)
    (h1 : triBeta ray triangle ≥ 0 ∧ triGamma ray triangle ≥ 0
      ∧ triBeta ray triangle + triGamma ray triangle ≤ 1 ∧ triT ray triangle > 0) :
    ray_triangle_intersect ray triangle = triT ray triangle := by
  unfold ray_triangle_intersect
  rw [if_neg h0, if_pos h1]

/-- The value returned by `ray_triangle_intersect` is the miss value `-1` or positive. -/
theorem ray_triangle_intersect_miss_or_pos (ray : Ray K) (triangle : Face K) :
    ray_triangle_intersect ray triangle = -1 ∨ 0 < ray_triangle_intersect ray triangle := by
  by_cases h : ray_triangle_intersect ray triangle = -1
  · exact Or.inl h
  · obtain ⟨_, _, _, _, ht, he⟩ := ray_triangle_intersect_hit ray triangle h
    exact Or.inr (he ▸ ht)

/-- The scenario of the spec: the ray from `(0.25, 0.25, 1)` towards `-z`
strikes the triangle `(0,0,0),(1,0,0),(0,1,0)` at `t = 1`, with
`beta = gamma = 0.25`. -/
theorem downRay_facts :
    ray_triangle_intersect downRay unitTriangle = 1
      ∧ triBeta downRay unitTriangle = 1 / 4 ∧ triGamma downRay unitTriangle = 1 / 4 := by
  have hd : triDet downRay unitTriangle = 1 := by
    norm_num [triDet, downRay, unitTriangle, vtx]
  have hb : triBeta downRay unitTriangle = 1 / 4 := by
    rw [triBeta, hd]; norm_num [downRay, unitTriangle, vtx]
  have hg : triGamma downRay unitTriangle = 1 / 4 := by
    rw [triGamma, hd]; norm_num [downRay, unitTriangle, vtx]
  have ht : triT downRay unitTriangle = 1 := by
    rw [triT, hd]; norm_num [downRay, unitTriangle, vtx]
  refine ⟨?_, hb, hg⟩
  rw [ray_triangle_intersect_of_cond downRay unitTriangle (by rw [hd]; norm_num)
    (by rw [hb, hg, ht]; norm_num), ht]

/-- C1: `ray_triangle_intersect` returns a value other than the miss value `-1` exactly when the
determinant `-d.((b-a)x(c-a))` is non-zero and some `beta >= 0`, `gamma >= 0`
with `beta + gamma <= 1` and `t > 0` satisfy
`e + t*d = a + beta*(b-a) + gamma*(c-a)`; the value returned is then that `t`;
with a zero determinant the result is the miss value; and on the triangle
`(0,0,0),(1,0,0),(0,1,0)` the ray from `(0.25,0.25,1)` in direction `(0,0,-1)`
gives `t = 1` with `beta = gamma = 0.25`. -/
theorem C1_ray_triangle_intersect_contract (ray : Ray K) (triangle : Face K) :
    (ray_triangle_intersect ray triangle ≠ -1 ↔
      specDet ray triangle ≠ 0 ∧ ∃ beta gamma t : K, beta ≥ 0 ∧ gamma ≥ 0
        ∧ beta + gamma ≤ 1 ∧ t > 0 ∧ OnTriangleAt ray triangle beta gamma t)
    ∧ (∀ beta gamma t : K, specDet ray triangle ≠ 0 → beta ≥ 0 → gamma ≥ 0
        → beta + gamma ≤ 1 → t > 0 → OnTriangleAt ray triangle beta gamma t
        → ray_triangle_intersect ray triangle = t)
    ∧ (specDet ray triangle = 0 → ray_triangle_intersect ray triangle = -1)
    ∧ (ray_triangle_intersect downRay unitTriangle = 1
        ∧ triBeta downRay unitTriangle = 1 / 4 ∧ triGamma downRay unitTriangle = 1 / 4) := by
  rw [specDet_eq_triDet]
  have key : ∀ beta gamma t : K, triDet ray triangle ≠ 0 → beta ≥ 0 → gamma ≥ 0
      → beta + gamma ≤ 1 → t > 0 → OnTriangleAt ray triangle beta gamma t
      → ray_triangle_intersect ray triangle = t := by
    intro beta gamma t hdet hb hg hbg ht hon
    obtain ⟨eb, eg, et⟩ := onTriangleAt_unique ray triangle beta gamma t hdet hon
    rw [ray_triangle_intersect_of_cond ray triangle hdet
      ⟨eb ▸ hb, eg ▸ hg, eb ▸ eg ▸ hbg, et ▸ ht⟩, et]
  refine ⟨⟨?_, ?_⟩, key, ?_, ?_⟩
  · intro h
    obtain ⟨hdet, hb, hg, hbg, ht, _⟩ := ray_triangle_intersect_hit ray triangle h
    exact ⟨hdet, _, _, _, hb, hg, hbg, ht, onTriangleAt_cramer ray triangle hdet⟩
  · rintro ⟨hdet, beta, gamma, t, hb, hg, hbg, ht, hon⟩
    rw [key beta gamma t hdet hb hg hbg ht hon]
    intro h
    rw [h] at ht
    exact absurd ht (by norm_num)
  · intro h
    unfold ray_triangle_intersect
    rw [if_pos h]
  · exact downRay_facts

/-! ## The sphere -/

theorem MIN_eq_min (x y : K) : MIN x y = min x y := by
  unfold MIN
  split_ifs with h
  · exact (min_eq_left h.le).symm
  · exact (min_eq_right (not_lt.mp h)).symm

theorem MAX_eq_max (x y : K) : MAX x y = max x y := by
  unfold MAX
  split_ifs with h
  · exact (max_eq_left h.le).symm
  · exact (max_eq_right (not_lt.mp h)).symm

theorem sphereA_pos (ray : Ray K) (hd : ray.dir ≠ ⟨0, 0, 0⟩) : 0 < sphereA ray := by
  show 0 < ray.dir.x * ray.dir.x + ray.dir.y * ray.dir.y + ray.dir.z * ray.dir.z
  have hx := mul_self_nonneg ray.dir.x
  have hy := mul_self_nonneg ray.dir.y
  have hz := mul_self_nonneg ray.dir.z
  by_contra hA
  have h0 : ray.dir.x * ray.dir.x + ray.dir.y * ray.dir.y + ray.dir.z * ray.dir.z = 0 :=
    le_antisymm (not_lt.mp hA) (by linarith)
  have ex : ray.dir.x = 0 := mul_self_eq_zero.mp (by linarith)
  have ey : ray.dir.y = 0 := mul_self_eq_zero.mp (by linarith)
  have ez : ray.dir.z = 0 := mul_self_eq_zero.mp (by linarith)
  apply hd
  cases hdir : ray.dir with
  | mk x y z =>
    rw [hdir] at ex ey ez
    simp only at ex ey ez
    rw [ex, ey, ez]

/-- The point at parameter `t` is on the sphere exactly when `t` is a root of
the quadratic of `ray_sphere_intersect`. -/
theorem onSphereAt_iff (ray : Ray K) (sphere : Sphere K) (t : K) :
    OnSphereAt ray sphere t ↔
      sphereA ray * t * t + sphereB ray sphere * t + sphereC ray sphere = 0 := by
  simp only [OnSphereAt, sphereA, sphereB, sphereC, Vec3f.dot, Vec3f.sub, Vec3f.add,
    Vec3f.smul]
  constructor <;> intro h <;> linear_combination h

/-- With a positive leading coefficient and a square root of the
discriminant, the roots of the quadratic are the two values the program
computes, and the one with `- sqrt` is the smaller. -/
theorem sphere_roots (m : Libm K) (ray : Ray K) (sphere : Sphere K)
    (hA : 0 < sphereA ray) (hs : SqrtAt m (sphereDelta ray sphere)) :
    (-sphereB ray sphere - m.sqrt (sphereDelta ray sphere)) / (2 * sphereA ray)
        ≤ (-sphereB ray sphere + m.sqrt (sphereDelta ray sphere)) / (2 * sphereA ray)
    ∧ ∀ t : K, sphereA ray * t * t + sphereB ray sphere * t + sphereC ray sphere = 0 ↔
        (t = (-sphereB ray sphere - m.sqrt (sphereDelta ray sphere)) / (2 * sphereA ray)
          ∨ t = (-sphereB ray sphere + m.sqrt (sphereDelta ray sphere)) / (2 * sphereA ray)) := by
  obtain ⟨hq0, hq⟩ := hs
  have h2A : 0 < 2 * sphereA ray := by linarith
  have hne : 2 * sphereA ray ≠ 0 := ne_of_gt h2A
  have hAne : sphereA ray ≠ 0 := ne_of_gt hA
  refine ⟨?_, ?_⟩
  · apply div_le_div_of_nonneg_right _ h2A.le
    linarith
  · intro t
    rw [eq_div_iff hne, eq_div_iff hne]
    have hfac : 4 * sphereA ray
          * (sphereA ray * t * t + sphereB ray sphere * t + sphereC ray sphere)
        = (t * (2 * sphereA ray) - (-sphereB ray sphere - m.sqrt (sphereDelta ray sphere)))
          * (t * (2 * sphereA ray)
              - (-sphereB ray sphere + m.sqrt (sphereDelta ray sphere))) := by
      have hd : sphereDelta ray sphere
          = sphereB ray sphere * sphereB ray sphere - 4 * sphereA ray * sphereC ray sphere := rfl
      linear_combination hq + hd
    constructor
    · intro h0
      rw [h0, mul_zero] at hfac
      rcases mul_eq_zero.mp hfac.symm with h | h
      · exact Or.inl (sub_eq_zero.mp h)
      · exact Or.inr (sub_eq_zero.mp h)
    · intro h
      have hz : 4 * sphereA ray
          * (sphereA ray * t * t + sphereB ray sphere * t + sphereC ray sphere) = 0 := by
        rw [hfac]
        rcases h with h | h
        · rw [h, sub_self, zero_mul]
        · rw [h, sub_self, mul_zero]
      rcases mul_eq_zero.mp hz with h4 | h4
      · exact absurd h4 (by positivity)
      · exact h4

/-- A negative discriminant leaves the quadratic without roots. -/
theorem sphere_no_root_of_delta_neg (ray : Ray K) (sphere : Sphere K)
    (hdel : sphereDelta ray sphere < 0) (t : K) :
    sphereA ray * t * t + sphereB ray sphere * t + sphereC ray sphere ≠ 0 := by
  intro h0
  have hd : sphereDelta ray sphere
      = sphereB ray sphere * sphereB ray sphere - 4 * sphereA ray * sphereC ray sphere := rfl
  have hsq : (2 * sphereA ray * t + sphereB ray sphere) ^ 2 = sphereDelta ray sphere := by
    linear_combination 4 * sphereA ray * h0 - hd
  have := sq_nonneg (2 * sphereA ray * t + sphereB ray sphere)
  linarith

/-- The value of `ray_sphere_intersect` when the discriminant is non-negative. -/
theorem ray_sphere_intersect_of_delta_nonneg (m : Libm K) (ray : Ray K) (sphere : Sphere K)
    (hA : 0 < sphereA ray) (hdel : sphereDelta ray sphere ≥ 0)
    (hs : SqrtAt m (sphereDelta ray sphere)) :
    ray_sphere_intersect m ray sphere
      = if (-sphereB ray sphere - m.sqrt (sphereDelta ray sphere)) / (2 * sphereA ray) > 0
        then (-sphereB ray sphere - m.sqrt (sphereDelta ray sphere)) / (2 * sphereA ray)
        else (-sphereB ray sphere + m.sqrt (sphereDelta ray sphere)) / (2 * sphereA ray) := by
  have hle := (sphere_roots m ray sphere hA hs).1
  unfold ray_sphere_intersect
  simp only [if_pos hdel, MIN_eq_min, MAX_eq_max, min_eq_left hle, max_eq_right hle]

/-- C2: for a ray with non-zero direction (and `sqrt` a square root at the
discriminant when that is non-negative): if `ray_sphere_intersect` returns `t > 0`, the
point `e + t*d` is on the sphere and no strictly positive parameter smaller
than `t` gives a point of the sphere; and if the ray meets the sphere at no
strictly positive parameter, the returned value is `<= 0`. -/
theorem C2_ray_sphere_intersect_contract (m : Libm K) (ray : Ray K) (sphere : Sphere K)
    (hd : ray.dir ≠ ⟨0, 0, 0⟩)
    (hs : sphereDelta ray sphere ≥ 0 → SqrtAt m (sphereDelta ray sphere)) :
    (ray_sphere_intersect m ray sphere > 0 →
      OnSphereAt ray sphere (ray_sphere_intersect m ray sphere)
      ∧ ∀ s : K, s > 0 → OnSphereAt ray sphere s → ray_sphere_intersect m ray sphere ≤ s)
    ∧ ((∀ s : K, s > 0 → ¬ OnSphereAt ray sphere s) → ray_sphere_intersect m ray sphere ≤ 0) := by
  have hA := sphereA_pos ray hd
  by_cases hdel : sphereDelta ray sphere ≥ 0
  · have hsq := hs hdel
    obtain ⟨hle, hroot⟩ := sphere_roots m ray sphere hA hsq
    rw [ray_sphere_intersect_of_delta_nonneg m ray sphere hA hdel hsq]
    split_ifs with h1
    · refine ⟨fun _ => ⟨?_, ?_⟩, ?_⟩
      · rw [onSphereAt_iff, hroot]; exact Or.inl rfl
      · intro s _ hon
        rw [onSphereAt_iff, hroot] at hon
        rcases hon with h | h
        · exact h.ge
        · rw [h]; exact hle
      · intro hno
        exact absurd ((onSphereAt_iff ray sphere _).mpr ((hroot _).mpr (Or.inl rfl))) (hno _ h1)
    · refine ⟨fun hpos => ⟨?_, ?_⟩, ?_⟩
      · rw [onSphereAt_iff, hroot]; exact Or.inr rfl
      · intro s hs0 hon
        rw [onSphereAt_iff, hroot] at hon
        rcases hon with h | h
        · rw [h] at hs0; exact absurd hs0 h1
        · exact h.ge
      · intro hno
        by_contra hpos
        exact absurd ((onSphereAt_iff ray sphere _).mpr ((hroot _).mpr (Or.inr rfl)))
          (hno _ (not_le.mp hpos))
  · have hv : ray_sphere_intersect m ray sphere = -1 := by
      unfold ray_sphere_intersect
      simp only [if_neg hdel]
    rw [hv]
    refine ⟨fun h => absurd h (by norm_num), fun _ => by norm_num⟩

theorem axisRay_delta : sphereDelta axisRay (sph 0 0 0 1) = 2 * 2 := by
  norm_num [sphereDelta, sphereA, sphereB, sphereC, axisRay, sph]

theorem axisRay_value : ray_sphere_intersect ratLibm axisRay (sph 0 0 0 1) = 2 := by
  have hq : ratLibm.sqrt (sphereDelta axisRay (sph 0 0 0 1)) = 2 := by
    rw [axisRay_delta]
    show Rat.sqrt (2 * 2) = 2
    rw [Rat.sqrt_eq]; norm_num
  have hA : sphereA axisRay = 1 := by norm_num [sphereA, axisRay]
  have hB : sphereB axisRay (sph 0 0 0 1) = -6 := by norm_num [sphereB, axisRay, sph]
  rw [ray_sphere_intersect_of_delta_nonneg ratLibm axisRay (sph 0 0 0 1) (by rw [hA]; norm_num)
    (by rw [axisRay_delta]; norm_num) ⟨by rw [hq]; norm_num, by rw [hq, axisRay_delta]⟩]
  rw [hq, hA, hB]
  norm_num

/-- Witness of C2: the ray from `(0,0,3)` towards `-z` meets the unit sphere
first at `t = 2`. -/
theorem C2_ray_sphere_intersect_contract_witness :
    ray_sphere_intersect ratLibm axisRay (sph 0 0 0 1) = 2
    ∧ OnSphereAt axisRay (sph 0 0 0 1) (ray_sphere_intersect ratLibm axisRay (sph 0 0 0 1))
    ∧ ∀ s : ℚ, s > 0 → OnSphereAt axisRay (sph 0 0 0 1) s
        → ray_sphere_intersect ratLibm axisRay (sph 0 0 0 1) ≤ s :=
  ⟨axisRay_value,
    (C2_ray_sphere_intersect_contract ratLibm axisRay (sph 0 0 0 1)
      (by simp [axisRay])
      (fun _ => by
        rw [axisRay_delta]
        show 0 ≤ Rat.sqrt (2 * 2) ∧ Rat.sqrt (2 * 2) * Rat.sqrt (2 * 2) = 2 * 2
        rw [Rat.sqrt_eq]; norm_num)).1 (by rw [axisRay_value]; norm_num)⟩

/-! ## The box -/

/-- One slab: with `d ≠ 0` and `lo ≤ hi`, the coordinate `e + d*t` is in
`[lo, hi]` exactly when `t` is between the two plane parameters. -/
theorem slab_iff (e d lo hi t : K) (hd : d ≠ 0) (hlh : lo ≤ hi) :
    (lo ≤ e + d * t ∧ e + d * t ≤ hi) ↔
      (MIN ((lo - e) / d) ((hi - e) / d) ≤ t ∧ t ≤ MAX ((lo - e) / d) ((hi - e) / d)) := by
  rw [MIN_eq_min, MAX_eq_max]
  rcases lt_or_gt_of_ne hd with hneg | hpos
  · have hle : (hi - e) / d ≤ (lo - e) / d :=
      div_le_div_of_nonpos_of_le hneg.le (by linarith)
    rw [min_eq_right hle, max_eq_left hle, div_le_iff_of_neg hneg, le_div_iff_of_neg hneg]
    constructor
    · rintro ⟨h1, h2⟩; exact ⟨by linarith, by linarith⟩
    · rintro ⟨h1, h2⟩; exact ⟨by linarith, by linarith⟩
  · have hle : (lo - e) / d ≤ (hi - e) / d :=
      div_le_div_of_nonneg_right (by linarith) hpos.le
    rw [min_eq_left hle, max_eq_right hle, div_le_iff₀ hpos, le_div_iff₀ hpos]
    constructor
    · rintro ⟨h1, h2⟩; exact ⟨by linarith, by linarith⟩
    · rintro ⟨h1, h2⟩; exact ⟨by linarith, by linarith⟩

/-- The point of the ray at parameter `t` is in the box exactly when `t` is
in each of the three slabs. -/
theorem inBox_iff_slabs (ray : Ray K) (bmin bmax : Vec3f K) (t : K)
    (hdx : ray.dir.x ≠ 0) (hdy : ray.dir.y ≠ 0) (hdz : ray.dir.z ≠ 0)
    (hx : bmin.x ≤ bmax.x) (hy : bmin.y ≤ bmax.y) (hz : bmin.z ≤ bmax.z) :
    InBox (ray.start.add (ray.dir.smul t)) bmin bmax ↔
      MAX (MAX (MIN ((bmin.x - ray.start.x) / ray.dir.x) ((bmax.x - ray.start.x) / ray.dir.x))
            (MIN ((bmin.y - ray.start.y) / ray.dir.y) ((bmax.y - ray.start.y) / ray.dir.y)))
          (MIN ((bmin.z - ray.start.z) / ray.dir.z) ((bmax.z - ray.start.z) / ray.dir.z)) ≤ t
      ∧ t ≤ MIN (MIN (MAX ((bmin.x - ray.start.x) / ray.dir.x)
                ((bmax.x - ray.start.x) / ray.dir.x))
            (MAX ((bmin.y - ray.start.y) / ray.dir.y) ((bmax.y - ray.start.y) / ray.dir.y)))
          (MAX ((bmin.z - ray.start.z) / ray.dir.z) ((bmax.z - ray.start.z) / ray.dir.z)) := by
  simp only [InBox, Vec3f.add, Vec3f.smul]
  rw [slab_iff _ _ _ _ t hdx hx, slab_iff _ _ _ _ t hdy hy, slab_iff _ _ _ _ t hdz hz]
  simp only [MIN_eq_min, MAX_eq_max, max_le_iff, le_min_iff]
  tauto

/-- The slab test is exact: the box is reported hit exactly when a point of
the ray with `t >= 0` is in it. -/
theorem ray_box_intersect_iff_exists (ray : Ray K) (bmin bmax : Vec3f K)
    (hdx : ray.dir.x ≠ 0) (hdy : ray.dir.y ≠ 0) (hdz : ray.dir.z ≠ 0)
    (hx : bmin.x ≤ bmax.x) (hy : bmin.y ≤ bmax.y) (hz : bmin.z ≤ bmax.z) :
    ray_box_intersect ray bmin bmax = true ↔
      ∃ t : K, t ≥ 0 ∧ InBox (ray.start.add (ray.dir.smul t)) bmin bmax := by
  have hval : ray_box_intersect ray bmin bmax = true ↔
      (MAX (MAX (MIN ((bmin.x - ray.start.x) / ray.dir.x) ((bmax.x - ray.start.x) / ray.dir.x))
            (MIN ((bmin.y - ray.start.y) / ray.dir.y) ((bmax.y - ray.start.y) / ray.dir.y)))
          (MIN ((bmin.z - ray.start.z) / ray.dir.z) ((bmax.z - ray.start.z) / ray.dir.z))
        ≤ MIN (MIN (MAX ((bmin.x - ray.start.x) / ray.dir.x)
                ((bmax.x - ray.start.x) / ray.dir.x))
            (MAX ((bmin.y - ray.start.y) / ray.dir.y) ((bmax.y - ray.start.y) / ray.dir.y)))
          (MAX ((bmin.z - ray.start.z) / ray.dir.z) ((bmax.z - ray.start.z) / ray.dir.z))
      ∧ MIN (MIN (MAX ((bmin.x - ray.start.x) / ray.dir.x)
                ((bmax.x - ray.start.x) / ray.dir.x))
            (MAX ((bmin.y - ray.start.y) / ray.dir.y) ((bmax.y - ray.start.y) / ray.dir.y)))
          (MAX ((bmin.z - ray.start.z) / ray.dir.z) ((bmax.z - ray.start.z) / ray.dir.z))
        ≥ 0) := by
    unfold ray_box_intersect
    simp only
    split_ifs with h
    · exact ⟨fun _ => h, fun _ => rfl⟩
    · exact ⟨fun hf => absurd hf (by simp), fun hc => absurd hc h⟩
  rw [hval]
  constructor
  · rintro ⟨h1, h2⟩
    by_cases h0 : 0 ≤ MAX (MAX (MIN ((bmin.x - ray.start.x) / ray.dir.x)
              ((bmax.x - ray.start.x) / ray.dir.x))
            (MIN ((bmin.y - ray.start.y) / ray.dir.y) ((bmax.y - ray.start.y) / ray.dir.y)))
          (MIN ((bmin.z - ray.start.z) / ray.dir.z) ((bmax.z - ray.start.z) / ray.dir.z))
    · exact ⟨_, h0, (inBox_iff_slabs ray bmin bmax _ hdx hdy hdz hx hy hz).mpr ⟨le_refl _, h1⟩⟩
    · exact ⟨0, le_refl _, (inBox_iff_slabs ray bmin bmax 0 hdx hdy hdz hx hy hz).mpr
        ⟨(not_le.mp h0).le, h2⟩⟩
  · rintro ⟨t, ht, hin⟩
    obtain ⟨h1, h2⟩ := (inBox_iff_slabs ray bmin bmax t hdx hdy hdz hx hy hz).mp hin
    exact ⟨le_trans h1 h2, le_trans ht h2⟩

/-- C3: for a box with `min <= max` on each axis and a ray whose direction
has no zero component, `ray_box_intersect` returns true if and only if some parameter
`t >= 0` gives a point `e + t*d` inside the closed box. -/
theorem C3_ray_box_intersect_iff (ray : Ray K) (bmin bmax : Vec3f K)
    (hdx : ray.dir.x ≠ 0) (hdy : ray.dir.y ≠ 0) (hdz : ray.dir.z ≠ 0)
    (hx : bmin.x ≤ bmax.x) (hy : bmin.y ≤ bmax.y) (hz : bmin.z ≤ bmax.z) :
    ray_box_intersect ray bmin bmax = true ↔
      ∃ t : K, t ≥ 0 ∧ InBox (ray.start.add (ray.dir.smul t)) bmin bmax :=
  ray_box_intersect_iff_exists ray bmin bmax hdx hdy hdz hx hy hz

/-- Witness of C3: the ray from `(2,2,2)` in direction `(-1,-1,-1)` meets the
unit cube, at `t = 1` for one. -/
theorem C3_ray_box_intersect_iff_witness :
    ray_box_intersect diagRay ⟨0, 0, 0⟩ ⟨1, 1, 1⟩ = true :=
  (C3_ray_box_intersect_iff diagRay ⟨0, 0, 0⟩ ⟨1, 1, 1⟩
    (by norm_num [diagRay]) (by norm_num [diagRay]) (by norm_num [diagRay])
    (by norm_num) (by norm_num) (by norm_num)).mpr
    ⟨1, by norm_num, by norm_num [InBox, diagRay, Vec3f.add, Vec3f.smul]⟩

end GeometryFacts

section ScanFacts

variable {K : Type} [LinearOrderedField K]

theorem scanInv_le {τ : Type} (ray : Ray K) (tag : Hit K → τ) (st : Hit K × K)
    (P : List (τ × K)) (h : ScanInv ray tag st P) : st.2 ≤ DBL_MAX := by
  cases ho : st.1.hitOccur with
  | false => exact (h.1 ho).1.le
  | true => exact (h.2 ho).2.1.le

/-- Every candidate seen so far has a parameter at least `tmin`. -/
theorem scanInv_lower {τ : Type} (ray : Ray K) (tag : Hit K → τ) (st : Hit K × K)
    (P : List (τ × K)) (h : ScanInv ray tag st P) : ∀ c ∈ P, st.2 ≤ c.2 := by
  intro c hc
  cases ho : st.1.hitOccur with
  | false =>
    obtain ⟨e, hall⟩ := h.1 ho
    rw [e]; exact hall c hc
  | true =>
    obtain ⟨_, _, _, pre, post, hP, hpre, hpost⟩ := h.2 ho
    rw [hP] at hc
    rcases List.mem_append.mp hc with h1 | h1
    · exact (hpre c h1).le
    · rcases List.mem_cons.mp h1 with h2 | h2
      · rw [h2]
      · exact hpost c h2

/-- The start of every closest-hit loop satisfies the invariant. -/
theorem scanInv_init {τ : Type} (ray : Ray K) (tag : Hit K → τ) (r : Hit K)
    (hr : r.hitOccur = false) : ScanInv ray tag (r, DBL_MAX) [] := by
  refine ⟨fun _ => ⟨rfl, fun c hc => absurd hc (List.not_mem_nil c)⟩, fun h => ?_⟩
  simp only [hr] at h
  exact absurd h (by simp)

/-- A candidate with record `r` and parameter `t`, taken when `t < tmin`,
keeps the invariant. -/
theorem scanInv_accept {τ : Type} (ray : Ray K) (tag : Hit K → τ) (st : Hit K × K)
    (P : List (τ × K)) (r : Hit K) (t : K) (h : ScanInv ray tag st P)
    (ho : r.hitOccur = true) (ht : r.t = t)
    (hp : r.intersectPoint = ray.start.add (ray.dir.smul t)) :
    ScanInv ray tag (if t < st.2 then (r, t) else st) (P ++ [(tag r, t)]) := by
  have hle := scanInv_le ray tag st P h
  have hlow := scanInv_lower ray tag st P h
  split_ifs with hlt
  · refine ⟨fun hf => ?_, fun _ => ⟨ht, lt_of_lt_of_le hlt hle, ?_, P, [], rfl, ?_, ?_⟩⟩
    · simp only [ho] at hf
      exact absurd hf (by simp)
    · rw [ht]; exact hp
    · intro c hc; exact lt_of_lt_of_le hlt (hlow c hc)
    · intro c hc; exact absurd hc (List.not_mem_nil c)
  · have hge : st.2 ≤ t := not_lt.mp hlt
    refine ⟨fun hf => ?_, fun hT => ?_⟩
    · obtain ⟨e, hall⟩ := h.1 hf
      refine ⟨e, fun c hc => ?_⟩
      rcases List.mem_append.mp hc with h1 | h1
      · exact hall c h1
      · rw [List.mem_singleton.mp h1, ← e]; exact hge
    · obtain ⟨e1, e2, e3, pre, post, hP, hpre, hpost⟩ := h.2 hT
      refine ⟨e1, e2, e3, pre, post ++ [(tag r, t)], ?_, hpre, ?_⟩
      · rw [hP, List.append_assoc, List.cons_append]
      · intro c hc
        rcases List.mem_append.mp hc with h1 | h1
        · exact hpost c h1
        · rw [List.mem_singleton.mp h1]; exact hge

/-! ## The leaf scan and the traversal -/

theorem boxStep_eq (ray : Ray K) (mesh : Mesh K) (st : Hit K × K) (faceID : Int) :
    boxStep ray mesh st faceID
      = if ray_triangle_intersect ray (vecAt mesh.faces faceID Face.unset) ≥ 0 then
          (if ray_triangle_intersect ray (vecAt mesh.faces faceID Face.unset) < st.2 then
            ({ st.1 with
                intersectPoint := ray.start.add (ray.dir.smul
                  (ray_triangle_intersect ray (vecAt mesh.faces faceID Face.unset)))
                normal := (vecAt mesh.faces faceID Face.unset).normal
                materialID := mesh.material_id
                hitOccur := true
                t := ray_triangle_intersect ray (vecAt mesh.faces faceID Face.unset)
                hitType := HitType.MESHHIT
                faceID := faceID
                replace_all_drawn := false },
              ray_triangle_intersect ray (vecAt mesh.faces faceID Face.unset))
          else st)
        else st := by
  unfold boxStep
  by_cases h0 : ray_triangle_intersect ray (vecAt mesh.faces faceID Face.unset) ≥ 0
  · by_cases h1 : ray_triangle_intersect ray (vecAt mesh.faces faceID Face.unset) < st.2
    · simp only [h0, h1, and_self, if_true]
    · simp only [h0, h1, and_false, if_false, if_true]
  · simp only [h0, false_and, if_false]

theorem faceCands_cons (ray : Ray K) (mesh : Mesh K) (i : Int) (ids : List Int) :
    faceCands ray mesh (i :: ids)
      = (if ray_triangle_intersect ray (vecAt mesh.faces i Face.unset) ≥ 0 then
          [(i, ray_triangle_intersect ray (vecAt mesh.faces i Face.unset))] else [])
        ++ faceCands ray mesh ids := by
  unfold faceCands
  by_cases h0 : ray_triangle_intersect ray (vecAt mesh.faces i Face.unset) ≥ 0
  · simp [List.filterMap_cons, h0]
  · simp [List.filterMap_cons, h0]

theorem mem_faceCands (ray : Ray K) (mesh : Mesh K) (ids : List Int) (c : Int × K) :
    c ∈ faceCands ray mesh ids ↔
      c.1 ∈ ids ∧ ray_triangle_intersect ray (vecAt mesh.faces c.1 Face.unset) ≥ 0
        ∧ c.2 = ray_triangle_intersect ray (vecAt mesh.faces c.1 Face.unset) := by
  unfold faceCands
  rw [List.mem_filterMap]
  constructor
  · rintro ⟨i, hi, h⟩
    split_ifs at h with h0
    · cases h
      exact ⟨hi, h0, rfl⟩
  · rintro ⟨hi, h0, h2⟩
    refine ⟨c.1, hi, ?_⟩
    rw [if_pos h0, ← h2]

/-- The loop of `ClosestHitInBox` keeps the invariant, the candidates being the
struck faces of the range. -/
theorem boxLoop_inv (ray : Ray K) (mesh : Mesh K) (ids : List Int) :
    ∀ (st : Hit K × K) (P : List (Int × K)),
      ScanInv ray (fun h => h.faceID) st P →
      ScanInv ray (fun h => h.faceID) (ids.foldl (boxStep ray mesh) st)
        (P ++ faceCands ray mesh ids) := by
  induction ids with
  | nil =>
    intro st P h
    simpa [faceCands] using h
  | cons i ids ih =>
    intro st P h
    rw [List.foldl_cons, faceCands_cons, ← List.append_assoc]
    apply ih
    rw [boxStep_eq]
    split_ifs with h0 h1
    · have := scanInv_accept ray (fun h => h.faceID) st P
        { st.1 with
            intersectPoint := ray.start.add (ray.dir.smul
              (ray_triangle_intersect ray (vecAt mesh.faces i Face.unset)))
            normal := (vecAt mesh.faces i Face.unset).normal
            materialID := mesh.material_id
            hitOccur := true
            t := ray_triangle_intersect ray (vecAt mesh.faces i Face.unset)
            hitType := HitType.MESHHIT
            faceID := i
            replace_all_drawn := false }
        (ray_triangle_intersect ray (vecAt mesh.faces i Face.unset)) h rfl rfl rfl
      rw [if_pos h1] at this
      exact this
    · have := scanInv_accept ray (fun h => h.faceID) st P
        { st.1 with
            intersectPoint := ray.start.add (ray.dir.smul
              (ray_triangle_intersect ray (vecAt mesh.faces i Face.unset)))
            normal := (vecAt mesh.faces i Face.unset).normal
            materialID := mesh.material_id
            hitOccur := true
            t := ray_triangle_intersect ray (vecAt mesh.faces i Face.unset)
            hitType := HitType.MESHHIT
            faceID := i
            replace_all_drawn := false }
        (ray_triangle_intersect ray (vecAt mesh.faces i Face.unset)) h rfl rfl rfl
      rw [if_neg h1] at this
      exact this
    · simpa using h

/-- The function `ClosestHitInBox` returns a closest struck face of the node's range. -/
theorem closestHitInBox_isClosest (ray : Ray K) (mesh : Mesh K) (bmin bmax : Vec3f K)
    (left right : Box K) (li ri : Int) :
    IsClosest ray mesh (faceRange li ri)
      (ClosestHitInBox ray (Box.node bmin bmax left right li ri) mesh) := by
  have hinv := boxLoop_inv ray mesh (faceRange li ri) _ []
    (scanInv_init ray (fun h => h.faceID) { (Hit.unset : Hit K) with hitOccur := false } rfl)
  rw [List.nil_append] at hinv
  unfold ClosestHitInBox
  simp only
  generalize (faceRange li ri).foldl (boxStep ray mesh)
    ({ (Hit.unset : Hit K) with hitOccur := false }, DBL_MAX) = st at hinv ⊢
  cases ho : st.1.hitOccur with
  | false =>
    simp only [Bool.false_eq_true, if_false]
    obtain ⟨_, hall⟩ := hinv.1 ho
    intro i hi h0
    exact hall (i, _) ((mem_faceCands ray mesh _ _).mpr ⟨hi, h0, rfl⟩)
  | true =>
    simp only [if_true]
    obtain ⟨e1, e2, _, pre, post, hP, hpre, hpost⟩ := hinv.2 ho
    have hlow := scanInv_lower ray _ st _ hinv
    have hmem : ((fun h : Hit K => h.faceID) st.1, st.2) ∈ faceCands ray mesh (faceRange li ri) := by
      rw [hP]; simp
    obtain ⟨m1, m2, m3⟩ := (mem_faceCands ray mesh _ _).mp hmem
    refine ⟨⟨_, m1, m2, ?_⟩, ?_, ?_⟩
    · rw [e1]; exact m3
    · rw [e1]; exact e2
    · intro i hi h0
      rw [e1]
      exact hlow (i, _) ((mem_faceCands ray mesh _ _).mpr ⟨hi, h0, rfl⟩)

end ScanFacts
section BVHFacts

variable {K : Type} [LinearOrderedField K]

/-- A convex combination of three values of `[lo, hi]` stays in `[lo, hi]`. -/
theorem convex_in_interval (lo hi a b c beta gamma : K)
    (ha : lo ≤ a ∧ a ≤ hi) (hb : lo ≤ b ∧ b ≤ hi) (hc : lo ≤ c ∧ c ≤ hi)
    (h1 : beta ≥ 0) (h2 : gamma ≥ 0) (h3 : beta + gamma ≤ 1) :
    lo ≤ a + (b - a) * beta + (c - a) * gamma ∧ a + (b - a) * beta + (c - a) * gamma ≤ hi := by
  have p1 := mul_nonneg (by linarith : (0 : K) ≤ 1 - beta - gamma) (by linarith : 0 ≤ a - lo)
  have p2 := mul_nonneg h1 (by linarith : 0 ≤ b - lo)
  have p3 := mul_nonneg h2 (by linarith : 0 ≤ c - lo)
  have q1 := mul_nonneg (by linarith : (0 : K) ≤ 1 - beta - gamma) (by linarith : 0 ≤ hi - a)
  have q2 := mul_nonneg h1 (by linarith : 0 ≤ hi - b)
  have q3 := mul_nonneg h2 (by linarith : 0 ≤ hi - c)
  constructor
  · nlinarith
  · nlinarith

/-- A struck face inside a box: the point struck is a point of the ray, with
`t > 0`, inside the box. -/
theorem struck_face_in_box (ray : Ray K) (f : Face K) (bmin bmax : Vec3f K)
    (hin : FaceInBox f bmin bmax) (hs : ray_triangle_intersect ray f ≥ 0) :
    ∃ t : K, t ≥ 0 ∧ InBox (ray.start.add (ray.dir.smul t)) bmin bmax := by
  have hne : ray_triangle_intersect ray f ≠ -1 := by
    intro h; rw [h] at hs; exact absurd hs (by norm_num)
  obtain ⟨hdet, hb, hg, hbg, ht, _⟩ := ray_triangle_intersect_hit ray f hne
  have hon := onTriangleAt_cramer ray f hdet
  refine ⟨triT ray f, ht.le, ?_⟩
  rw [OnTriangleAt] at hon
  rw [hon]
  obtain ⟨h0, h1, h2⟩ := hin
  simp only [InBox, Vec3f.add, Vec3f.smul, Vec3f.sub] at h0 h1 h2 ⊢
  exact ⟨convex_in_interval _ _ _ _ _ _ _ h0.1 h1.1 h2.1 hb hg hbg,
    convex_in_interval _ _ _ _ _ _ _ h0.2.1 h1.2.1 h2.2.1 hb hg hbg,
    convex_in_interval _ _ _ _ _ _ _ h0.2.2 h1.2.2 h2.2.2 hb hg hbg⟩

/-- Pruning is sound: a ray that misses a box strikes no face inside it. -/
theorem miss_box_miss_face (ray : Ray K) (f : Face K) (bmin bmax : Vec3f K)
    (hdx : ray.dir.x ≠ 0) (hdy : ray.dir.y ≠ 0) (hdz : ray.dir.z ≠ 0)
    (hin : FaceInBox f bmin bmax) (hbox : ray_box_intersect ray bmin bmax = false) :
    ¬ ray_triangle_intersect ray f ≥ 0 := by
  intro hs
  obtain ⟨⟨hx1, hx2⟩, ⟨hy1, hy2⟩, ⟨hz1, hz2⟩⟩ := hin.1
  have := (ray_box_intersect_iff_exists ray bmin bmax hdx hdy hdz (le_trans hx1 hx2)
    (le_trans hy1 hy2) (le_trans hz1 hz2)).mpr (struck_face_in_box ray f bmin bmax hin hs)
  rw [hbox] at this
  exact absurd this (by simp)

theorem isClosest_append (ray : Ray K) (mesh : Mesh K) (ids1 ids2 : List Int)
    (r1 r2 : Option (Hit K))
    (h1 : IsClosest ray mesh ids1 r1) (h2 : IsClosest ray mesh ids2 r2) :
    IsClosest ray mesh (ids1 ++ ids2) (closerHit r1 r2) := by
  unfold closerHit
  cases r1 with
  | none =>
    cases r2 with
    | none =>
      intro i hi h0
      rcases List.mem_append.mp hi with h | h
      · exact h1 i h h0
      · exact h2 i h h0
    | some b =>
      obtain ⟨⟨j, hj, hj0, hjt⟩, hlt, hmin⟩ := h2
      refine ⟨⟨j, List.mem_append_right _ hj, hj0, hjt⟩, hlt, ?_⟩
      intro i hi h0
      rcases List.mem_append.mp hi with h | h
      · exact le_trans hlt.le (h1 i h h0)
      · exact hmin i h h0
  | some a =>
    obtain ⟨⟨j, hj, hj0, hjt⟩, hlt, hmin⟩ := h1
    cases r2 with
    | none =>
      refine ⟨⟨j, List.mem_append_left _ hj, hj0, hjt⟩, hlt, ?_⟩
      intro i hi h0
      rcases List.mem_append.mp hi with h | h
      · exact hmin i h h0
      · exact le_trans hlt.le (h2 i h h0)
    | some b =>
      obtain ⟨⟨k, hk, hk0, hkt⟩, hlt2, hmin2⟩ := h2
      simp only
      split_ifs with hab
      · refine ⟨⟨j, List.mem_append_left _ hj, hj0, hjt⟩, hlt, ?_⟩
        intro i hi h0
        rcases List.mem_append.mp hi with h | h
        · exact hmin i h h0
        · exact le_trans hab.le (hmin2 i h h0)
      · refine ⟨⟨k, List.mem_append_right _ hk, hk0, hkt⟩, hlt2, ?_⟩
        intro i hi h0
        rcases List.mem_append.mp hi with h | h
        · exact le_trans (not_lt.mp hab) (hmin i h h0)
        · exact hmin2 i h h0

/-- The traversal returns a closest struck face among the faces of the
leaves below the node. -/
theorem meshBVH_isClosest (ray : Ray K) (mesh : Mesh K)
    (hdx : ray.dir.x ≠ 0) (hdy : ray.dir.y ≠ 0) (hdz : ray.dir.z ≠ 0) :
    ∀ box : Box K, box.Contains mesh → IsClosest ray mesh box.facesBelow (meshBVH ray box mesh) := by
  intro box
  induction box with
  | null =>
    intro _
    simp only [meshBVH, Box.facesBelow]
    intro i hi
    exact absurd hi (List.not_mem_nil i)
  | node bmin bmax left right li ri ihl ihr =>
    intro hc
    obtain ⟨hin, hcl, hcr⟩ := hc
    rw [meshBVH]
    cases hbox : ray_box_intersect ray bmin bmax with
    | false =>
      simp only [Bool.not_false, if_true]
      intro i hi h0
      exact absurd h0 (miss_box_miss_face ray _ bmin bmax hdx hdy hdz (hin i hi) hbox)
    | true =>
      simp only [Bool.not_true, Bool.false_eq_true, if_false]
      cases hleaf : (left.isNull && right.isNull) with
      | true =>
        simp only [if_true]
        have hf : (Box.node bmin bmax left right li ri).facesBelow = faceRange li ri := by
          simp only [Box.facesBelow, hleaf, if_true]
        rw [hf]
        exact closestHitInBox_isClosest ray mesh bmin bmax left right li ri
      | false =>
        simp only [Bool.false_eq_true, if_false]
        have hf : (Box.node bmin bmax left right li ri).facesBelow
            = left.facesBelow ++ right.facesBelow := by
          simp only [Box.facesBelow, hleaf, Bool.false_eq_true, if_false]
        rw [hf]
        exact isClosest_append ray mesh _ _ _ _ (ihl hcl) (ihr hcr)

end BVHFacts

section BVHScan

variable {K : Type} [LinearOrderedField K]

theorem DBL_MAX_pos : (0 : K) < DBL_MAX := by
  unfold DBL_MAX
  have h : (2 : K) ^ 971 < 2 ^ 1024 := pow_lt_pow_right₀ (by norm_num) (by norm_num)
  linarith

/-- Not being the miss value is the same as passing the test `t >= 0`. -/
theorem ray_triangle_intersect_ne_miss_iff (ray : Ray K) (f : Face K) :
    ray_triangle_intersect ray f ≠ -1 ↔ ray_triangle_intersect ray f ≥ 0 := by
  rcases ray_triangle_intersect_miss_or_pos ray f with h | h
  · rw [h]
    constructor
    · intro h1; exact absurd rfl h1
    · intro h1; exact absurd h1 (by norm_num)
  · constructor
    · intro _; exact h.le
    · intro _ h2; rw [h2] at h; exact absurd h (by norm_num)

theorem vecAt_mem {α : Type} (v : List α) (i : Int) (d : α)
    (h0 : 0 ≤ i) (h1 : i < (v.length : Int)) : vecAt v i d ∈ v := by
  unfold vecAt
  rw [if_pos h0]
  have hlt : i.toNat < v.length := by omega
  rw [List.getD_eq_getElem v d hlt]
  exact List.getElem_mem hlt

theorem mem_iff_vecAt {α : Type} (v : List α) (d : α) (x : α) :
    x ∈ v ↔ ∃ i : Int, 0 ≤ i ∧ i < (v.length : Int) ∧ vecAt v i d = x := by
  constructor
  · intro hx
    obtain ⟨n, hn, hnx⟩ := List.getElem_of_mem hx
    refine ⟨(n : Int), by omega, by omega, ?_⟩
    unfold vecAt
    rw [if_pos (by omega), Int.toNat_ofNat, List.getD_eq_getElem v d hn]
    exact hnx
  · rintro ⟨i, h0, h1, hx⟩
    rw [← hx]
    exact vecAt_mem v i d h0 h1

/-- In a well-formed hierarchy the leaves below the root index exactly the
faces of the mesh. -/
theorem wellFormed_faces (mesh : Mesh K) (hwf : WellFormedBVH mesh) (f : Face K) :
    f ∈ mesh.faces ↔ ∃ i ∈ mesh.head.facesBelow, vecAt mesh.faces i Face.unset = f := by
  obtain ⟨hrange, hcover, _⟩ := hwf
  rw [mem_iff_vecAt mesh.faces Face.unset f]
  constructor
  · rintro ⟨i, h0, h1, hx⟩
    exact ⟨i, hcover i h0 h1, hx⟩
  · rintro ⟨i, hi, hx⟩
    exact ⟨i, (hrange i hi).1, (hrange i hi).2, hx⟩

/-- C4 (amended): for a mesh whose hierarchy is well formed and a ray whose
direction has no zero component, `meshBVH` returns a hit if and only if some
face of the mesh is struck (`ray_triangle_intersect` is not a miss) with a parameter below
`DBL_MAX`; the `t` of the returned hit is the parameter of a struck face and
is the minimum of `ray_triangle_intersect` over all struck faces of the mesh. -/
theorem C4_meshBVH_agrees_with_scan (ray : Ray K) (mesh : Mesh K)
    (hdx : ray.dir.x ≠ 0) (hdy : ray.dir.y ≠ 0) (hdz : ray.dir.z ≠ 0)
    (hwf : WellFormedBVH mesh) :
    ((meshBVH ray mesh.head mesh).isSome = true ↔
      ∃ f ∈ mesh.faces, ray_triangle_intersect ray f ≠ -1
        ∧ ray_triangle_intersect ray f < DBL_MAX)
    ∧ ∀ h : Hit K, meshBVH ray mesh.head mesh = some h →
        (∃ f ∈ mesh.faces, ray_triangle_intersect ray f ≠ -1
          ∧ h.t = ray_triangle_intersect ray f)
        ∧ ∀ f ∈ mesh.faces, ray_triangle_intersect ray f ≠ -1 →
            h.t ≤ ray_triangle_intersect ray f := by
  have hcl := meshBVH_isClosest ray mesh hdx hdy hdz mesh.head hwf.2.2
  have hsome : ∀ h : Hit K, meshBVH ray mesh.head mesh = some h →
      (∃ f ∈ mesh.faces, ray_triangle_intersect ray f ≠ -1
        ∧ h.t = ray_triangle_intersect ray f)
      ∧ h.t < DBL_MAX
      ∧ ∀ f ∈ mesh.faces, ray_triangle_intersect ray f ≠ -1 →
          h.t ≤ ray_triangle_intersect ray f := by
    intro h hh
    rw [hh] at hcl
    obtain ⟨⟨i, hi, hi0, hit⟩, hlt, hmin⟩ := hcl
    refine ⟨⟨_, (wellFormed_faces mesh hwf _).mpr ⟨i, hi, rfl⟩,
      (ray_triangle_intersect_ne_miss_iff ray _).mpr hi0, hit⟩, hlt, ?_⟩
    intro f hf hne
    obtain ⟨j, hj, hjf⟩ := (wellFormed_faces mesh hwf f).mp hf
    rw [← hjf] at hne ⊢
    exact hmin j hj ((ray_triangle_intersect_ne_miss_iff ray _).mp hne)
  refine ⟨⟨?_, ?_⟩, fun h hh => ⟨(hsome h hh).1, (hsome h hh).2.2⟩⟩
  · intro hs
    obtain ⟨h, hh⟩ := Option.isSome_iff_exists.mp hs
    obtain ⟨⟨f, hf, hne, hft⟩, hlt, _⟩ := hsome h hh
    exact ⟨f, hf, hne, hft ▸ hlt⟩
  · rintro ⟨f, hf, hne, hlt⟩
    cases hr : meshBVH ray mesh.head mesh with
    | some h => rfl
    | none =>
      rw [hr] at hcl
      obtain ⟨j, hj, hjf⟩ := (wellFormed_faces mesh hwf f).mp hf
      rw [← hjf] at hne hlt
      exact absurd hlt (not_lt.mpr
        (hcl j hj ((ray_triangle_intersect_ne_miss_iff ray _).mp hne)))

/-! ### The face struck at `DBL_MAX` -/

theorem one_lt_DBL_MAX : (1 : K) < DBL_MAX := by
  unfold DBL_MAX
  have h : (2 : K) ^ 971 * 2 ≤ 2 ^ 1024 := by
    rw [← pow_succ]
    exact pow_le_pow_right₀ (by norm_num) (by norm_num)
  have h1 : (1 : K) ≤ 2 ^ 971 := one_le_pow₀ (by norm_num)
  have h2 : (0 : K) < 2 ^ 971 := by positivity
  linarith

theorem slantRay_value (T : ℚ) (hT : 0 < T) :
    ray_triangle_intersect (slantRay T) unitTriangle = T := by
  have hdet : triDet (slantRay T) unitTriangle = 1 := by
    norm_num [triDet, slantRay, unitTriangle, vtx]
  have hne : triDet (slantRay T) unitTriangle ≠ 0 := by rw [hdet]; norm_num
  have hon : OnTriangleAt (slantRay T) unitTriangle (1 / 4) (1 / 4) T := by
    rw [onTriangleAt_iff]
    norm_num [slantRay, unitTriangle, vtx]
  obtain ⟨eb, eg, et⟩ := onTriangleAt_unique (slantRay T) unitTriangle _ _ _ hne hon
  rw [ray_triangle_intersect_of_cond (slantRay T) unitTriangle hne
    ⟨by rw [← eb]; norm_num, by rw [← eg]; norm_num, by rw [← eb, ← eg]; norm_num,
      by rw [← et]; exact hT⟩, ← et]

theorem farRay_value : ray_triangle_intersect farRay unitTriangle = DBL_MAX :=
  slantRay_value DBL_MAX DBL_MAX_pos

theorem farMesh_ids : farMesh.head.facesBelow = [0] := rfl

theorem farMesh_wellFormed : WellFormedBVH farMesh := by
  have hids : farMesh.head.facesBelow = [0] := farMesh_ids
  refine ⟨?_, ?_, ?_⟩
  · intro i hi
    rw [hids] at hi
    rw [List.mem_singleton.mp hi]
    simp [farMesh]
  · intro i h0 h1
    rw [hids]
    have : i = 0 := by
      simp [farMesh] at h1
      omega
    rw [this]
    exact List.mem_singleton.mpr rfl
  · show Box.Contains farMesh (Box.node ⟨0, 0, 0⟩ ⟨1, 1, 0⟩ Box.null Box.null 0 1)
    refine ⟨?_, trivial, trivial⟩
    intro i hi
    have hids1 : (Box.node (⟨0, 0, 0⟩ : Vec3f ℚ) ⟨1, 1, 0⟩ Box.null Box.null 0 1).facesBelow
        = [0] := hids
    rw [hids1] at hi
    rw [List.mem_singleton.mp hi]
    norm_num [farMesh, vecAt, FaceInBox, InBox, unitTriangle, vtx]

theorem farMesh_no_hit : meshBVH farRay farMesh.head farMesh = none := by
  have hcl := meshBVH_isClosest farRay farMesh (by norm_num [farRay, slantRay]) (by norm_num [farRay, slantRay])
    (by norm_num [farRay, slantRay]) farMesh.head farMesh_wellFormed.2.2
  cases hr : meshBVH farRay farMesh.head farMesh with
  | none => rfl
  | some h =>
    rw [hr] at hcl
    obtain ⟨⟨i, hi, _, hit⟩, hlt, _⟩ := hcl
    have hids : farMesh.head.facesBelow = [0] := farMesh_ids
    rw [hids] at hi
    rw [List.mem_singleton.mp hi] at hit
    have hface : vecAt farMesh.faces 0 Face.unset = unitTriangle := by
      simp [farMesh, vecAt]
    rw [hface, farRay_value] at hit
    rw [hit] at hlt
    exact absurd hlt (lt_irrefl _)

/-- C4, as stated, fails: `farMesh` is well formed, no component of the
direction of `farRay` is zero, `ray_triangle_intersect` is not a miss for the face of the
mesh (it returns `DBL_MAX`), and `meshBVH` returns no hit. -/
theorem C4_counterexample :
    WellFormedBVH farMesh
    ∧ (farRay.dir.x ≠ 0 ∧ farRay.dir.y ≠ 0 ∧ farRay.dir.z ≠ 0)
    ∧ (∃ f ∈ farMesh.faces, ray_triangle_intersect farRay f ≠ -1)
    ∧ (meshBVH farRay farMesh.head farMesh).isSome = false := by
  refine ⟨farMesh_wellFormed, ⟨by norm_num [farRay, slantRay], by norm_num [farRay, slantRay],
    by norm_num [farRay, slantRay]⟩, ⟨unitTriangle, by simp [farMesh], ?_⟩, ?_⟩
  · rw [farRay_value]
    exact ne_of_gt (lt_trans (by norm_num) DBL_MAX_pos)
  · rw [farMesh_no_hit]; rfl

/-- Witness of C4: on the well-formed `farMesh` the slanted ray that strikes
the face at `t = 1` gets a hit from `meshBVH`, with `t = 1`. -/
theorem C4_meshBVH_agrees_with_scan_witness :
    (meshBVH (slantRay 1) farMesh.head farMesh).isSome = true :=
  (C4_meshBVH_agrees_with_scan (slantRay 1) farMesh (by norm_num [slantRay])
    (by norm_num [slantRay]) (by norm_num [slantRay]) farMesh_wellFormed).1.mpr
    ⟨unitTriangle, by simp [farMesh],
      by rw [slantRay_value 1 (by norm_num)]; norm_num,
      by rw [slantRay_value 1 (by norm_num)]; exact one_lt_DBL_MAX⟩

end BVHScan

section ClosestHitFacts

variable {K : Type} [LinearOrderedField K]

/-! ## The scene intersector -/

theorem boxLoop_hitOK (ray : Ray K) (mesh : Mesh K) (ids : List Int) :
    ∀ st : Hit K × K, (st.1.hitOccur = true → MeshHitOK ray st.1) →
      ((ids.foldl (boxStep ray mesh) st).1.hitOccur = true →
        MeshHitOK ray (ids.foldl (boxStep ray mesh) st).1) := by
  induction ids with
  | nil => intro st h; simpa using h
  | cons i ids ih =>
    intro st h
    rw [List.foldl_cons]
    apply ih
    rw [boxStep_eq]
    split_ifs with h0 h1
    · intro _
      refine ⟨rfl, rfl, rfl, ?_⟩
      rcases ray_triangle_intersect_miss_or_pos ray (vecAt mesh.faces i Face.unset) with hm | hp
      · rw [hm] at h0; exact absurd h0 (by norm_num)
      · exact hp
    · exact h
    · exact h

theorem closestHitInBox_hitOK (ray : Ray K) (box : Box K) (mesh : Mesh K) (h : Hit K)
    (hh : ClosestHitInBox ray box mesh = some h) : MeshHitOK ray h := by
  cases box with
  | null => simp [ClosestHitInBox] at hh
  | node bmin bmax left right li ri =>
    unfold ClosestHitInBox at hh
    simp only at hh
    split_ifs at hh with ho
    cases hh
    exact boxLoop_hitOK ray mesh (faceRange li ri) _ (fun hf => by simp at hf) ho

/-- Every hit `meshBVH` returns has `hitOccur` set, kind `MESHHIT`, a positive
`t`, and its point on the ray at `t`. -/
theorem meshBVH_hitOK (ray : Ray K) (mesh : Mesh K) :
    ∀ (box : Box K) (h : Hit K), meshBVH ray box mesh = some h → MeshHitOK ray h := by
  intro box
  induction box with
  | null => intro h hh; simp [meshBVH] at hh
  | node bmin bmax left right li ri ihl ihr =>
    intro h hh
    rw [meshBVH] at hh
    split_ifs at hh with hb hleaf
    · exact closestHitInBox_hitOK ray _ mesh h hh
    · unfold closerHit at hh
      cases hl : meshBVH ray left mesh with
      | none =>
        rw [hl] at hh
        exact ihr h hh
      | some a =>
        cases hr : meshBVH ray right mesh with
        | none =>
          rw [hl, hr] at hh
          simp only [Option.some.injEq] at hh
          exact hh ▸ ihl a hl
        | some b =>
          rw [hl, hr] at hh
          simp only at hh
          split_ifs at hh with hab
          · simp only [Option.some.injEq] at hh
            exact hh ▸ ihl a hl
          · simp only [Option.some.injEq] at hh
            exact hh ▸ ihr b hr

theorem meshStep_inv (ray : Ray K) (st : Hit K × K) (P : List ((HitType × Int) × K))
    (meshID : Int) (mesh : Mesh K)
    (h : ScanInv ray (fun r => (r.hitType, r.hitID)) st P) :
    ScanInv ray (fun r => (r.hitType, r.hitID)) (meshStep ray st meshID mesh)
      (P ++ meshCand ray meshID mesh) := by
  unfold meshStep meshCand
  cases hr : meshBVH ray mesh.head mesh with
  | none => simpa using h
  | some meshHit =>
    obtain ⟨ho, hty, hpt, _⟩ := meshBVH_hitOK ray mesh _ _ hr
    have := scanInv_accept ray (fun r => (r.hitType, r.hitID)) st P
      { meshHit with hitID := meshID, replace_all_drawn := false } meshHit.t h ho rfl hpt
    dsimp only at this ⊢
    rw [hty] at this ⊢
    exact this

theorem triangleStep_inv (ray : Ray K) (st : Hit K × K) (P : List ((HitType × Int) × K))
    (triangleID : Int) (tr : Triangle K)
    (h : ScanInv ray (fun r => (r.hitType, r.hitID)) st P) :
    ScanInv ray (fun r => (r.hitType, r.hitID)) (triangleStep ray st triangleID tr)
      (P ++ triangleCand ray triangleID tr) := by
  unfold triangleStep triangleCand
  by_cases h0 : ray_triangle_intersect ray tr.indices ≥ 0
  · have hne := (ray_triangle_intersect_ne_miss_iff ray tr.indices).mpr h0
    have := scanInv_accept ray (fun r => (r.hitType, r.hitID)) st P
      { st.1 with
          intersectPoint := ray.start.add (ray.dir.smul (ray_triangle_intersect ray tr.indices))
          normal := tr.indices.normal
          materialID := tr.material_id
          hitOccur := true
          t := ray_triangle_intersect ray tr.indices
          hitType := HitType.TRIANGLEHIT
          hitID := triangleID
          replace_all_drawn := false }
      (ray_triangle_intersect ray tr.indices) h rfl rfl rfl
    simp only [if_pos hne]
    by_cases h1 : ray_triangle_intersect ray tr.indices < st.2
    · rw [if_pos h1] at this
      rw [if_pos ⟨h0, h1⟩]
      exact this
    · rw [if_neg h1] at this
      rw [if_neg (fun hc => h1 hc.2)]
      exact this
  · have hne : ¬ ray_triangle_intersect ray tr.indices ≠ -1 :=
      fun hc => h0 ((ray_triangle_intersect_ne_miss_iff ray tr.indices).mp hc)
    simp only [if_neg hne, List.append_nil]
    rw [if_neg (fun hc => h0 hc.1)]
    exact h

theorem sphereStep_inv (m : Libm K) (ray : Ray K) (st : Hit K × K)
    (P : List ((HitType × Int) × K)) (sphereID : Int) (sphere : Sphere K)
    (h : ScanInv ray (fun r => (r.hitType, r.hitID)) st P) :
    ScanInv ray (fun r => (r.hitType, r.hitID)) (sphereStep m ray st sphereID sphere)
      (P ++ sphereCand m ray sphereID sphere) := by
  unfold sphereStep sphereCand
  by_cases h0 : ray_sphere_intersect m ray sphere ≥ 0
  · have hnl : ¬ ray_sphere_intersect m ray sphere < 0 := not_lt.mpr h0
    have := scanInv_accept ray (fun r => (r.hitType, r.hitID)) st P
      { st.1 with
          intersectPoint := ray.start.add (ray.dir.smul (ray_sphere_intersect m ray sphere))
          normal := ((ray.start.add (ray.dir.smul (ray_sphere_intersect m ray sphere))).sub
            sphere.center_vertex).normalize m
          materialID := sphere.material_id
          hitOccur := true
          t := ray_sphere_intersect m ray sphere
          hitType := HitType.SPHEREHIT
          hitID := sphereID }
      (ray_sphere_intersect m ray sphere) h rfl rfl rfl
    simp only [if_neg hnl]
    by_cases h1 : ray_sphere_intersect m ray sphere < st.2
    · rw [if_pos h1] at this
      rw [if_pos ⟨h0, h1⟩]
      exact this
    · rw [if_neg h1] at this
      rw [if_neg (fun hc => h1 hc.2)]
      exact this
  · have hl : ray_sphere_intersect m ray sphere < 0 := not_le.mp h0
    simp only [if_pos hl, List.append_nil]
    rw [if_neg (fun hc => h0 hc.1)]
    exact h

/-- A loop over a vector keeps the invariant when each of its iterations
does. -/
theorem indexedLoop_inv {α τ : Type} (ray : Ray K) (tag : Hit K → τ)
    (step : Hit K × K → Int → α → Hit K × K) (cand : Int → α → List (τ × K))
    (hstep : ∀ st P id x, ScanInv ray tag st P → ScanInv ray tag (step st id x) (P ++ cand id x))
    (xs : List α) :
    ∀ (id : Int) (st : Hit K × K) (P : List (τ × K)), ScanInv ray tag st P →
      ScanInv ray tag (indexedLoop step xs id st) (P ++ indexedCands cand xs id) := by
  induction xs with
  | nil => intro id st P h; simpa [indexedLoop, indexedCands] using h
  | cons x rest ih =>
    intro id st P h
    rw [indexedLoop, indexedCands, ← List.append_assoc]
    exact ih (id + 1) _ _ (hstep st P id x h)

/-- The state `(ret, tmin)` at the end of `ClosestHit` satisfies the invariant
for the struck primitives of the scene. -/
theorem closestHit_inv (m : Libm K) (ray : Ray K) (scene : Scene K) :
    ∃ tmin : K, ScanInv ray (fun r => (r.hitType, r.hitID)) (ClosestHit m ray scene, tmin)
      (struck m ray scene) := by
  have h0 := scanInv_init ray (fun r : Hit K => (r.hitType, r.hitID))
    { (Hit.unset : Hit K) with hitOccur := false } rfl
  have h1 := indexedLoop_inv ray _ (meshStep ray) (meshCand ray)
    (fun st P id x h => meshStep_inv ray st P id x h) scene.meshes 0 _ _ h0
  have h2 := indexedLoop_inv ray _ (triangleStep ray) (triangleCand ray)
    (fun st P id x h => triangleStep_inv ray st P id x h) scene.triangles 0 _ _ h1
  have h3 := indexedLoop_inv ray _ (sphereStep m ray) (sphereCand m ray)
    (fun st P id x h => sphereStep_inv m ray st P id x h) scene.spheres 0 _ _ h2
  rw [List.nil_append] at h3
  exact ⟨_, h3⟩

end ClosestHitFacts

section ClosestHitMinimum

variable {K : Type} [LinearOrderedField K]

theorem indexedCands_eq_nil {α β : Type} (cand : Int → α → List β) (p : α → Prop)
    (hc : ∀ id x, cand id x = [] ↔ p x) (xs : List α) :
    ∀ id : Int, indexedCands cand xs id = [] ↔ ∀ x ∈ xs, p x := by
  induction xs with
  | nil => intro id; simp [indexedCands]
  | cons x rest ih =>
    intro id
    rw [indexedCands, List.append_eq_nil, hc, ih]
    simp

/-- The list `struck` is empty exactly when no primitive is struck. -/
theorem struck_eq_nil_iff (m : Libm K) (ray : Ray K) (scene : Scene K) :
    struck m ray scene = [] ↔ NothingStruck m ray scene := by
  unfold struck NothingStruck
  rw [List.append_eq_nil, List.append_eq_nil,
    indexedCands_eq_nil (meshCand ray) (fun mesh => meshBVH ray mesh.head mesh = none),
    indexedCands_eq_nil (triangleCand ray) (fun tr => ray_triangle_intersect ray tr.indices = -1),
    indexedCands_eq_nil (sphereCand m ray) (fun s => ray_sphere_intersect m ray s < 0)]
  · exact and_assoc
  · intro id s
    unfold sphereCand
    split_ifs with h
    · exact ⟨fun _ => h, fun _ => rfl⟩
    · exact ⟨fun hc => absurd hc (by simp), fun hc => absurd hc h⟩
  · intro id tr
    unfold triangleCand
    split_ifs with h
    · exact ⟨fun hc => absurd hc (by simp), fun hc => absurd hc h⟩
    · exact ⟨fun _ => not_not.mp h, fun _ => rfl⟩
  · intro id mesh
    unfold meshCand
    cases meshBVH ray mesh.head mesh with
    | none => simp
    | some h => simp

/-- What `ClosestHit` returns, in terms of the struck primitives. -/
theorem closestHit_spec (m : Libm K) (ray : Ray K) (scene : Scene K) :
    ((ClosestHit m ray scene).hitOccur = false ↔ ∀ c ∈ struck m ray scene, DBL_MAX ≤ c.2)
    ∧ ((ClosestHit m ray scene).hitOccur = true →
        (ClosestHit m ray scene).t < DBL_MAX
        ∧ (ClosestHit m ray scene).intersectPoint
            = ray.start.add (ray.dir.smul (ClosestHit m ray scene).t)
        ∧ ∃ pre post : List ((HitType × Int) × K),
            struck m ray scene
              = pre ++ (((ClosestHit m ray scene).hitType, (ClosestHit m ray scene).hitID),
                  (ClosestHit m ray scene).t) :: post
            ∧ (∀ c ∈ pre, (ClosestHit m ray scene).t < c.2)
            ∧ (∀ c ∈ post, (ClosestHit m ray scene).t ≤ c.2)) := by
  obtain ⟨tmin, hinv⟩ := closestHit_inv m ray scene
  have hT : (ClosestHit m ray scene).hitOccur = true →
      (ClosestHit m ray scene).t < DBL_MAX
      ∧ (ClosestHit m ray scene).intersectPoint
          = ray.start.add (ray.dir.smul (ClosestHit m ray scene).t)
      ∧ ∃ pre post : List ((HitType × Int) × K),
          struck m ray scene
            = pre ++ (((ClosestHit m ray scene).hitType, (ClosestHit m ray scene).hitID),
                (ClosestHit m ray scene).t) :: post
          ∧ (∀ c ∈ pre, (ClosestHit m ray scene).t < c.2)
          ∧ (∀ c ∈ post, (ClosestHit m ray scene).t ≤ c.2) := by
    intro ho
    obtain ⟨e1, e2, e3, pre, post, hP, hpre, hpost⟩ := hinv.2 ho
    simp only at e1 e2 e3 hP hpre hpost
    rw [← e1] at e2 hP hpre hpost
    exact ⟨e2, e3, pre, post, hP, hpre, hpost⟩
  refine ⟨⟨fun hf => (hinv.1 hf).2, fun hall => ?_⟩, hT⟩
  cases ho : (ClosestHit m ray scene).hitOccur with
  | false => rfl
  | true =>
    obtain ⟨hlt, _, pre, post, hP, _, _⟩ := hT ho
    have hmem : (((ClosestHit m ray scene).hitType, (ClosestHit m ray scene).hitID),
        (ClosestHit m ray scene).t) ∈ struck m ray scene := by
      rw [hP]; simp
    exact absurd hlt (not_lt.mpr (hall _ hmem))

/-- The reported hit is a struck primitive of least parameter. -/
theorem closestHit_min (m : Libm K) (ray : Ray K) (scene : Scene K)
    (ho : (ClosestHit m ray scene).hitOccur = true) :
    (((ClosestHit m ray scene).hitType, (ClosestHit m ray scene).hitID),
        (ClosestHit m ray scene).t) ∈ struck m ray scene
    ∧ ∀ c ∈ struck m ray scene, (ClosestHit m ray scene).t ≤ c.2 := by
  obtain ⟨_, _, pre, post, hP, hpre, hpost⟩ := (closestHit_spec m ray scene).2 ho
  refine ⟨by rw [hP]; simp, fun c hc => ?_⟩
  rw [hP] at hc
  rcases List.mem_append.mp hc with h1 | h1
  · exact (hpre c h1).le
  · rcases List.mem_cons.mp h1 with h2 | h2
    · rw [h2]
    · exact hpost c h2

/-- C5 (amended): `ClosestHit` returns `hitOccur = false` if and only if no
primitive is struck with a parameter below `DBL_MAX` (in particular when no
primitive is struck at all); when `hitOccur = true`, the returned `t` is the
minimum of the parameters of all struck primitives, the returned
`hitType`/`hitID` identify a struck primitive with that parameter, and
`intersectPoint = ray.start + ray.dir * t`. -/
theorem C5_closestHit_minimum (m : Libm K) (ray : Ray K) (scene : Scene K) :
    ((ClosestHit m ray scene).hitOccur = false ↔ ∀ c ∈ struck m ray scene, DBL_MAX ≤ c.2)
    ∧ (NothingStruck m ray scene → (ClosestHit m ray scene).hitOccur = false)
    ∧ ((ClosestHit m ray scene).hitOccur = true →
        (((ClosestHit m ray scene).hitType, (ClosestHit m ray scene).hitID),
            (ClosestHit m ray scene).t) ∈ struck m ray scene
        ∧ (∀ c ∈ struck m ray scene, (ClosestHit m ray scene).t ≤ c.2)
        ∧ (ClosestHit m ray scene).intersectPoint
            = ray.start.add (ray.dir.smul (ClosestHit m ray scene).t)) := by
  refine ⟨(closestHit_spec m ray scene).1, fun hn => ?_, fun ho => ?_⟩
  · rw [(closestHit_spec m ray scene).1, (struck_eq_nil_iff m ray scene).mpr hn]
    intro c hc
    exact absurd hc (List.not_mem_nil c)
  · exact ⟨(closestHit_min m ray scene ho).1, (closestHit_min m ray scene ho).2,
      ((closestHit_spec m ray scene).2 ho).2.1⟩

/-! ### A free triangle struck at `DBL_MAX` -/

theorem highRay_value : ray_triangle_intersect highRay unitTriangle = DBL_MAX := by
  have hdet : triDet highRay unitTriangle = 1 := by
    norm_num [triDet, highRay, unitTriangle, vtx]
  have hne : triDet highRay unitTriangle ≠ 0 := by rw [hdet]; norm_num
  have hon : OnTriangleAt highRay unitTriangle (1 / 4) (1 / 4) DBL_MAX := by
    rw [onTriangleAt_iff]
    norm_num [highRay, unitTriangle, vtx]
  obtain ⟨eb, eg, et⟩ := onTriangleAt_unique highRay unitTriangle _ _ _ hne hon
  rw [ray_triangle_intersect_of_cond highRay unitTriangle hne
    ⟨by rw [← eb]; norm_num, by rw [← eg]; norm_num, by rw [← eb, ← eg]; norm_num,
      by rw [← et]; exact DBL_MAX_pos⟩, ← et]

theorem DBL_MAX_ne_miss : (DBL_MAX : K) ≠ -1 :=
  ne_of_gt (lt_trans (by norm_num) DBL_MAX_pos)

theorem triangleScene_struck (m : Libm ℚ) :
    struck m highRay triangleScene = [((HitType.TRIANGLEHIT, 0), DBL_MAX)] := by
  simp [struck, triangleScene, emptyScene, indexedCands, triangleCand, highRay_value,
    DBL_MAX_ne_miss]

/-- C5, as stated, fails: the free triangle of `triangleScene` is struck by
`highRay` (`ray_triangle_intersect` returns `DBL_MAX`, not the miss value), and `ClosestHit`
returns `hitOccur = false`. -/
theorem C5_counterexample :
    (ClosestHit ratLibm highRay triangleScene).hitOccur = false
    ∧ ¬ NothingStruck ratLibm highRay triangleScene := by
  constructor
  · rw [(closestHit_spec ratLibm highRay triangleScene).1, triangleScene_struck]
    intro c hc
    rw [List.mem_singleton.mp hc]
  · intro hn
    have := hn.2.1 ⟨unitTriangle, 1, -1⟩ (by simp [triangleScene])
    rw [highRay_value] at this
    exact DBL_MAX_ne_miss this

end ClosestHitMinimum

section TieAndSign

variable {K : Type} [LinearOrderedField K]

/-- With a struck primitive below `DBL_MAX`, a hit is reported, and it is the
first, in the order tested, of the struck primitives of least parameter. -/
theorem closestHit_first (m : Libm K) (ray : Ray K) (scene : Scene K)
    (hlt : ∃ c ∈ struck m ray scene, c.2 < DBL_MAX) :
    (ClosestHit m ray scene).hitOccur = true
    ∧ (∀ c ∈ struck m ray scene, (ClosestHit m ray scene).t ≤ c.2)
    ∧ ∃ pre post : List ((HitType × Int) × K),
        struck m ray scene
          = pre ++ (((ClosestHit m ray scene).hitType, (ClosestHit m ray scene).hitID),
              (ClosestHit m ray scene).t) :: post
        ∧ (∀ c ∈ pre, (ClosestHit m ray scene).t < c.2) := by
  have ho : (ClosestHit m ray scene).hitOccur = true := by
    cases hf : (ClosestHit m ray scene).hitOccur with
    | true => rfl
    | false =>
      obtain ⟨c, hc, hcl⟩ := hlt
      exact absurd hcl (not_lt.mpr (((closestHit_spec m ray scene).1.mp hf) c hc))
  obtain ⟨_, _, pre, post, hP, hpre, _⟩ := (closestHit_spec m ray scene).2 ho
  exact ⟨ho, (closestHit_min m ray scene ho).2, pre, post, hP, hpre⟩

/-- C6 (amended): when some struck primitive has a parameter below `DBL_MAX`,
`ClosestHit` reports a hit whose `t` is the minimum over the struck primitives
and whose `hitType` and `hitID` are those of the first primitive, in the order
meshes, free triangles, spheres and by increasing index within a kind, whose
parameter equals that minimum: every primitive tested before it has a
strictly larger parameter. -/
theorem C6_closestHit_first_of_ties (m : Libm K) (ray : Ray K) (scene : Scene K)
    (hlt : ∃ c ∈ struck m ray scene, c.2 < DBL_MAX) :
    (ClosestHit m ray scene).hitOccur = true
    ∧ (∀ c ∈ struck m ray scene, (ClosestHit m ray scene).t ≤ c.2)
    ∧ ∃ pre post : List ((HitType × Int) × K),
        struck m ray scene
          = pre ++ (((ClosestHit m ray scene).hitType, (ClosestHit m ray scene).hitID),
              (ClosestHit m ray scene).t) :: post
        ∧ (∀ c ∈ pre, (ClosestHit m ray scene).t < c.2) :=
  closestHit_first m ray scene hlt

theorem twoTriangleScene_struck (m : Libm ℚ) (ray : Ray ℚ) (T : ℚ)
    (hv : ray_triangle_intersect ray unitTriangle = T) (hT : T ≠ -1) :
    struck m ray twoTriangleScene
      = [((HitType.TRIANGLEHIT, 0), T), ((HitType.TRIANGLEHIT, 1), T)] := by
  simp [struck, twoTriangleScene, emptyScene, indexedCands, triangleCand, hv, hT]

/-- Witness of C6: two identical triangles struck at `t = 1`; the hit reported
is the triangle of index 0. -/
theorem C6_closestHit_first_of_ties_witness :
    (ClosestHit ratLibm downRay twoTriangleScene).hitOccur = true
    ∧ (ClosestHit ratLibm downRay twoTriangleScene).hitType = HitType.TRIANGLEHIT
    ∧ (ClosestHit ratLibm downRay twoTriangleScene).hitID = 0
    ∧ (ClosestHit ratLibm downRay twoTriangleScene).t = 1 := by
  have hs := twoTriangleScene_struck ratLibm downRay 1 downRay_facts.1 (by norm_num)
  obtain ⟨ho, hmin, pre, post, hP, hpre⟩ :=
    C6_closestHit_first_of_ties ratLibm downRay twoTriangleScene
      ⟨((HitType.TRIANGLEHIT, 0), 1), by rw [hs]; simp, one_lt_DBL_MAX⟩
  rw [hs] at hP hmin
  have hle : (ClosestHit ratLibm downRay twoTriangleScene).t ≤ 1 :=
    hmin ((HitType.TRIANGLEHIT, 0), 1) (by simp)
  cases pre with
  | nil =>
    simp only [List.nil_append, List.cons.injEq, Prod.mk.injEq] at hP
    exact ⟨ho, hP.1.1.1.symm, hP.1.1.2.symm, hP.1.2.symm⟩
  | cons p pre =>
    simp only [List.cons_append, List.cons.injEq] at hP
    have h1 := hpre p (List.mem_cons_self _ _)
    rw [← hP.1] at h1
    have hmem : (((ClosestHit ratLibm downRay twoTriangleScene).hitType,
        (ClosestHit ratLibm downRay twoTriangleScene).hitID),
        (ClosestHit ratLibm downRay twoTriangleScene).t)
        ∈ [((HitType.TRIANGLEHIT, (1 : Int)), (1 : ℚ))] := by
      rw [hP.2]; simp
    have ht : (ClosestHit ratLibm downRay twoTriangleScene).t = 1 := by
      have := List.mem_singleton.mp hmem
      exact (Prod.mk.injEq _ _ _ _ ▸ this).2
    rw [ht] at h1
    exact absurd h1 (lt_irrefl _)

/-- C6, as stated, fails: in `twoTriangleScene` both triangles are struck by
`highRay` at the same parameter `DBL_MAX`, the minimum, and `ClosestHit`
reports neither: it returns `hitOccur = false`. -/
theorem C6_counterexample :
    struck ratLibm highRay twoTriangleScene
      = [((HitType.TRIANGLEHIT, 0), DBL_MAX), ((HitType.TRIANGLEHIT, 1), DBL_MAX)]
    ∧ (ClosestHit ratLibm highRay twoTriangleScene).hitOccur = false := by
  have hs := twoTriangleScene_struck ratLibm highRay DBL_MAX highRay_value DBL_MAX_ne_miss
  refine ⟨hs, ?_⟩
  rw [(closestHit_spec ratLibm highRay twoTriangleScene).1, hs]
  intro c hc
  simp only [List.mem_cons, List.mem_singleton, List.not_mem_nil, or_false] at hc
  rcases hc with h | h <;> rw [h]

/-! ### The sign of the reported parameter -/

theorem mem_indexedCands {α β : Type} (cand : Int → α → List β) (c : β) (xs : List α) :
    ∀ id : Int, c ∈ indexedCands cand xs id → ∃ (i : Int) (x : α), x ∈ xs ∧ c ∈ cand i x := by
  induction xs with
  | nil => intro id h; simp [indexedCands] at h
  | cons x rest ih =>
    intro id h
    rw [indexedCands] at h
    rcases List.mem_append.mp h with h1 | h1
    · exact ⟨id, x, List.mem_cons_self _ _, h1⟩
    · obtain ⟨i, y, hy, hc⟩ := ih (id + 1) h1
      exact ⟨i, y, List.mem_cons_of_mem _ hy, hc⟩

/-- Every struck primitive has a parameter `>= 0`, and `> 0` unless it is a
sphere. -/
theorem struck_sign (m : Libm K) (ray : Ray K) (scene : Scene K)
    (c : (HitType × Int) × K) (hc : c ∈ struck m ray scene) :
    0 ≤ c.2 ∧ (c.1.1 ≠ HitType.SPHEREHIT → 0 < c.2) := by
  unfold struck at hc
  rcases List.mem_append.mp hc with h12 | h3
  · rcases List.mem_append.mp h12 with h1 | h2
    · obtain ⟨i, mesh, _, hm⟩ := mem_indexedCands _ c _ 0 h1
      unfold meshCand at hm
      cases hr : meshBVH ray mesh.head mesh with
      | none => rw [hr] at hm; simp at hm
      | some h =>
        rw [hr] at hm
        simp only [List.mem_singleton] at hm
        have hpos := (meshBVH_hitOK ray mesh _ _ hr).2.2.2
        rw [hm]
        exact ⟨hpos.le, fun _ => hpos⟩
    · obtain ⟨i, tr, _, hm⟩ := mem_indexedCands _ c _ 0 h2
      unfold triangleCand at hm
      split_ifs at hm with hne
      · simp only [List.mem_singleton] at hm
        have h0 := (ray_triangle_intersect_ne_miss_iff ray tr.indices).mp hne
        rcases ray_triangle_intersect_miss_or_pos ray tr.indices with hmiss | hpos
        · exact absurd hmiss hne
        · rw [hm]; exact ⟨h0, fun _ => hpos⟩
      · simp at hm
  · obtain ⟨i, s, _, hm⟩ := mem_indexedCands _ c _ 0 h3
    unfold sphereCand at hm
    split_ifs at hm with hneg
    · simp at hm
    · simp only [List.mem_singleton] at hm
      rw [hm]
      exact ⟨not_lt.mp hneg, fun hk => absurd rfl hk⟩

/-- What holds of the sign of a reported hit: `t >= 0`, and `t > 0` for a mesh
face or a free triangle. -/
theorem closestHit_t_nonneg (m : Libm K) (ray : Ray K) (scene : Scene K)
    (ho : (ClosestHit m ray scene).hitOccur = true) :
    0 ≤ (ClosestHit m ray scene).t
    ∧ ((ClosestHit m ray scene).hitType ≠ HitType.SPHEREHIT → 0 < (ClosestHit m ray scene).t) :=
  struck_sign m ray scene _ (closestHit_min m ray scene ho).1

theorem outwardRay_value : ray_sphere_intersect ratLibm outwardRay (sph 0 0 0 1) = 0 := by
  have hdel : sphereDelta outwardRay (sph 0 0 0 1) = 2 * 2 := by
    norm_num [sphereDelta, sphereA, sphereB, sphereC, outwardRay, sph]
  have hq : ratLibm.sqrt (sphereDelta outwardRay (sph 0 0 0 1)) = 2 := by
    rw [hdel]
    show Rat.sqrt (2 * 2) = 2
    rw [Rat.sqrt_eq]; norm_num
  have hA : sphereA outwardRay = 1 := by norm_num [sphereA, outwardRay]
  have hB : sphereB outwardRay (sph 0 0 0 1) = 2 := by norm_num [sphereB, outwardRay, sph]
  rw [ray_sphere_intersect_of_delta_nonneg ratLibm outwardRay (sph 0 0 0 1)
    (by rw [hA]; norm_num) (by rw [hdel]; norm_num) ⟨by rw [hq]; norm_num, by rw [hq, hdel]⟩]
  rw [hq, hA, hB]
  norm_num

theorem sphereScene_struck :
    struck ratLibm outwardRay sphereScene = [((HitType.SPHEREHIT, 0), 0)] := by
  simp [struck, sphereScene, emptyScene, indexedCands, sphereCand, outwardRay_value]

/-- C7, the code at the failing input: the ray from the point `(1,0,0)` of the
unit sphere in direction `(1,0,0)` (a non-zero direction) gets from
`ClosestHit` a hit on the sphere with `t = 0`, not `t > 0`. -/
theorem C7_sphere_hit_with_t_zero :
    outwardRay.dir ≠ ⟨0, 0, 0⟩
    ∧ (ClosestHit ratLibm outwardRay sphereScene).hitOccur = true
    ∧ (ClosestHit ratLibm outwardRay sphereScene).hitType = HitType.SPHEREHIT
    ∧ (ClosestHit ratLibm outwardRay sphereScene).t = 0 := by
  have ho : (ClosestHit ratLibm outwardRay sphereScene).hitOccur = true :=
    (closestHit_first ratLibm outwardRay sphereScene
      ⟨((HitType.SPHEREHIT, 0), 0), by rw [sphereScene_struck]; simp, DBL_MAX_pos⟩).1
  have hmem := (closestHit_min ratLibm outwardRay sphereScene ho).1
  rw [sphereScene_struck, List.mem_singleton, Prod.mk.injEq, Prod.mk.injEq] at hmem
  exact ⟨by simp [outwardRay], ho, hmem.1.1, hmem.2⟩

end TieAndSign

section ShaderFacts

variable {K : Type} [LinearOrderedField K] [FloorRing K]

/-! ## The shader -/

theorem calculateColorLog_neg (m : Libm K) (ray : Ray K) (iterationCount : Int)
    (scene : Scene K) (h : iterationCount < 0) :
    CalculateColorLog m ray iterationCount scene = (Except.ok ⟨0, 0, 0⟩, []) := by
  rw [CalculateColorLog, dif_pos h]

theorem calculateColorLog_miss (m : Libm K) (ray : Ray K) (iterationCount : Int)
    (scene : Scene K) (h : 0 ≤ iterationCount)
    (hmiss : (ClosestHit m ray scene).hitOccur = false) :
    CalculateColorLog m ray iterationCount scene
      = (Except.ok (clipRGB scene.background_color), []) := by
  rw [CalculateColorLog, dif_neg (not_lt.mpr h)]
  simp only [hmiss, Bool.not_false, if_true]

theorem calculateColorLog_error (m : Libm K) (ray : Ray K) (iterationCount : Int)
    (scene : Scene K) (h : 0 ≤ iterationCount)
    (hhit : (ClosestHit m ray scene).hitOccur = true) (e : Thrown)
    (hd : directColor m ray (ClosestHit m ray scene) scene = Except.error e) :
    CalculateColorLog m ray iterationCount scene = (Except.error e, []) := by
  rw [CalculateColorLog, dif_neg (not_lt.mpr h)]
  simp only [hhit, Bool.not_true, Bool.false_eq_true, if_false, hd]

theorem calculateColorLog_no_mirror (m : Libm K) (ray : Ray K) (iterationCount : Int)
    (scene : Scene K) (h : 0 ≤ iterationCount)
    (hhit : (ClosestHit m ray scene).hitOccur = true) (color : Vec3f K)
    (hd : directColor m ray (ClosestHit m ray scene) scene = Except.ok color)
    (hm : hasMirror (hitMaterial (ClosestHit m ray scene) scene) = false) :
    CalculateColorLog m ray iterationCount scene = (Except.ok (clipRGB color), []) := by
  rw [CalculateColorLog, dif_neg (not_lt.mpr h)]
  simp only [hhit, Bool.not_true, Bool.false_eq_true, if_false, hd, hm]

/-- On a mirror the call recurses once, with `iterationCount - 1`; the colour
returned adds the reflected colour times `mirror`. -/
theorem calculateColorLog_mirror (m : Libm K) (ray : Ray K) (iterationCount : Int)
    (scene : Scene K) (h : 0 ≤ iterationCount)
    (hhit : (ClosestHit m ray scene).hitOccur = true) (color : Vec3f K)
    (hd : directColor m ray (ClosestHit m ray scene) scene = Except.ok color)
    (hm : hasMirror (hitMaterial (ClosestHit m ray scene) scene) = true) :
    (CalculateColorLog m ray iterationCount scene).2
        = (iterationCount - 1)
          :: (CalculateColorLog m (mirrorRay m ray (ClosestHit m ray scene) scene)
              (iterationCount - 1) scene).2
    ∧ (∀ e : Thrown,
        (CalculateColorLog m (mirrorRay m ray (ClosestHit m ray scene) scene)
            (iterationCount - 1) scene).1 = Except.error e →
        (CalculateColorLog m ray iterationCount scene).1 = Except.error e)
    ∧ (∀ mirrorness : RGB,
        (CalculateColorLog m (mirrorRay m ray (ClosestHit m ray scene) scene)
            (iterationCount - 1) scene).1 = Except.ok mirrorness →
        (CalculateColorLog m ray iterationCount scene).1
          = Except.ok (clipRGB
              ⟨color.x + (mirrorness.r : K)
                  * (hitMaterial (ClosestHit m ray scene) scene).mirror.x,
               color.y + (mirrorness.g : K)
                  * (hitMaterial (ClosestHit m ray scene) scene).mirror.y,
               color.z + (mirrorness.b : K)
                  * (hitMaterial (ClosestHit m ray scene) scene).mirror.z⟩)) := by
  rw [CalculateColorLog, dif_neg (not_lt.mpr h)]
  simp only [hhit, Bool.not_true, Bool.false_eq_true, if_false, hd, hm, if_true]
  cases hsub : (CalculateColorLog m (mirrorRay m ray (ClosestHit m ray scene) scene)
      (iterationCount - 1) scene).1 with
  | error e =>
    refine ⟨rfl, fun e1 he => ?_, fun c hc => ?_⟩
    · cases he; rfl
    · cases hc
  | ok c =>
    refine ⟨rfl, fun e1 he => ?_, fun c1 hc => ?_⟩
    · cases he
    · cases hc; rfl

theorem ctrunc_intCast (n : Int) : ctrunc (n : K) = n := by
  unfold ctrunc
  split_ifs
  · exact Int.floor_intCast n
  · exact Int.ceil_intCast n

/-- A clipped colour stored in an `unsigned char`: `min(round(a), 255)`. -/
theorem ctrunc_clip (a : K) : ctrunc (clip a) = min (cround a) 255 := by
  unfold clip
  rw [MIN_eq_min]
  have h : min ((cround a : Int) : K) 255 = ((min (cround a) 255 : Int) : K) := by
    rw [Int.cast_min]; norm_num
  rw [h, ctrunc_intCast]

/-- In the range of `int` the conversion `(int)x` is the integer part. -/
theorem cint_of_range (u : K) (h : -(2 : K) ^ 31 - 1 < u ∧ u < (2 : K) ^ 31) :
    cint u = ctrunc u := by
  unfold cint
  rw [if_pos h]

theorem cint_zero : cint (0 : K) = 0 := by
  rw [cint_of_range 0 ⟨by norm_num, by norm_num⟩]
  have := ctrunc_intCast (K := K) 0
  simpa using this

/-- The bytes of a colour whose rounded value is not negative: per channel
`min(round(x), 255)`, a value in `0..255`. -/
theorem clipRGB_byte (color : Vec3f K) (hb : ByteColour color) :
    clipRGB color = ⟨min (cround color.x) 255, min (cround color.y) 255,
        min (cround color.z) 255⟩
    ∧ (0 ≤ (clipRGB color).r ∧ (clipRGB color).r ≤ 255)
    ∧ (0 ≤ (clipRGB color).g ∧ (clipRGB color).g ≤ 255)
    ∧ (0 ≤ (clipRGB color).b ∧ (clipRGB color).b ≤ 255) := by
  obtain ⟨hx, hy, hz⟩ := hb
  have e : clipRGB color = ⟨min (cround color.x) 255, min (cround color.y) 255,
      min (cround color.z) 255⟩ := by
    simp only [clipRGB, ctrunc_clip]
  rw [e]
  exact ⟨rfl, ⟨le_min hx (by norm_num), min_le_right _ _⟩,
    ⟨le_min hy (by norm_num), min_le_right _ _⟩,
    ⟨le_min hz (by norm_num), min_le_right _ _⟩⟩

theorem cround_zero : cround (0 : K) = 0 := by
  unfold cround
  rw [if_pos (le_refl _), zero_add]
  rw [Int.floor_eq_iff]
  constructor <;> norm_num

omit [FloorRing K] in
/-- With no mesh, free triangle or sphere, `ClosestHit` reports no hit. -/
theorem closestHit_no_primitive (m : Libm K) (ray : Ray K) (scene : Scene K)
    (h1 : scene.meshes = []) (h2 : scene.triangles = []) (h3 : scene.spheres = []) :
    (ClosestHit m ray scene).hitOccur = false := by
  simp [ClosestHit, h1, h2, h3, indexedLoop]

/-- The colour of a ray that hits nothing. -/
theorem calculateColor_background (m : Libm K) (ray : Ray K) (iterationCount : Int)
    (scene : Scene K) (h : 0 ≤ iterationCount)
    (hmiss : (ClosestHit m ray scene).hitOccur = false) :
    CalculateColor m ray iterationCount scene
      = Except.ok ⟨min (cround scene.background_color.x) 255,
          min (cround scene.background_color.y) 255,
          min (cround scene.background_color.z) 255⟩ := by
  unfold CalculateColor
  rw [calculateColorLog_miss m ray iterationCount scene h hmiss]
  simp only [clipRGB, ctrunc_clip]

/-- C8: a ray traced with recursion depth `>= 0` for which `ClosestHit` finds
no hit gets the colour `(clip(bg.x), clip(bg.y), clip(bg.z))`, with `bg` the
background colour of the scene and `clip(x) = min(round(x), 255)`, whatever
the ambient light; in a scene without primitives and with background
`(0,0,0)` every ray gets `(0,0,0)`. -/
theorem C8_background_fallback (m : Libm K) (ray : Ray K) (iterationCount : Int)
    (scene : Scene K) (h : 0 ≤ iterationCount) :
    ((ClosestHit m ray scene).hitOccur = false →
      CalculateColor m ray iterationCount scene
        = Except.ok ⟨min (cround scene.background_color.x) 255,
            min (cround scene.background_color.y) 255,
            min (cround scene.background_color.z) 255⟩)
    ∧ (scene.meshes = [] → scene.triangles = [] → scene.spheres = [] →
        scene.background_color = ⟨0, 0, 0⟩ →
        CalculateColor m ray iterationCount scene = Except.ok ⟨0, 0, 0⟩) := by
  refine ⟨calculateColor_background m ray iterationCount scene h, ?_⟩
  intro h1 h2 h3 hbg
  rw [calculateColor_background m ray iterationCount scene h
    (closestHit_no_primitive m ray scene h1 h2 h3), hbg]
  simp only [cround_zero]
  rfl

/-- Witness of C8: in the empty scene with black background the ray `downRay`
at depth 0 gets `(0,0,0)`. -/
theorem C8_background_fallback_witness :
    CalculateColor ratLibm downRay 0 emptyScene = Except.ok ⟨0, 0, 0⟩ :=
  (C8_background_fallback ratLibm downRay 0 emptyScene (le_refl _)).2 rfl rfl rfl rfl

end ShaderFacts

section Concrete

theorem two_lt_DBL_MAX : (2 : ℚ) < DBL_MAX := by
  unfold DBL_MAX
  have h : (2 : ℚ) ^ 971 * 2 ≤ 2 ^ 1024 := by
    rw [← pow_succ]
    exact pow_le_pow_right₀ (by norm_num) (by norm_num)
  have h1 : (2 : ℚ) ≤ 2 ^ 971 := by
    calc (2 : ℚ) = 2 ^ 1 := by norm_num
      _ ≤ 2 ^ 971 := pow_le_pow_right₀ (by norm_num) (by norm_num)
  linarith

theorem rat_sqrt_one : Rat.sqrt 1 = 1 := by
  have h : Rat.sqrt (1 * 1) = |1| := Rat.sqrt_eq 1
  rw [mul_one, abs_one] at h
  exact h

theorem mirrorScene_hit :
    ClosestHit ratLibm axisRay mirrorScene
      = { hitOccur := true, materialID := 1, hitType := HitType.SPHEREHIT, hitID := 0,
          faceID := 0, replace_all_drawn := false, intersectPoint := ⟨0, 0, 1⟩,
          normal := ⟨0, 0, 1⟩, t := 2 } := by
  have hv := axisRay_value
  simp only [ClosestHit, mirrorScene, sphereScene, emptyScene, indexedLoop, sphereStep, hv]
  rw [if_pos ⟨by norm_num, two_lt_DBL_MAX⟩]
  simp only [Hit.unset, axisRay, sph, Vec3f.add, Vec3f.smul, Vec3f.sub, Vec3f.normalize,
    Vec3f.dot, ratLibm]
  norm_num [rat_sqrt_one]

theorem texScene_hit :
    ClosestHit ratLibm downRay texScene
      = { hitOccur := true, materialID := 1, hitType := HitType.TRIANGLEHIT, hitID := 0,
          faceID := 0, replace_all_drawn := false, intersectPoint := ⟨1 / 4, 1 / 4, 0⟩,
          normal := ⟨0, 0, 1⟩, t := 1 } := by
  have hv := downRay_facts.1
  simp only [ClosestHit, texScene, emptyScene, indexedLoop, triangleStep, hv]
  rw [if_pos ⟨by norm_num, one_lt_DBL_MAX⟩]
  simp only [Hit.unset, downRay, unitTriangle, Vec3f.add, Vec3f.smul]
  norm_num

end Concrete

section MirrorConcrete

theorem mirrorScene_direct :
    directColor ratLibm axisRay (ClosestHit ratLibm axisRay mirrorScene) mirrorScene
      = Except.ok ⟨0, 0, 0⟩ := by
  rw [mirrorScene_hit]
  simp [directColor, Diffuse, hitTexture, lightLoop, hitMaterial, vecAt, mirrorScene,
    sphereScene, emptyScene, sph, mirrorMaterial, Vec3f.add]

theorem mirrorScene_hasMirror :
    hasMirror (hitMaterial (ClosestHit ratLibm axisRay mirrorScene) mirrorScene) = true := by
  rw [mirrorScene_hit]
  simp [hasMirror, hitMaterial, vecAt, mirrorScene, mirrorMaterial]

/-- A mirror at depth 0: the one recursive invocation has depth `-1`. -/
theorem mirrorScene_calls : CalculateColorCalls ratLibm axisRay 0 mirrorScene = [-1] := by
  have hhit : (ClosestHit ratLibm axisRay mirrorScene).hitOccur = true := by
    rw [mirrorScene_hit]
  have h := (calculateColorLog_mirror ratLibm axisRay 0 mirrorScene (le_refl _) hhit _
    mirrorScene_direct mirrorScene_hasMirror).1
  unfold CalculateColorCalls
  rw [h, calculateColorLog_neg _ _ _ _ (by norm_num)]
  rfl

end MirrorConcrete

section RecursionFacts

variable {K : Type} [LinearOrderedField K] [FloorRing K]

/-! ## Mirror recursion -/

/-- A call triggers no recursive invocation, or one with `iterationCount - 1`
followed by the invocations that one triggers. -/
theorem calculateColorCalls_step (m : Libm K) (ray : Ray K) (iterationCount : Int)
    (scene : Scene K) :
    CalculateColorCalls m ray iterationCount scene = []
    ∨ (0 ≤ iterationCount ∧ ∃ newRay : Ray K,
        CalculateColorCalls m ray iterationCount scene
          = (iterationCount - 1) :: CalculateColorCalls m newRay (iterationCount - 1) scene) := by
  unfold CalculateColorCalls
  by_cases hneg : iterationCount < 0
  · left; rw [calculateColorLog_neg m ray iterationCount scene hneg]
  · have h0 : 0 ≤ iterationCount := not_lt.mp hneg
    cases hhit : (ClosestHit m ray scene).hitOccur with
    | false => left; rw [calculateColorLog_miss m ray iterationCount scene h0 hhit]
    | true =>
      cases hd : directColor m ray (ClosestHit m ray scene) scene with
      | error e => left; rw [calculateColorLog_error m ray iterationCount scene h0 hhit e hd]
      | ok color =>
        cases hm : hasMirror (hitMaterial (ClosestHit m ray scene) scene) with
        | false =>
          left; rw [calculateColorLog_no_mirror m ray iterationCount scene h0 hhit color hd hm]
        | true =>
          right
          exact ⟨h0, _, (calculateColorLog_mirror m ray iterationCount scene h0 hhit color
            hd hm).1⟩

/-- The recursive invocations form the chain `D-1, D-2, ...`, of at most
`D + 1` links. -/
theorem calculateColorCalls_chain (m : Libm K) (scene : Scene K) (n : Nat) :
    ∀ (iterationCount : Int) (ray : Ray K), (iterationCount + 1).toNat ≤ n →
      ∃ k : Nat, k ≤ (iterationCount + 1).toNat
        ∧ CalculateColorCalls m ray iterationCount scene
          = (List.range k).map (fun i : Nat => iterationCount - 1 - (i : Int)) := by
  induction n with
  | zero =>
    intro D ray hD
    refine ⟨0, Nat.zero_le _, ?_⟩
    rcases calculateColorCalls_step m ray D scene with h | ⟨h0, _, _⟩
    · rw [h]; rfl
    · omega
  | succ n ih =>
    intro D ray hD
    rcases calculateColorCalls_step m ray D scene with h | ⟨h0, newRay, h⟩
    · exact ⟨0, Nat.zero_le _, by rw [h]; rfl⟩
    · obtain ⟨k, hk, hc⟩ := ih (D - 1) newRay (by omega)
      refine ⟨k + 1, by omega, ?_⟩
      rw [h, hc, List.range_succ_eq_map, List.map_cons, List.map_map]
      congr 1
      · simp
      · apply List.map_congr_left
        intro i _
        simp only [Function.comp_apply, Nat.cast_succ]
        ring

/-- C9: `CalculateColor` is a total function (its recursion is on
`iterationCount + 1`, which decreases); a call with depth `< 0` returns black
`(0,0,0)` whatever the scene and triggers no invocation; the recursive
invocations a call at depth `D` triggers have the depths `D-1, D-2, ...`, each
one smaller than the one before; none is below `-1`; for `D >= 0` there
are at most `D + 1` of them; and the depth `-1` is reached: a ray that hits
the reflecting sphere of `mirrorScene` at depth 0 triggers one invocation, at
depth `-1`. -/
theorem C9_mirror_recursion_terminates (m : Libm K) (ray : Ray K) (D : Int)
    (scene : Scene K) :
    (∃ c : Except Thrown RGB, CalculateColor m ray D scene = c)
    ∧ (D < 0 → CalculateColor m ray D scene = Except.ok ⟨0, 0, 0⟩
        ∧ CalculateColorCalls m ray D scene = [])
    ∧ (∃ k : Nat, CalculateColorCalls m ray D scene
        = (List.range k).map (fun i : Nat => D - 1 - (i : Int)))
    ∧ (∀ d ∈ CalculateColorCalls m ray D scene, -1 ≤ d ∧ d < D)
    ∧ (0 ≤ D → ((CalculateColorCalls m ray D scene).length : Int) ≤ D + 1)
    ∧ CalculateColorCalls ratLibm axisRay 0 mirrorScene = [-1] := by
  obtain ⟨k, hk, hc⟩ := calculateColorCalls_chain m scene (D + 1).toNat D ray (le_refl _)
  refine ⟨⟨_, rfl⟩, fun hneg => ?_, ⟨k, hc⟩, ?_, fun h0 => ?_, mirrorScene_calls⟩
  · unfold CalculateColor CalculateColorCalls
    rw [calculateColorLog_neg m ray D scene hneg]
    exact ⟨rfl, rfl⟩
  · intro d hd
    rw [hc, List.mem_map] at hd
    obtain ⟨i, hi, hid⟩ := hd
    rw [List.mem_range] at hi
    omega
  · rw [hc, List.length_map, List.length_range]
    omega

end RecursionFacts

section ReplaceAll

variable {K : Type} [LinearOrderedField K] [FloorRing K]

/-! ## Colour mode `REPLACE_ALL` -/

omit [FloorRing K] in
theorem vec3f_add_zero (c : Vec3f K) : c.add ⟨0, 0, 0⟩ = c := by
  cases c
  simp [Vec3f.add]

omit [FloorRing K] in
/-- The lookup at the start of `Diffuse` finds, for a primitive with a
texture, the texture `scene.textures[texture_id - 1]` and the texture
coordinates of the hit. -/
theorem hitTexture_of_id (m : Libm K) (ray : Ray K) (hit : Hit K) (scene : Scene K)
    (tid : Int) (hid : hitTextureId hit scene = some tid) (hne : tid ≠ -1) :
    hitTexture m ray hit scene
      = Except.ok (some (vecAt scene.textures (tid - 1) Texture.unset,
          hitUV m ray hit scene)) := by
  unfold hitTextureId at hid
  unfold hitTexture hitUV
  revert hid
  cases hit.hitType with
  | MESHHIT =>
    intro hid
    simp only [Option.some.injEq] at hid
    simp only [hid, ne_eq, hne, not_false_eq_true, if_true]
  | TRIANGLEHIT =>
    intro hid
    simp only [Option.some.injEq] at hid
    simp only [hid, ne_eq, hne, not_false_eq_true, if_true]
  | SPHEREHIT =>
    intro hid
    simp only [Option.some.injEq] at hid
    simp only [hid, ne_eq, hne, not_false_eq_true, if_true]
  | other c =>
    intro hid
    cases hid

/-- With a `REPLACE_ALL` texture, `Diffuse` without light returns the sampled
colour and `Diffuse` with a light returns `(0,0,0)`. -/
theorem diffuse_replace_all (m : Libm K) (ray : Ray K) (hit : Hit K) (scene : Scene K)
    (texture : Texture) (UV : Vec2f K) (sampled : Vec3f K)
    (htex : hitTexture m ray hit scene = Except.ok (some (texture, UV)))
    (hmode : texture.colormode = ColorMode.REPLACE_ALL)
    (hs : ColorTexture UV texture = Except.ok sampled) :
    Diffuse m ray hit none scene = Except.ok sampled
    ∧ ∀ light : PointLight K, Diffuse m ray hit (some light) scene = Except.ok ⟨0, 0, 0⟩ := by
  constructor
  · unfold Diffuse
    simp only [htex, hs, hmode, if_true]
  · intro light
    unfold Diffuse
    simp only [htex, hs, hmode, if_true]

theorem lightLoop_replace_all (m : Libm K) (ray : Ray K) (hit : Hit K) (scene : Scene K)
    (hdiff : ∀ light : PointLight K,
      Diffuse m ray hit (some light) scene = Except.ok ⟨0, 0, 0⟩)
    (lights : List (PointLight K)) :
    ∀ color : Vec3f K, lightLoop m ray hit scene lights color
      = Except.ok (specularSum m ray hit scene lights color) := by
  induction lights with
  | nil => intro color; rfl
  | cons light rest ih =>
    intro color
    rw [lightLoop, specularSum]
    unfold lightStep
    cases hsh : isShadow m hit light scene with
    | true =>
      simp only [if_true]
      exact ih color
    | false =>
      simp only [Bool.false_eq_true, if_false, hdiff light, vec3f_add_zero]
      exact ih _

/-- The colour of a hit on a `REPLACE_ALL` texture whose material does not
reflect: ambient term, sampled colour and the specular terms of the lights
not in shadow. -/
theorem calculateColor_replace_all (m : Libm K) (ray : Ray K) (iterationCount : Int)
    (scene : Scene K) (texture : Texture) (UV : Vec2f K) (sampled : Vec3f K)
    (h0 : 0 ≤ iterationCount)
    (hhit : (ClosestHit m ray scene).hitOccur = true)
    (htex : hitTexture m ray (ClosestHit m ray scene) scene = Except.ok (some (texture, UV)))
    (hmode : texture.colormode = ColorMode.REPLACE_ALL)
    (hs : ColorTexture UV texture = Except.ok sampled)
    (hm : hasMirror (hitMaterial (ClosestHit m ray scene) scene) = false) :
    CalculateColor m ray iterationCount scene
      = Except.ok (clipRGB (specularSum m ray (ClosestHit m ray scene) scene scene.point_lights
          ⟨(hitMaterial (ClosestHit m ray scene) scene).ambient.x * scene.ambient_light.x
              + sampled.x,
           (hitMaterial (ClosestHit m ray scene) scene).ambient.y * scene.ambient_light.y
              + sampled.y,
           (hitMaterial (ClosestHit m ray scene) scene).ambient.z * scene.ambient_light.z
              + sampled.z⟩)) := by
  obtain ⟨hd0, hdl⟩ := diffuse_replace_all m ray _ scene texture UV sampled htex hmode hs
  have hdir : directColor m ray (ClosestHit m ray scene) scene
      = Except.ok (specularSum m ray (ClosestHit m ray scene) scene scene.point_lights
          ⟨(hitMaterial (ClosestHit m ray scene) scene).ambient.x * scene.ambient_light.x
              + sampled.x,
           (hitMaterial (ClosestHit m ray scene) scene).ambient.y * scene.ambient_light.y
              + sampled.y,
           (hitMaterial (ClosestHit m ray scene) scene).ambient.z * scene.ambient_light.z
              + sampled.z⟩) := by
    unfold directColor
    simp only [hd0, lightLoop_replace_all m ray _ scene hdl, Vec3f.add, zero_add]
  unfold CalculateColor
  rw [calculateColorLog_no_mirror m ray iterationCount scene h0 hhit _ hdir hm]

/-- C10 (amended): for a hit on a primitive whose texture
`scene.textures[texture_id - 1]` has colour mode `REPLACE_ALL` and whose
material has mirror `(0,0,0)`, such that the sum of the ambient term
`material.ambient * scene.ambient_light`, the texture colour sampled at the
texture coordinates of the hit and the specular terms of the point lights
that `isShadow` does not report as occluded has a rounded value that is not
negative in any channel: `CalculateColor` returns per channel `clip` of that
sum, `min(round(sum), 255)`, a byte in `0..255`; `Diffuse` contributes
`(0,0,0)` for every light, so the material's diffuse coefficient does not
enter; without point light the sum is the ambient term plus the sampled
colour. -/
theorem C10_replace_all_colour (m : Libm K) (ray : Ray K) (iterationCount : Int)
    (scene : Scene K) (tid : Int) (sampled : Vec3f K)
    (h0 : 0 ≤ iterationCount)
    (hhit : (ClosestHit m ray scene).hitOccur = true)
    (hid : hitTextureId (ClosestHit m ray scene) scene = some tid) (hne : tid ≠ -1)
    (hmode : (vecAt scene.textures (tid - 1) Texture.unset).colormode
      = ColorMode.REPLACE_ALL)
    (hs : ColorTexture (hitUV m ray (ClosestHit m ray scene) scene)
      (vecAt scene.textures (tid - 1) Texture.unset) = Except.ok sampled)
    (hm : (vecAt scene.materials ((ClosestHit m ray scene).materialID - 1)
      Material.unset).mirror = ⟨0, 0, 0⟩)
    (hb : ByteColour (replaceAllSum m ray (ClosestHit m ray scene) scene sampled)) :
    CalculateColor m ray iterationCount scene
      = Except.ok ⟨min (cround (replaceAllSum m ray (ClosestHit m ray scene) scene sampled).x) 255,
          min (cround (replaceAllSum m ray (ClosestHit m ray scene) scene sampled).y) 255,
          min (cround (replaceAllSum m ray (ClosestHit m ray scene) scene sampled).z) 255⟩
    ∧ (0 ≤ min (cround (replaceAllSum m ray (ClosestHit m ray scene) scene sampled).x) 255
      ∧ 0 ≤ min (cround (replaceAllSum m ray (ClosestHit m ray scene) scene sampled).y) 255
      ∧ 0 ≤ min (cround (replaceAllSum m ray (ClosestHit m ray scene) scene sampled).z) 255)
    ∧ (∀ light : PointLight K,
        Diffuse m ray (ClosestHit m ray scene) (some light) scene = Except.ok ⟨0, 0, 0⟩)
    ∧ (scene.point_lights = [] →
        replaceAllSum m ray (ClosestHit m ray scene) scene sampled
          = ⟨(vecAt scene.materials ((ClosestHit m ray scene).materialID - 1)
                Material.unset).ambient.x * scene.ambient_light.x + sampled.x,
             (vecAt scene.materials ((ClosestHit m ray scene).materialID - 1)
                Material.unset).ambient.y * scene.ambient_light.y + sampled.y,
             (vecAt scene.materials ((ClosestHit m ray scene).materialID - 1)
                Material.unset).ambient.z * scene.ambient_light.z + sampled.z⟩) := by
  have hm1 : hasMirror (hitMaterial (ClosestHit m ray scene) scene) = false := by
    simp [hasMirror, hitMaterial, hm]
  have htex := hitTexture_of_id m ray (ClosestHit m ray scene) scene tid hid hne
  have key := calculateColor_replace_all m ray iterationCount scene _ _ sampled h0 hhit
    htex hmode hs hm1
  obtain ⟨e, hr, hg, hbl⟩ := clipRGB_byte _ hb
  rw [e] at hr hg hbl
  refine ⟨?_, ⟨hr.1, hg.1, hbl.1⟩,
    (diffuse_replace_all m ray _ scene _ _ sampled htex hmode hs).2, ?_⟩
  · rw [key]
    exact congrArg Except.ok e
  · intro hl
    unfold replaceAllSum
    rw [hl]
    rfl

end ReplaceAll

section ReplaceAllConcrete

variable {K : Type} [LinearOrderedField K] [FloorRing K]

theorem cround_intCast (n : Int) : cround (n : K) = n := by
  unfold cround
  split_ifs with h
  · rw [Int.floor_eq_iff]
    constructor <;> linarith
  · rw [Int.ceil_eq_iff]
    constructor <;> linarith

theorem clipRGB_110 : clipRGB (⟨110, 110, 110⟩ : Vec3f ℚ) = ⟨110, 110, 110⟩ := by
  have h : cround (110 : ℚ) = 110 := by
    have := cround_intCast (K := ℚ) 110
    simpa using this
  simp only [clipRGB, ctrunc_clip, h]
  rfl

theorem texScene_uv : uvForTriangle downRay unitTriangle = ⟨0, 0⟩ := by
  simp [uvForTriangle, unitTriangle, vtx]

theorem texScene_texture :
    hitTexture ratLibm downRay (ClosestHit ratLibm downRay texScene) texScene
      = Except.ok (some (flatTexture, (⟨0, 0⟩ : Vec2f ℚ))) := by
  rw [texScene_hit]
  simp [hitTexture, vecAt, texScene, emptyScene, texScene_uv]

theorem flatTexture_sample :
    ColorTexture (⟨0, 0⟩ : Vec2f ℚ) flatTexture = Except.ok ⟨100, 100, 100⟩ := by
  have h0 : cround (0 : ℚ) = 0 := cround_zero
  have ht : cint (0 : ℚ) = 0 := cint_zero
  simp [ColorTexture, wrapUV, sampleUV, flatTexture, ROUND, PIXEL, texel, vecAt, h0, ht]

theorem texScene_material :
    hitMaterial (ClosestHit ratLibm downRay texScene) texScene = texMaterial := by
  rw [texScene_hit]
  simp [hitMaterial, vecAt, texScene, emptyScene]

theorem texScene_colour :
    CalculateColor ratLibm downRay 0 texScene = Except.ok ⟨110, 110, 110⟩ := by
  have hhit : (ClosestHit ratLibm downRay texScene).hitOccur = true := by
    rw [texScene_hit]
  rw [calculateColor_replace_all ratLibm downRay 0 texScene flatTexture ⟨0, 0⟩
    ⟨100, 100, 100⟩ (le_refl _) hhit texScene_texture rfl flatTexture_sample
    (by rw [texScene_material]; simp [hasMirror, texMaterial])]
  rw [texScene_material]
  have hl : texScene.point_lights = [] := rfl
  rw [hl]
  simp only [specularSum, texMaterial, texScene]
  norm_num
  exact clipRGB_110

/-- C10, as stated, fails: in `texScene` the ray `downRay` hits a triangle
whose texture has colour mode `REPLACE_ALL` and whose material has mirror
`(0,0,0)`; there is no point light; the sampled texture colour is
`(100,100,100)`; and `CalculateColor` returns `(110,110,110)`, the sampled
colour plus the ambient term `1 * 10`. -/
theorem C10_counterexample :
    hitTexture ratLibm downRay (ClosestHit ratLibm downRay texScene) texScene
      = Except.ok (some (flatTexture, (⟨0, 0⟩ : Vec2f ℚ)))
    ∧ flatTexture.colormode = ColorMode.REPLACE_ALL
    ∧ (hitMaterial (ClosestHit ratLibm downRay texScene) texScene).mirror = ⟨0, 0, 0⟩
    ∧ texScene.point_lights = []
    ∧ ColorTexture (⟨0, 0⟩ : Vec2f ℚ) flatTexture = Except.ok ⟨100, 100, 100⟩
    ∧ clipRGB (⟨100, 100, 100⟩ : Vec3f ℚ) = ⟨100, 100, 100⟩
    ∧ CalculateColor ratLibm downRay 0 texScene = Except.ok ⟨110, 110, 110⟩ := by
  refine ⟨texScene_texture, rfl, by rw [texScene_material]; rfl, rfl, flatTexture_sample,
    ?_, texScene_colour⟩
  have h : cround (100 : ℚ) = 100 := by
    have := cround_intCast (K := ℚ) 100
    simpa using this
  simp only [clipRGB, ctrunc_clip, h]
  rfl

theorem texScene_id :
    hitTextureId (ClosestHit ratLibm downRay texScene) texScene = some 1 := by
  rw [texScene_hit]
  simp [hitTextureId, vecAt, texScene, emptyScene]

theorem texScene_hitUV :
    hitUV ratLibm downRay (ClosestHit ratLibm downRay texScene) texScene = ⟨0, 0⟩ := by
  rw [texScene_hit]
  simp [hitUV, vecAt, texScene, emptyScene, texScene_uv]

theorem texScene_sum :
    replaceAllSum ratLibm downRay (ClosestHit ratLibm downRay texScene) texScene
      ⟨100, 100, 100⟩ = ⟨110, 110, 110⟩ := by
  have hmat := texScene_material
  unfold hitMaterial at hmat
  unfold replaceAllSum
  rw [hmat]
  have hl : texScene.point_lights = [] := rfl
  rw [hl]
  simp only [specularSum, texMaterial, texScene]
  norm_num

/-- Witness of C10: the triangle of `texScene`, textured `REPLACE_ALL` with
the texel `(100,100,100)` under the ambient term `1 * 10`, gets the colour
`clip(10 + 100) = 110` per channel. -/
theorem C10_replace_all_colour_witness :
    CalculateColor ratLibm downRay 0 texScene
      = Except.ok ⟨min (cround (110 : ℚ)) 255, min (cround (110 : ℚ)) 255,
          min (cround (110 : ℚ)) 255⟩ := by
  have h110 : cround (110 : ℚ) = 110 := by
    have := cround_intCast (K := ℚ) 110
    simpa using this
  have h := (C10_replace_all_colour ratLibm downRay 0 texScene 1 ⟨100, 100, 100⟩
    (le_refl _) (by rw [texScene_hit]) texScene_id (by norm_num)
    (by simp [vecAt, texScene, flatTexture])
    (by
      rw [texScene_hitUV]
      have e : vecAt texScene.textures (1 - 1) Texture.unset = flatTexture := by
        simp [vecAt, texScene]
      rw [e]
      exact flatTexture_sample)
    (by
      have hmat := texScene_material
      unfold hitMaterial at hmat
      rw [hmat]
      rfl)
    (by
      rw [texScene_sum]
      exact ⟨by rw [h110]; norm_num, by rw [h110]; norm_num, by rw [h110]; norm_num⟩)).1
  rw [texScene_sum] at h
  exact h

end ReplaceAllConcrete

section DiffuseFacts

variable {K : Type} [LinearOrderedField K] [FloorRing K]

/-! ## The diffuse term -/

omit [FloorRing K] in
theorem dot_comm (p q : Vec3f K) : p.dot q = q.dot p := by
  simp only [Vec3f.dot]; ring

omit [FloorRing K] in
/-- The tail of `Diffuse` computes the diffuse term of the specification. -/
theorem diffuseLit_eq_lambert (m : Libm K) (hit : Hit K) (light : PointLight K)
    (Kd : Vec3f K) : diffuseLit m hit light Kd = lambert m hit light Kd := by
  simp only [diffuseLit, lambert, MAX_eq_max, dot_comm hit.normal, mul_div_assoc]

omit [FloorRing K] in
/-- The primitive has no texture exactly when `Diffuse` finds none. -/
theorem hitTexture_none_iff (m : Libm K) (ray : Ray K) (hit : Hit K) (scene : Scene K) :
    hitTexture m ray hit scene = Except.ok none ↔ hitTextureId hit scene = some (-1) := by
  unfold hitTexture hitTextureId
  cases hit.hitType with
  | MESHHIT =>
    simp only [Option.some.injEq]
    split_ifs with h
    · simp [h]
    · simp [not_not.mp h]
  | TRIANGLEHIT =>
    simp only [Option.some.injEq]
    split_ifs with h
    · simp [h]
    · simp [not_not.mp h]
  | SPHEREHIT =>
    simp only [Option.some.injEq]
    split_ifs with h
    · simp [h]
    · simp [not_not.mp h]
  | other c => simp

/-- What `Diffuse` returns for a light, case by case. -/
theorem diffuse_lit_cases (m : Libm K) (ray : Ray K) (hit : Hit K) (light : PointLight K)
    (scene : Scene K) :
    (hitTextureId hit scene = some (-1) →
      Diffuse m ray hit (some light) scene
        = Except.ok (lambert m hit light (hitMaterial hit scene).diffuse))
    ∧ (∀ (texture : Texture) (UV : Vec2f K) (sampled : Vec3f K),
        hitTexture m ray hit scene = Except.ok (some (texture, UV)) →
        ColorTexture UV texture = Except.ok sampled →
        (texture.colormode = ColorMode.REPLACE_KD →
          Diffuse m ray hit (some light) scene
            = Except.ok (lambert m hit light
                ⟨sampled.x / 255, sampled.y / 255, sampled.z / 255⟩))
        ∧ (texture.colormode = ColorMode.BLEND_KD →
          Diffuse m ray hit (some light) scene
            = Except.ok (lambert m hit light
                ⟨(sampled.x / 255 + (hitMaterial hit scene).diffuse.x) / 2,
                 (sampled.y / 255 + (hitMaterial hit scene).diffuse.y) / 2,
                 (sampled.z / 255 + (hitMaterial hit scene).diffuse.z) / 2⟩))
        ∧ (texture.colormode = ColorMode.REPLACE_ALL →
          Diffuse m ray hit (some light) scene = Except.ok ⟨0, 0, 0⟩)) := by
  refine ⟨fun hnone => ?_, fun texture UV sampled htex hs => ⟨fun hm => ?_, fun hm => ?_,
    fun hm => ?_⟩⟩
  · have h := (hitTexture_none_iff m ray hit scene).mpr hnone
    unfold Diffuse
    simp only [h, diffuseLit_eq_lambert]
  · unfold Diffuse
    simp [htex, hs, hm, diffuseLit_eq_lambert]
  · unfold Diffuse
    simp [htex, hs, hm, diffuseLit_eq_lambert]
  · unfold Diffuse
    simp [htex, hs, hm]

/-- C11: for every hit and every non-null light, `Diffuse` returns per channel
`Kd * max(N . toLight, 0) * light.intensity / d^2`, with
`toLight = normalize(light.position - hit.point)` and
`d^2 = |light.position - hit.point|^2`, where, `material` being
`scene.materials[hit.materialID - 1]`, `Kd = material.diffuse` when the
primitive hit has no texture (`texture_id = -1`), and, when it has the texture
`scene.textures[texture_id - 1]` and `sampled` is the colour of that texture
at the texture coordinates of the hit, `Kd = sampled/255` for `REPLACE_KD`,
`Kd = (sampled/255 + material.diffuse)/2` for `BLEND_KD`; for `REPLACE_ALL` the
result is `(0,0,0)`. -/
theorem C11_diffuse_term (m : Libm K) (ray : Ray K) (hit : Hit K) (light : PointLight K)
    (scene : Scene K) :
    (hitTextureId hit scene = some (-1) →
      Diffuse m ray hit (some light) scene
        = Except.ok (lambert m hit light
            (vecAt scene.materials (hit.materialID - 1) Material.unset).diffuse))
    ∧ (∀ (tid : Int) (sampled : Vec3f K),
        hitTextureId hit scene = some tid → tid ≠ -1 →
        ColorTexture (hitUV m ray hit scene) (vecAt scene.textures (tid - 1) Texture.unset)
          = Except.ok sampled →
        ((vecAt scene.textures (tid - 1) Texture.unset).colormode = ColorMode.REPLACE_KD →
          Diffuse m ray hit (some light) scene
            = Except.ok (lambert m hit light
                ⟨sampled.x / 255, sampled.y / 255, sampled.z / 255⟩))
        ∧ ((vecAt scene.textures (tid - 1) Texture.unset).colormode = ColorMode.BLEND_KD →
          Diffuse m ray hit (some light) scene
            = Except.ok (lambert m hit light
                ⟨(sampled.x / 255
                    + (vecAt scene.materials (hit.materialID - 1) Material.unset).diffuse.x) / 2,
                 (sampled.y / 255
                    + (vecAt scene.materials (hit.materialID - 1) Material.unset).diffuse.y) / 2,
                 (sampled.z / 255
                    + (vecAt scene.materials (hit.materialID - 1) Material.unset).diffuse.z) / 2⟩))
        ∧ ((vecAt scene.textures (tid - 1) Texture.unset).colormode = ColorMode.REPLACE_ALL →
          Diffuse m ray hit (some light) scene = Except.ok ⟨0, 0, 0⟩)) :=
  ⟨(diffuse_lit_cases m ray hit light scene).1,
    fun tid sampled hid hne hs =>
      (diffuse_lit_cases m ray hit light scene).2 _ _ sampled
        (hitTexture_of_id m ray hit scene tid hid hne) hs⟩

end DiffuseFacts

section SpecularFacts

variable {K : Type} [LinearOrderedField K]

/-! ## The specular term -/

/-- What `Specular` computes: `pow` is applied to `H . N` as it is. -/
theorem specular_eq (m : Libm K) (ray : Ray K) (hit : Hit K) (light : PointLight K)
    (scene : Scene K) :
    Specular m ray hit light scene
      = ⟨(hitMaterial hit scene).specular.x
            * m.pow (halfwayDot m ray hit light) (hitMaterial hit scene).phong_exponent
            * light.intensity.x
            / (light.position.sub hit.intersectPoint).dot
                (light.position.sub hit.intersectPoint),
         (hitMaterial hit scene).specular.y
            * m.pow (halfwayDot m ray hit light) (hitMaterial hit scene).phong_exponent
            * light.intensity.y
            / (light.position.sub hit.intersectPoint).dot
                (light.position.sub hit.intersectPoint),
         (hitMaterial hit scene).specular.z
            * m.pow (halfwayDot m ray hit light) (hitMaterial hit scene).phong_exponent
            * light.intensity.z
            / (light.position.sub hit.intersectPoint).dot
                (light.position.sub hit.intersectPoint)⟩ := rfl

theorem rat_sqrt_sq (q : ℚ) (h : 0 ≤ q) : Rat.sqrt (q * q) = q := by
  rw [Rat.sqrt_eq, abs_of_nonneg h]

theorem upRay_value : ray_triangle_intersect upRay unitTriangle = 1 := by
  have hdet : triDet upRay unitTriangle = -1 := by
    norm_num [triDet, upRay, unitTriangle, vtx]
  have hne : triDet upRay unitTriangle ≠ 0 := by rw [hdet]; norm_num
  have hon : OnTriangleAt upRay unitTriangle (1 / 4) (1 / 4) 1 := by
    rw [onTriangleAt_iff]
    norm_num [upRay, unitTriangle, vtx]
  obtain ⟨eb, eg, et⟩ := onTriangleAt_unique upRay unitTriangle _ _ _ hne hon
  rw [ray_triangle_intersect_of_cond upRay unitTriangle hne
    ⟨by rw [← eb]; norm_num, by rw [← eg]; norm_num, by rw [← eb, ← eg]; norm_num,
      by rw [← et]; norm_num⟩, ← et]

theorem backScene_hit :
    ClosestHit ratLibm upRay backScene
      = { hitOccur := true, materialID := 1, hitType := HitType.TRIANGLEHIT, hitID := 0,
          faceID := 0, replace_all_drawn := false, intersectPoint := ⟨1 / 4, 1 / 4, 0⟩,
          normal := ⟨0, 0, 1⟩, t := 1 } := by
  have hv := upRay_value
  simp only [ClosestHit, backScene, emptyScene, indexedLoop, triangleStep, hv]
  rw [if_pos ⟨by norm_num, one_lt_DBL_MAX⟩]
  simp only [Hit.unset, upRay, unitTriangle, Vec3f.add, Vec3f.smul]
  norm_num

theorem backScene_halfway :
    halfwayDot ratLibm upRay (ClosestHit ratLibm upRay backScene) highLight = -3 / 5 := by
  rw [backScene_hit]
  have h1 : Rat.sqrt 1 = 1 := rat_sqrt_one
  have h25 : Rat.sqrt 625 = 25 := by
    have h : (625 : ℚ) = 25 * 25 := by norm_num
    rw [h, rat_sqrt_sq 25 (by norm_num)]
  have h65 : Rat.sqrt (36 / 25) = 6 / 5 := by
    have h : (36 / 25 : ℚ) = (6 / 5) * (6 / 5) := by norm_num
    rw [h, rat_sqrt_sq (6 / 5) (by norm_num)]
  simp only [halfwayDot, upRay, highLight, Vec3f.sub, Vec3f.add, Vec3f.normalize, Vec3f.dot,
    ratLibm]
  norm_num [h1, h25, h65]

theorem backScene_material :
    hitMaterial (ClosestHit ratLibm upRay backScene) backScene = texMaterial := by
  rw [backScene_hit]
  simp [hitMaterial, vecAt, backScene, emptyScene]

theorem backScene_specular :
    Specular ratLibm upRay (ClosestHit ratLibm upRay backScene) highLight backScene
      = ⟨-3 / 5, -3 / 5, -3 / 5⟩ := by
  rw [specular_eq, backScene_halfway, backScene_material, backScene_hit]
  simp only [texMaterial, highLight, Vec3f.sub, Vec3f.dot, ratLibm]
  norm_num

/-- The shadow ray from the hit of `upRay` towards `highLight` strikes
nothing: the light is not reported as occluded. -/
theorem backScene_not_shadow :
    isShadow ratLibm (ClosestHit ratLibm upRay backScene) highLight backScene = false := by
  rw [backScene_hit]
  have hmiss : ray_triangle_intersect
      (⟨⟨1 / 4, 1 / 4, 1 / 1000⟩, ⟨24, 0, 7⟩⟩ : Ray ℚ) unitTriangle = -1 := by
    have hdet : triDet (⟨⟨1 / 4, 1 / 4, 1 / 1000⟩, ⟨24, 0, 7⟩⟩ : Ray ℚ) unitTriangle = -7 := by
      norm_num [triDet, unitTriangle, vtx]
    have ht : triT (⟨⟨1 / 4, 1 / 4, 1 / 1000⟩, ⟨24, 0, 7⟩⟩ : Ray ℚ) unitTriangle
        = -(1 / 7000) := by
      rw [triT, hdet]; norm_num [unitTriangle, vtx]
    unfold ray_triangle_intersect
    rw [if_neg (by rw [hdet]; norm_num), if_neg (by rw [ht]; norm_num)]
  have hray : (⟨(⟨1 / 4, 1 / 4, 0⟩ : Vec3f ℚ).add
        ((⟨0, 0, 1⟩ : Vec3f ℚ).smul backScene.shadow_ray_epsilon),
      highLight.position.sub ⟨1 / 4, 1 / 4, 0⟩⟩ : Ray ℚ)
      = ⟨⟨1 / 4, 1 / 4, 1 / 1000⟩, ⟨24, 0, 7⟩⟩ := by
    simp only [backScene, emptyScene, highLight, Vec3f.add, Vec3f.smul, Vec3f.sub]
    norm_num
  have hno : (ClosestHit ratLibm (⟨⟨1 / 4, 1 / 4, 1 / 1000⟩, ⟨24, 0, 7⟩⟩ : Ray ℚ)
      backScene).hitOccur = false := by
    simp only [ClosestHit, backScene, emptyScene, indexedLoop, triangleStep, hmiss]
    rw [if_neg (fun h => absurd h.1 (by norm_num))]
  unfold isShadow
  simp only [hray, hno]
  rfl

/-- C12, the code at the failing input: `upRay` sees `unitTriangle` from behind
and the light `highLight` is in front of it and not in shadow; the cosine
`H . N` is `-3/5`, and `Specular` returns `-3/5` per channel (specular
coefficient 1, Phong exponent 1, intensity over squared distance 1): the base
is not clamped to 0 and the term is negative. -/
theorem C12_specular_negative :
    halfwayDot ratLibm upRay (ClosestHit ratLibm upRay backScene) highLight = -3 / 5
    ∧ isShadow ratLibm (ClosestHit ratLibm upRay backScene) highLight backScene = false
    ∧ Specular ratLibm upRay (ClosestHit ratLibm upRay backScene) highLight backScene
        = ⟨-3 / 5, -3 / 5, -3 / 5⟩ :=
  ⟨backScene_halfway, backScene_not_shadow, backScene_specular⟩

end SpecularFacts

section SamplerFacts

variable {K : Type} [LinearOrderedField K] [FloorRing K]

/-! ## Texture addressing -/

/-- What `U - trunc(U)` is, `trunc` being the integer part, which `(int)U` is
for `U` in the range of `int`: the fractional part for `U >= 0`, and
`U - ceil(U)`, which is not positive, for `U < 0`. -/
theorem sub_ctrunc (u : K) :
    (0 ≤ u → u - ((ctrunc u : Int) : K) = u - ((Int.floor u : Int) : K)
        ∧ 0 ≤ u - ((ctrunc u : Int) : K) ∧ u - ((ctrunc u : Int) : K) < 1)
    ∧ (u < 0 → u - ((ctrunc u : Int) : K) = u - ((Int.ceil u : Int) : K)
        ∧ -1 < u - ((ctrunc u : Int) : K) ∧ u - ((ctrunc u : Int) : K) ≤ 0) := by
  constructor
  · intro h
    have e : ctrunc u = Int.floor u := by unfold ctrunc; rw [if_pos h]
    rw [e]
    refine ⟨rfl, ?_, ?_⟩
    · linarith [Int.floor_le u]
    · linarith [Int.lt_floor_add_one u]
  · intro h
    have e : ctrunc u = Int.ceil u := by unfold ctrunc; rw [if_neg (not_le.mpr h)]
    rw [e]
    refine ⟨rfl, ?_, ?_⟩
    · linarith [Int.ceil_lt_add_one u]
    · linarith [Int.le_ceil u]

theorem wrapUV_repeat (UV : Vec2f K) (texture : Texture)
    (h : texture.repeatmode = RepeatMode.REPEAT) :
    wrapUV UV texture
      = Except.ok ⟨UV.x - ((cint UV.x : Int) : K), UV.y - ((cint UV.y : Int) : K)⟩ := by
  unfold wrapUV
  rw [h]

theorem ctrunc_neg_quarter : ctrunc (-1 / 4 : ℚ) = 0 := by
  unfold ctrunc
  rw [if_neg (by norm_num), Int.ceil_eq_iff]
  constructor <;> norm_num

theorem cint_neg_quarter : cint (-1 / 4 : ℚ) = 0 := by
  rw [cint_of_range _ ⟨by norm_num, by norm_num⟩]
  exact ctrunc_neg_quarter

theorem floor_neg_quarter : Int.floor (-1 / 4 : ℚ) = -1 := by
  rw [Int.floor_eq_iff]
  constructor <;> norm_num

theorem quadTexture_wrap :
    wrapUV (⟨-1 / 4, 0⟩ : Vec2f ℚ) quadTexture = Except.ok ⟨-1 / 4, 0⟩ := by
  rw [wrapUV_repeat _ _ rfl]
  simp only [cint_neg_quarter, cint_zero (K := ℚ)]
  norm_num

/-- C14, the code at the failing input: the texture `quadTexture` has repeat
mode `REPEAT`, `4 x 1` texels and an image of 12 bytes; the coordinates
`(U, V) = (-1/4, 0)` are wrapped to `(-1/4, 0)`, not into `[0, 1)`:
`U - (int)U` leaves the negative `U` as it is, while `U - floor(U)` is `3/4`.
With the wrapped `U` the texel addressed is `(-1, 0)` and `ColorTexture` reads
the bytes `-3`, `-2`, `-1`, before the start of the image. -/
theorem C14_repeat_keeps_negative :
    quadTexture.repeatmode = RepeatMode.REPEAT
    ∧ quadTexture.width = 4 ∧ quadTexture.height = 1 ∧ quadTexture.image.length = 12
    ∧ wrapUV (⟨-1 / 4, 0⟩ : Vec2f ℚ) quadTexture = Except.ok ⟨-1 / 4, 0⟩
    ∧ (-1 / 4 : ℚ) - ((Int.floor (-1 / 4 : ℚ) : Int) : ℚ) = 3 / 4
    ∧ sampleTexels (⟨-1 / 4, 0⟩ : Vec2f ℚ) quadTexture = [(-1, 0)]
    ∧ ColorTextureReads (⟨-1 / 4, 0⟩ : Vec2f ℚ) quadTexture = [-3, -2, -1] := by
  have hx : cround (-1 : ℚ) = -1 := by
    have h : (-1 : ℚ) = ((-1 : Int) : ℚ) := by norm_num
    rw [h, cround_intCast]
  refine ⟨rfl, rfl, rfl, rfl, quadTexture_wrap, ?_, ?_, ?_⟩
  · rw [floor_neg_quarter]
    norm_num
  · simp [sampleTexels, quadTexture, ROUND, hx, cround_zero (K := ℚ)]
  · unfold ColorTextureReads
    rw [quadTexture_wrap]
    simp [sampleReads, quadTexture, ROUND, hx, cround_zero (K := ℚ), PIXEL]

/-! ## Texel addresses -/

/-- For a coordinate in `[0, 1]` the pixel address `round(U * width)` is in
`[0, width]`: it can be `width` itself. -/
theorem round_pixel_bounds (u : K) (width : Int) (h0 : 0 ≤ u) (h1 : u ≤ 1)
    (hw : 1 ≤ width) :
    0 ≤ ROUND (u * (width : K)) ∧ ROUND (u * (width : K)) ≤ width := by
  have hwK : (1 : K) ≤ (width : K) := by exact_mod_cast hw
  have hx0 : 0 ≤ u * (width : K) := mul_nonneg h0 (by linarith)
  have hx1 : u * (width : K) ≤ (width : K) := by nlinarith
  unfold ROUND cround
  rw [if_pos hx0]
  constructor
  · apply Int.floor_nonneg.mpr
    linarith
  · have : Int.floor (u * (width : K) + 1 / 2) < width + 1 := by
      rw [Int.floor_lt]
      push_cast
      linarith
    omega

theorem cround_one : cround (1 : ℚ) = 1 := by
  have := cround_intCast (K := ℚ) 1
  simpa using this

/-- C15, the code at the failing input: the texture `clampTexture` has
`width = height = 1` and an image of 3 bytes; at `(U, V) = (1, 1)`, which
`CLAMP` leaves in `[0, 1]`, `ColorTexture` addresses the texel `(1, 1)` and
reads the bytes 6, 7 and 8. -/
theorem C15_read_outside_image :
    clampTexture.width = 1 ∧ clampTexture.height = 1 ∧ clampTexture.image.length = 3
    ∧ wrapUV (⟨1, 1⟩ : Vec2f ℚ) clampTexture = Except.ok ⟨1, 1⟩
    ∧ sampleTexels (⟨1, 1⟩ : Vec2f ℚ) clampTexture = [(1, 1)]
    ∧ ColorTextureReads (⟨1, 1⟩ : Vec2f ℚ) clampTexture = [6, 7, 8] := by
  have hw : wrapUV (⟨1, 1⟩ : Vec2f ℚ) clampTexture = Except.ok ⟨1, 1⟩ := by
    simp [wrapUV, clampTexture, MIN]
  refine ⟨rfl, rfl, rfl, hw, ?_, ?_⟩
  · simp [sampleTexels, clampTexture, ROUND, cround_one]
  · unfold ColorTextureReads
    rw [hw]
    simp [sampleReads, clampTexture, ROUND, cround_one, PIXEL]

end SamplerFacts

section FilterFacts

variable {K : Type} [LinearOrderedField K] [FloorRing K]

/-! ## Texture filtering -/

omit [FloorRing K] in
/-- A byte read from an image whose bytes are in `0..255` is in `[0, 255]`. -/
theorem texel_range (texture : Texture) (hb : ∀ b ∈ texture.image, b ≤ 255) (i : Int) :
    (0 : K) ≤ texel (K := K) texture i ∧ texel (K := K) texture i ≤ 255 := by
  have hle : vecAt texture.image i 0 ≤ 255 := by
    unfold vecAt
    split_ifs with h0
    · rcases Nat.lt_or_ge i.toNat texture.image.length with hlt | hge
      · rw [List.getD_eq_getElem _ _ hlt]
        exact hb _ (List.getElem_mem hlt)
      · rw [List.getD_eq_default _ _ hge]
        exact Nat.zero_le _
    · exact Nat.zero_le _
  unfold texel
  constructor
  · exact Nat.cast_nonneg _
  · exact_mod_cast hle

/-- With `NEAREST` interpolation every channel returned is in `[0, 255]`. -/
theorem sampleUV_nearest_range (UV : Vec2f K) (texture : Texture)
    (hb : ∀ b ∈ texture.image, b ≤ 255)
    (hn : texture.interpolation = Interpolation.NEAREST) :
    ∃ c : Vec3f K, sampleUV UV texture = Except.ok c
      ∧ (0 ≤ c.x ∧ c.x ≤ 255) ∧ (0 ≤ c.y ∧ c.y ≤ 255) ∧ (0 ≤ c.z ∧ c.z ≤ 255) := by
  unfold sampleUV
  simp only [hn]
  exact ⟨_, rfl, texel_range texture hb _, texel_range texture hb _, texel_range texture hb _⟩

theorem cround_three_quarters : cround (3 / 4 : ℚ) = 1 := by
  unfold cround
  rw [if_pos (by norm_num), Int.floor_eq_iff]
  constructor <;> norm_num

theorem ctrunc_three_sixteenths : ctrunc (3 / 16 : ℚ) = 0 := by
  unfold ctrunc
  rw [if_pos (by norm_num), Int.floor_eq_iff]
  constructor <;> norm_num

theorem cint_three_sixteenths : cint (3 / 16 : ℚ) = 0 := by
  rw [cint_of_range _ ⟨by norm_num, by norm_num⟩]
  exact ctrunc_three_sixteenths

theorem stripTexture_wrap :
    wrapUV (⟨3 / 16, 0⟩ : Vec2f ℚ) stripTexture = Except.ok ⟨3 / 16, 0⟩ := by
  have ht : cint (0 : ℚ) = 0 := cint_zero
  rw [wrapUV_repeat _ _ rfl]
  simp only [cint_three_sixteenths, ht]
  norm_num

/-- C16, the code at the failing input: the bytes of `stripTexture` are in
`0..255` and at `(U, V) = (3/16, 0)` the four texels addressed, `(1,0)`,
`(2,0)`, `(1,1)`, `(2,1)`, are inside the `4 x 2` image; `px = round(3/4) = 1`
makes the weight `dx = 3/4 - 1 = -1/4` negative, and `ColorTexture` returns
`5/4 * 255 = 318.75` in every channel, above 255. -/
theorem C16_bilinear_above_255 :
    (∀ b ∈ stripTexture.image, b ≤ 255)
    ∧ stripTexture.width = 4 ∧ stripTexture.height = 2
    ∧ sampleTexels (⟨3 / 16, 0⟩ : Vec2f ℚ) stripTexture = [(1, 0), (2, 0), (1, 1), (2, 1)]
    ∧ ColorTexture (⟨3 / 16, 0⟩ : Vec2f ℚ) stripTexture
        = Except.ok ⟨1275 / 4, 1275 / 4, 1275 / 4⟩
    ∧ (255 : ℚ) < 1275 / 4 := by
  have hx : cround ((3 / 16 : ℚ) * 4) = 1 := by
    have h : (3 / 16 : ℚ) * 4 = 3 / 4 := by norm_num
    rw [h, cround_three_quarters]
  have hy : cround ((0 : ℚ) * 2) = 0 := by
    rw [zero_mul]; exact cround_zero
  refine ⟨by decide, rfl, rfl, ?_, ?_, by norm_num⟩
  · simp [sampleTexels, stripTexture, ROUND, hx, cround_zero (K := ℚ)]
  · unfold ColorTexture
    rw [stripTexture_wrap]
    simp only [sampleUV, stripTexture, ROUND, Int.cast_ofNat, hx, hy]
    simp only [PIXEL, texel, vecAt]
    norm_num
    simp
    norm_num

end FilterFacts

section ZeroRadius

variable {K : Type} [LinearOrderedField K]

/-! ## A sphere of radius 0 -/

omit [LinearOrderedField K] in
theorem vec3f_ext (p q : Vec3f K) (hx : p.x = q.x) (hy : p.y = q.y) (hz : p.z = q.z) :
    p = q := by
  cases p; cases q
  simp only at hx hy hz
  rw [hx, hy, hz]

/-- On a sphere of radius 0 the only point is the centre. -/
theorem onSphereAt_zero_radius (ray : Ray K) (sphere : Sphere K) (hr : sphere.radius = 0)
    (t : K) :
    OnSphereAt ray sphere t ↔ ray.start.add (ray.dir.smul t) = sphere.center_vertex := by
  unfold OnSphereAt
  rw [hr, mul_zero]
  constructor
  · intro h
    simp only [Vec3f.dot, Vec3f.sub, Vec3f.add, Vec3f.smul] at h
    have hx := mul_self_nonneg (ray.start.x + ray.dir.x * t - sphere.center_vertex.x)
    have hy := mul_self_nonneg (ray.start.y + ray.dir.y * t - sphere.center_vertex.y)
    have hz := mul_self_nonneg (ray.start.z + ray.dir.z * t - sphere.center_vertex.z)
    have ex : ray.start.x + ray.dir.x * t - sphere.center_vertex.x = 0 :=
      mul_self_eq_zero.mp (by linarith)
    have ey : ray.start.y + ray.dir.y * t - sphere.center_vertex.y = 0 :=
      mul_self_eq_zero.mp (by linarith)
    have ez : ray.start.z + ray.dir.z * t - sphere.center_vertex.z = 0 :=
      mul_self_eq_zero.mp (by linarith)
    apply vec3f_ext
    · simp only [Vec3f.add, Vec3f.smul]; linarith
    · simp only [Vec3f.add, Vec3f.smul]; linarith
    · simp only [Vec3f.add, Vec3f.smul]; linarith
  · intro h
    rw [h]
    simp [Vec3f.dot, Vec3f.sub]

/-- A ray with non-zero direction passes through a point at one parameter at
most. -/
theorem ray_point_unique (ray : Ray K) (hd : ray.dir ≠ ⟨0, 0, 0⟩) (c : Vec3f K) (s t : K)
    (hs : ray.start.add (ray.dir.smul s) = c) (ht : ray.start.add (ray.dir.smul t) = c) :
    s = t := by
  have hA := sphereA_pos ray hd
  have h := hs.trans ht.symm
  simp only [Vec3f.add, Vec3f.smul, Vec3f.mk.injEq] at h
  obtain ⟨hx, hy, hz⟩ := h
  have hx1 : ray.dir.x * (s - t) = 0 := by linarith
  have hy1 : ray.dir.y * (s - t) = 0 := by linarith
  have hz1 : ray.dir.z * (s - t) = 0 := by linarith
  have hsum : sphereA ray * (s - t) = 0 := by
    show (ray.dir.x * ray.dir.x + ray.dir.y * ray.dir.y + ray.dir.z * ray.dir.z) * (s - t) = 0
    linear_combination ray.dir.x * hx1 + ray.dir.y * hy1 + ray.dir.z * hz1
  rcases mul_eq_zero.mp hsum with h0 | h0
  · exact absurd h0 (ne_of_gt hA)
  · exact sub_eq_zero.mp h0

/-- The value of `ray_sphere_intersect` for a sphere of radius 0: it is not negative exactly when
the ray passes through the centre at a parameter `t >= 0`, and the value is
that `t`. -/
theorem ray_sphere_intersect_zero_radius (m : Libm K) (ray : Ray K) (sphere : Sphere K)
    (hr : sphere.radius = 0) (hd : ray.dir ≠ ⟨0, 0, 0⟩)
    (hs : sphereDelta ray sphere ≥ 0 → SqrtAt m (sphereDelta ray sphere)) :
    (∀ t : K, 0 ≤ t → ray.start.add (ray.dir.smul t) = sphere.center_vertex →
      ray_sphere_intersect m ray sphere = t)
    ∧ (¬ ray_sphere_intersect m ray sphere < 0 →
        ray.start.add (ray.dir.smul (ray_sphere_intersect m ray sphere))
          = sphere.center_vertex) := by
  have hA := sphereA_pos ray hd
  by_cases hdel : sphereDelta ray sphere ≥ 0
  · have hsq := hs hdel
    obtain ⟨_, hroot⟩ := sphere_roots m ray sphere hA hsq
    have h1 := (onSphereAt_zero_radius ray sphere hr _).mp
      ((onSphereAt_iff ray sphere _).mpr ((hroot _).mpr (Or.inl rfl)))
    have h2 := (onSphereAt_zero_radius ray sphere hr _).mp
      ((onSphereAt_iff ray sphere _).mpr ((hroot _).mpr (Or.inr rfl)))
    rw [ray_sphere_intersect_of_delta_nonneg m ray sphere hA hdel hsq]
    constructor
    · intro t _ ht
      split_ifs
      · exact ray_point_unique ray hd _ _ _ h1 ht
      · exact ray_point_unique ray hd _ _ _ h2 ht
    · intro _
      split_ifs
      · exact h1
      · exact h2
  · have hv : ray_sphere_intersect m ray sphere = -1 := by
      unfold ray_sphere_intersect
      simp only [if_neg hdel]
    constructor
    · intro t _ ht
      have hon := (onSphereAt_iff ray sphere t).mp
        ((onSphereAt_zero_radius ray sphere hr t).mpr ht)
      exact absurd hon (sphere_no_root_of_delta_neg ray sphere (not_le.mp hdel) t)
    · intro hn
      rw [hv] at hn
      exact absurd (by norm_num : (-1 : K) < 0) hn

/-- The scene intersector on a scene whose only primitive is a sphere of
radius 0. -/
theorem closestHit_zero_radius (m : Libm K) (ray : Ray K) (scene : Scene K)
    (sphere : Sphere K) (h1 : scene.meshes = []) (h2 : scene.triangles = [])
    (h3 : scene.spheres = [sphere]) (hr : sphere.radius = 0) (hd : ray.dir ≠ ⟨0, 0, 0⟩)
    (hs : sphereDelta ray sphere ≥ 0 → SqrtAt m (sphereDelta ray sphere)) :
    (ClosestHit m ray scene).hitOccur = true ↔
      ∃ t : K, 0 ≤ t ∧ t < DBL_MAX
        ∧ ray.start.add (ray.dir.smul t) = sphere.center_vertex := by
  obtain ⟨hval, hpt⟩ := ray_sphere_intersect_zero_radius m ray sphere hr hd hs
  have hstruck : struck m ray scene = sphereCand m ray 0 sphere := by
    simp [struck, h1, h2, h3, indexedCands]
  constructor
  · intro ho
    obtain ⟨hmem, _⟩ := closestHit_min m ray scene ho
    have hlt := ((closestHit_spec m ray scene).2 ho).1
    rw [hstruck] at hmem
    unfold sphereCand at hmem
    split_ifs at hmem with hneg
    · simp at hmem
    · simp only [List.mem_singleton, Prod.mk.injEq] at hmem
      rw [hmem.2] at hlt
      exact ⟨_, not_lt.mp hneg, hlt, hpt hneg⟩
  · rintro ⟨t, ht0, htl, htc⟩
    have hv := hval t ht0 htc
    refine (closestHit_first m ray scene ⟨((HitType.SPHEREHIT, 0), t), ?_, htl⟩).1
    rw [hstruck]
    unfold sphereCand
    rw [hv, if_neg (not_lt.mpr ht0)]
    exact List.mem_singleton.mpr rfl

theorem three_lt_DBL_MAX : (3 : ℚ) < DBL_MAX := by
  unfold DBL_MAX
  have h : (2 : ℚ) ^ 971 * 2 ≤ 2 ^ 1024 := by
    rw [← pow_succ]
    exact pow_le_pow_right₀ (by norm_num) (by norm_num)
  have h1 : (3 : ℚ) ≤ 2 ^ 971 := by
    calc (3 : ℚ) ≤ 2 ^ 2 := by norm_num
      _ ≤ 2 ^ 971 := pow_le_pow_right₀ (by norm_num) (by norm_num)
  linarith

/-- The ray `axisRay`, aimed at the centre of the sphere of radius 0 at the
origin, has discriminant 0 and the double root `t = 3`. -/
theorem pointScene_value : ray_sphere_intersect ratLibm axisRay (sph 0 0 0 0) = 3 := by
  have hdel : sphereDelta axisRay (sph 0 0 0 0) = 0 * 0 := by
    norm_num [sphereDelta, sphereA, sphereB, sphereC, axisRay, sph]
  have hq : ratLibm.sqrt (sphereDelta axisRay (sph 0 0 0 0)) = 0 := by
    rw [hdel]
    show Rat.sqrt (0 * 0) = 0
    rw [Rat.sqrt_eq]; norm_num
  have hA : sphereA axisRay = 1 := by norm_num [sphereA, axisRay]
  have hB : sphereB axisRay (sph 0 0 0 0) = -6 := by norm_num [sphereB, axisRay, sph]
  rw [ray_sphere_intersect_of_delta_nonneg ratLibm axisRay (sph 0 0 0 0) (by rw [hA]; norm_num)
    (by rw [hdel]; norm_num) ⟨by rw [hq], by rw [hq, hdel]⟩]
  rw [hq, hA, hB]
  norm_num

/-- C19, the code at the failing input: `axisRay`, from `(0,0,3)` in direction
`(0,0,-1)`, has a non-zero direction and is aimed at the centre of the sphere
of radius 0 that is the only primitive of `pointScene`; `ray_sphere_intersect`
returns `t = 3` (discriminant 0) and `ClosestHit` reports a hit on the sphere,
at its centre, so that the normal is the normalisation of the zero vector;
the zero-area triangle with its three vertices at the same point is a miss
of `ray_triangle_intersect` for the same ray. -/
theorem C19_zero_radius_sphere_is_hit :
    axisRay.dir ≠ ⟨0, 0, 0⟩ ∧ (sph 0 0 0 0).radius = 0
    ∧ pointScene.meshes = [] ∧ pointScene.triangles = []
    ∧ pointScene.spheres = [sph 0 0 0 0]
    ∧ ray_sphere_intersect ratLibm axisRay (sph 0 0 0 0) = 3
    ∧ (ClosestHit ratLibm axisRay pointScene).hitOccur = true
    ∧ (ClosestHit ratLibm axisRay pointScene).hitType = HitType.SPHEREHIT
    ∧ (ClosestHit ratLibm axisRay pointScene).hitID = 0
    ∧ (ClosestHit ratLibm axisRay pointScene).t = 3
    ∧ (ClosestHit ratLibm axisRay pointScene).intersectPoint = (sph 0 0 0 0).center_vertex
    ∧ ray_triangle_intersect axisRay (Face.unset : Face ℚ) = -1 := by
  have hv := pointScene_value
  have hrec : ClosestHit ratLibm axisRay pointScene
      = { ({ (Hit.unset : Hit ℚ) with hitOccur := false } : Hit ℚ) with
          intersectPoint := axisRay.start.add (axisRay.dir.smul 3)
          normal := ((axisRay.start.add (axisRay.dir.smul 3)).sub
            (sph 0 0 0 0).center_vertex).normalize ratLibm
          materialID := (sph 0 0 0 0).material_id
          hitOccur := true
          t := 3
          hitType := HitType.SPHEREHIT
          hitID := 0 } := by
    simp only [ClosestHit, pointScene, emptyScene, indexedLoop, sphereStep, hv]
    rw [if_pos ⟨by norm_num, three_lt_DBL_MAX⟩]
  refine ⟨by simp [axisRay], rfl, rfl, rfl, rfl, hv, ?_, ?_, ?_, ?_, ?_, ?_⟩
  · rw [hrec]
  · rw [hrec]
  · rw [hrec]
  · rw [hrec]
  · rw [hrec]
    norm_num [axisRay, sph, Vec3f.add, Vec3f.smul]
  · unfold ray_triangle_intersect
    rw [if_pos]
    simp [triDet, Face.unset]

end ZeroRadius

section UnknownEnum

variable {K : Type} [LinearOrderedField K] [FloorRing K]

/-! ## Unknown texture modes -/

/-- `ColorTexture` throws for a repeat mode other than `REPEAT` and `CLAMP`. -/
theorem colorTexture_repeat_unknown (UV : Vec2f K) (texture : Texture) (c : Int)
    (h : texture.repeatmode = RepeatMode.other c) :
    ColorTexture UV texture = Except.error Thrown.double := by
  unfold ColorTexture wrapUV
  rw [h]

/-- `ColorTexture` throws for an interpolation other than `NEAREST` and
`BILINEAR`, when the repeat mode is known. -/
theorem colorTexture_interpolation_unknown (UV : Vec2f K) (texture : Texture) (c : Int)
    (hr : texture.repeatmode = RepeatMode.REPEAT ∨ texture.repeatmode = RepeatMode.CLAMP)
    (h : texture.interpolation = Interpolation.other c) :
    ColorTexture UV texture = Except.error Thrown.bool := by
  unfold ColorTexture wrapUV
  rcases hr with hr | hr
  · rw [hr]
    simp only [sampleUV, h]
  · rw [hr]
    simp only [sampleUV, h]

/-- An exception of `ColorTexture` leaves `Diffuse`, with or without light. -/
theorem diffuse_error (m : Libm K) (ray : Ray K) (hit : Hit K) (scene : Scene K)
    (texture : Texture) (UV : Vec2f K) (e : Thrown)
    (htex : hitTexture m ray hit scene = Except.ok (some (texture, UV)))
    (hs : ColorTexture UV texture = Except.error e) (light : Option (PointLight K)) :
    Diffuse m ray hit light scene = Except.error e := by
  unfold Diffuse
  simp only [htex, hs]

/-- An exception of `ColorTexture` on the texture of the closest hit leaves
`CalculateColor`. -/
theorem calculateColor_error (m : Libm K) (ray : Ray K) (iterationCount : Int)
    (scene : Scene K) (texture : Texture) (UV : Vec2f K) (e : Thrown)
    (h0 : 0 ≤ iterationCount)
    (hhit : (ClosestHit m ray scene).hitOccur = true)
    (htex : hitTexture m ray (ClosestHit m ray scene) scene = Except.ok (some (texture, UV)))
    (hs : ColorTexture UV texture = Except.error e) :
    CalculateColor m ray iterationCount scene = Except.error e := by
  have hd : directColor m ray (ClosestHit m ray scene) scene = Except.error e := by
    unfold directColor
    simp only [diffuse_error m ray _ scene texture UV e htex hs none]
  unfold CalculateColor
  rw [calculateColorLog_error m ray iterationCount scene h0 hhit e hd]

/-- With a colour mode other than `REPLACE_KD`, `BLEND_KD` and `REPLACE_ALL`,
`Diffuse` throws when it is given a light, and returns `(0,0,0)` when it is
not. -/
theorem diffuse_colormode_unknown (m : Libm K) (ray : Ray K) (hit : Hit K) (scene : Scene K)
    (texture : Texture) (UV : Vec2f K) (sampled : Vec3f K) (c : Int)
    (htex : hitTexture m ray hit scene = Except.ok (some (texture, UV)))
    (hs : ColorTexture UV texture = Except.ok sampled)
    (hm : texture.colormode = ColorMode.other c) :
    Diffuse m ray hit none scene = Except.ok ⟨0, 0, 0⟩
    ∧ ∀ light : PointLight K, Diffuse m ray hit (some light) scene = Except.error Thrown.int := by
  constructor
  · unfold Diffuse
    simp [htex, hs, hm]
  · intro light
    unfold Diffuse
    simp [htex, hs, hm]

/-- The loop over the lights when `Diffuse` throws for every light: the
exception leaves the loop at the first light not in shadow; with every light
in shadow the loop ends without exception. -/
theorem lightLoop_throwing (m : Libm K) (ray : Ray K) (hit : Hit K) (scene : Scene K)
    (e : Thrown)
    (hdiff : ∀ light : PointLight K, Diffuse m ray hit (some light) scene = Except.error e)
    (lights : List (PointLight K)) (color : Vec3f K) :
    ((∃ light ∈ lights, isShadow m hit light scene = false) →
      lightLoop m ray hit scene lights color = Except.error e)
    ∧ ((∀ light ∈ lights, isShadow m hit light scene = true) →
      lightLoop m ray hit scene lights color = Except.ok color) := by
  induction lights with
  | nil =>
    refine ⟨?_, fun _ => rfl⟩
    rintro ⟨l, hl, _⟩
    exact absurd hl (List.not_mem_nil l)
  | cons light rest ih =>
    rw [lightLoop]
    unfold lightStep
    cases hsh : isShadow m hit light scene with
    | true =>
      simp only [if_true]
      constructor
      · rintro ⟨l, hl, hls⟩
        rcases List.mem_cons.mp hl with h | h
        · rw [h, hsh] at hls
          exact absurd hls (by simp)
        · exact ih.1 ⟨l, h, hls⟩
      · intro hall
        exact ih.2 (fun l hl => hall l (List.mem_cons_of_mem _ hl))
    | false =>
      simp only [Bool.false_eq_true, if_false, hdiff light]
      constructor
      · intro _; trivial
      · intro hall
        have := hall light (List.mem_cons_self _ _)
        rw [hsh] at this
        exact absurd this (by simp)

/-- What `CalculateColor` does on a hit whose texture has an unknown mode: an
unknown repeat mode or interpolation throws; an unknown colour mode throws
when some point light is not in shadow. -/
theorem calculateColor_unknown_mode (m : Libm K) (ray : Ray K) (iterationCount : Int)
    (scene : Scene K) (texture : Texture) (UV : Vec2f K)
    (h0 : 0 ≤ iterationCount)
    (hhit : (ClosestHit m ray scene).hitOccur = true)
    (htex : hitTexture m ray (ClosestHit m ray scene) scene
      = Except.ok (some (texture, UV))) :
    (∀ c : Int, texture.repeatmode = RepeatMode.other c →
      CalculateColor m ray iterationCount scene = Except.error Thrown.double)
    ∧ (∀ c : Int,
        texture.repeatmode = RepeatMode.REPEAT ∨ texture.repeatmode = RepeatMode.CLAMP →
        texture.interpolation = Interpolation.other c →
        CalculateColor m ray iterationCount scene = Except.error Thrown.bool)
    ∧ (∀ (c : Int) (sampled : Vec3f K), ColorTexture UV texture = Except.ok sampled →
        texture.colormode = ColorMode.other c →
        (∃ light ∈ scene.point_lights,
          isShadow m (ClosestHit m ray scene) light scene = false) →
        CalculateColor m ray iterationCount scene = Except.error Thrown.int) := by
  refine ⟨fun c hc => ?_, fun c hr hc => ?_, fun c sampled hs hc hl => ?_⟩
  · exact calculateColor_error m ray iterationCount scene texture UV _ h0 hhit htex
      (colorTexture_repeat_unknown UV texture c hc)
  · exact calculateColor_error m ray iterationCount scene texture UV _ h0 hhit htex
      (colorTexture_interpolation_unknown UV texture c hr hc)
  · obtain ⟨hd0, hdl⟩ := diffuse_colormode_unknown m ray _ scene texture UV sampled c htex hs hc
    have hd : directColor m ray (ClosestHit m ray scene) scene = Except.error Thrown.int := by
      unfold directColor
      simp only [hd0]
      exact (lightLoop_throwing m ray _ scene _ hdl scene.point_lights _).1 hl
    unfold CalculateColor
    rw [calculateColorLog_error m ray iterationCount scene h0 hhit _ hd]

theorem oddScene_hit :
    ClosestHit ratLibm downRay oddScene
      = { hitOccur := true, materialID := 1, hitType := HitType.TRIANGLEHIT, hitID := 0,
          faceID := 0, replace_all_drawn := false, intersectPoint := ⟨1 / 4, 1 / 4, 0⟩,
          normal := ⟨0, 0, 1⟩, t := 1 } := by
  have hv := downRay_facts.1
  simp only [ClosestHit, oddScene, texScene, emptyScene, indexedLoop, triangleStep, hv]
  rw [if_pos ⟨by norm_num, one_lt_DBL_MAX⟩]
  simp only [Hit.unset, downRay, unitTriangle, Vec3f.add, Vec3f.smul]
  norm_num

theorem oddScene_texture :
    hitTexture ratLibm downRay (ClosestHit ratLibm downRay oddScene) oddScene
      = Except.ok (some (oddTexture, (⟨0, 0⟩ : Vec2f ℚ))) := by
  rw [oddScene_hit]
  simp [hitTexture, vecAt, oddScene, texScene, emptyScene, texScene_uv]

theorem oddTexture_sample :
    ColorTexture (⟨0, 0⟩ : Vec2f ℚ) oddTexture = Except.ok ⟨100, 100, 100⟩ := by
  have h0 : cround (0 : ℚ) = 0 := cround_zero
  have ht : cint (0 : ℚ) = 0 := cint_zero
  simp [ColorTexture, wrapUV, sampleUV, oddTexture, ROUND, PIXEL, texel, vecAt, h0, ht]

theorem clipRGB_10 : clipRGB (⟨10, 10, 10⟩ : Vec3f ℚ) = ⟨10, 10, 10⟩ := by
  have h : cround (10 : ℚ) = 10 := by
    have := cround_intCast (K := ℚ) 10
    simpa using this
  simp only [clipRGB, ctrunc_clip, h]
  rfl

/-- C20, the code at the failing input: in `oddScene` the closest hit of
`downRay` is on a triangle whose texture has a colour mode outside
`REPLACE_KD`, `BLEND_KD`, `REPLACE_ALL`; the scene has no point light; and
`CalculateColor` returns the colour `(10, 10, 10)`, the ambient term, instead
of throwing. -/
theorem C20_unknown_colormode_returns :
    hitTexture ratLibm downRay (ClosestHit ratLibm downRay oddScene) oddScene
      = Except.ok (some (oddTexture, (⟨0, 0⟩ : Vec2f ℚ)))
    ∧ oddTexture.colormode = ColorMode.other 7
    ∧ oddScene.point_lights = []
    ∧ CalculateColor ratLibm downRay 0 oddScene = Except.ok ⟨10, 10, 10⟩ := by
  refine ⟨oddScene_texture, rfl, rfl, ?_⟩
  have hhit : (ClosestHit ratLibm downRay oddScene).hitOccur = true := by
    rw [oddScene_hit]
  have hd0 := (diffuse_colormode_unknown ratLibm downRay _ oddScene oddTexture ⟨0, 0⟩
    ⟨100, 100, 100⟩ 7 oddScene_texture oddTexture_sample rfl).1
  have hmat : hitMaterial (ClosestHit ratLibm downRay oddScene) oddScene = texMaterial := by
    rw [oddScene_hit]
    simp [hitMaterial, vecAt, oddScene, texScene, emptyScene]
  have hd : directColor ratLibm downRay (ClosestHit ratLibm downRay oddScene) oddScene
      = Except.ok ⟨10, 10, 10⟩ := by
    unfold directColor
    simp only [hd0, hmat]
    have hl : oddScene.point_lights = [] := rfl
    rw [hl]
    simp only [lightLoop, texMaterial, oddScene, texScene, Vec3f.add]
    norm_num
  unfold CalculateColor
  rw [calculateColorLog_no_mirror ratLibm downRay 0 oddScene (le_refl _) hhit _ hd
    (by rw [hmat]; simp [hasMirror, texMaterial])]
  exact congrArg Except.ok clipRGB_10

end UnknownEnum

section LoopFacts

/-! ## Loops over index ranges -/

theorem applyStores_nil (image : Image) : applyStores [] image = image := rfl

end LoopFacts

section WorkerFacts

variable {K : Type} [LinearOrderedField K] [FloorRing K]

/-! ## The workers as lists of stores -/

end WorkerFacts

section BandFacts

variable {K : Type} [LinearOrderedField K] [FloorRing K]

/-! ## The bytes a worker stores to -/

end BandFacts

section BandClaim

variable {K : Type} [LinearOrderedField K] [FloorRing K]

end BandClaim

section ShadowFacts

variable {K : Type} [LinearOrderedField K]

/-! ## Shadow rays -/

/-- The function `isShadow` casts the ray `shadowRay`. -/
theorem isShadow_eq (m : Libm K) (hit : Hit K) (light : PointLight K) (scene : Scene K) :
    isShadow m hit light scene
      = if (ClosestHit m (shadowRay hit light scene) scene).hitOccur then
          (if ((ClosestHit m (shadowRay hit light scene) scene).intersectPoint.sub
                hit.intersectPoint).dot
              ((ClosestHit m (shadowRay hit light scene) scene).intersectPoint.sub
                hit.intersectPoint)
              < (light.position.sub hit.intersectPoint).dot
                  (light.position.sub hit.intersectPoint) then true else false)
        else false := rfl

/-- A loop over a whole vector keeps what each iteration keeps, the
iteration `id` being run on element `id` of the vector. -/
theorem indexedLoop_at {α σ : Type} (step : σ → Int → α → σ) (v : List α) (d : α)
    (I : σ → Prop)
    (hstep : ∀ (st : σ) (id : Int), 0 ≤ id → id < (v.length : Int) → I st →
      I (step st id (vecAt v id d))) :
    ∀ (xs pre : List α), v = pre ++ xs → ∀ st : σ, I st →
      I (indexedLoop step xs (pre.length : Int) st) := by
  intro xs
  induction xs with
  | nil => intro pre _ st h; simpa [indexedLoop] using h
  | cons x rest ih =>
    intro pre hv st h
    rw [indexedLoop]
    have hx : vecAt v (pre.length : Int) d = x := by
      unfold vecAt
      rw [if_pos (by omega), Int.toNat_ofNat, hv, List.getD_eq_getElem?_getD,
        List.getElem?_append_right (le_refl _)]
      simp
    have hlen : ((pre.length : Int)) < (v.length : Int) := by
      rw [hv]; simp
    have hs := hstep st (pre.length : Int) (by omega) hlen h
    rw [hx] at hs
    have := ih (pre ++ [x]) (by rw [hv]; simp) _ hs
    simpa using this

theorem vecAt_mem_or_dflt {α : Type} (v : List α) (i : Int) (d : α) :
    vecAt v i d ∈ v ∨ vecAt v i d = d := by
  by_cases h0 : 0 ≤ i
  · by_cases h1 : i < (v.length : Int)
    · exact Or.inl (vecAt_mem v i d h0 h1)
    · right
      unfold vecAt
      rw [if_pos h0]
      exact List.getD_eq_default v d (by omega)
  · right
    unfold vecAt
    rw [if_neg h0]

theorem ray_triangle_intersect_unset (ray : Ray K) :
    ray_triangle_intersect ray (Face.unset : Face K) = -1 := by
  unfold ray_triangle_intersect
  rw [if_pos]
  simp [triDet, Face.unset]

theorem boxLoop_faceOf (ray : Ray K) (mesh : Mesh K) (ids : List Int) :
    ∀ st : Hit K × K, (st.1.hitOccur = true → FaceOf ray mesh st.1) →
      ((ids.foldl (boxStep ray mesh) st).1.hitOccur = true →
        FaceOf ray mesh (ids.foldl (boxStep ray mesh) st).1) := by
  induction ids with
  | nil => intro st h; simpa using h
  | cons i ids ih =>
    intro st h
    rw [List.foldl_cons]
    apply ih
    rw [boxStep_eq]
    split_ifs with h0 h1
    · intro _
      refine ⟨?_, rfl, rfl⟩
      rcases vecAt_mem_or_dflt mesh.faces i (Face.unset : Face K) with hm | hm
      · exact hm
      · rw [hm, ray_triangle_intersect_unset] at h0
        exact absurd h0 (by norm_num)
    · exact h
    · exact h

theorem closestHitInBox_faceOf (ray : Ray K) (box : Box K) (mesh : Mesh K) (h : Hit K)
    (hh : ClosestHitInBox ray box mesh = some h) : FaceOf ray mesh h := by
  cases box with
  | null => simp [ClosestHitInBox] at hh
  | node bmin bmax left right li ri =>
    unfold ClosestHitInBox at hh
    simp only at hh
    split_ifs at hh with ho
    cases hh
    exact boxLoop_faceOf ray mesh (faceRange li ri) _ (fun hf => by simp at hf) ho

/-- Every hit `meshBVH` returns holds the parameter and the normal of the
face of the mesh it names. -/
theorem meshBVH_faceOf (ray : Ray K) (mesh : Mesh K) :
    ∀ (box : Box K) (h : Hit K), meshBVH ray box mesh = some h → FaceOf ray mesh h := by
  intro box
  induction box with
  | null => intro h hh; simp [meshBVH] at hh
  | node bmin bmax left right li ri ihl ihr =>
    intro h hh
    rw [meshBVH] at hh
    split_ifs at hh with hb hleaf
    · exact closestHitInBox_faceOf ray _ mesh h hh
    · unfold closerHit at hh
      cases hl : meshBVH ray left mesh with
      | none =>
        rw [hl] at hh
        exact ihr h hh
      | some a =>
        cases hr : meshBVH ray right mesh with
        | none =>
          rw [hl, hr] at hh
          simp only [Option.some.injEq] at hh
          exact hh ▸ ihl a hl
        | some b =>
          rw [hl, hr] at hh
          simp only at hh
          split_ifs at hh with hab
          · simp only [Option.some.injEq] at hh
            exact hh ▸ ihl a hl
          · simp only [Option.some.injEq] at hh
            exact hh ▸ ihr b hr

theorem meshStep_hitOf (m : Libm K) (ray : Ray K) (scene : Scene K) (st : Hit K × K)
    (id : Int) (hid : vecAt scene.meshes id Mesh.unset ∈ scene.meshes)
    (h : st.1.hitOccur = true → HitOf m ray scene st.1) :
    (meshStep ray st id (vecAt scene.meshes id Mesh.unset)).1.hitOccur = true →
      HitOf m ray scene (meshStep ray st id (vecAt scene.meshes id Mesh.unset)).1 := by
  unfold meshStep
  cases hr : meshBVH ray (vecAt scene.meshes id Mesh.unset).head
      (vecAt scene.meshes id Mesh.unset) with
  | none => exact h
  | some meshHit =>
    simp only
    split_ifs with hlt
    · intro _
      obtain ⟨_, hty, _, _⟩ := meshBVH_hitOK ray _ _ _ hr
      have hf : FaceOf ray (vecAt scene.meshes id Mesh.unset) meshHit :=
        meshBVH_faceOf ray _ _ _ hr
      exact Or.inl ⟨hty, hid, hf⟩
    · exact h

theorem triangleStep_hitOf (m : Libm K) (ray : Ray K) (scene : Scene K) (st : Hit K × K)
    (id : Int) (hid : vecAt scene.triangles id Triangle.unset ∈ scene.triangles)
    (h : st.1.hitOccur = true → HitOf m ray scene st.1) :
    (triangleStep ray st id (vecAt scene.triangles id Triangle.unset)).1.hitOccur = true →
      HitOf m ray scene (triangleStep ray st id (vecAt scene.triangles id Triangle.unset)).1 := by
  unfold triangleStep
  simp only
  split_ifs with h0
  · intro _
    exact Or.inr (Or.inl ⟨rfl, hid, rfl, rfl⟩)
  · exact h

theorem sphereStep_hitOf (m : Libm K) (ray : Ray K) (scene : Scene K) (st : Hit K × K)
    (id : Int) (hid : vecAt scene.spheres id Sphere.unset ∈ scene.spheres)
    (h : st.1.hitOccur = true → HitOf m ray scene st.1) :
    (sphereStep m ray st id (vecAt scene.spheres id Sphere.unset)).1.hitOccur = true →
      HitOf m ray scene (sphereStep m ray st id (vecAt scene.spheres id Sphere.unset)).1 := by
  unfold sphereStep
  simp only
  split_ifs with h0
  · intro _
    exact Or.inr (Or.inr ⟨rfl, hid, rfl, rfl⟩)
  · exact h

/-- Every hit of `ClosestHit` was produced by the primitive it names. -/
theorem closestHit_hitOf (m : Libm K) (ray : Ray K) (scene : Scene K)
    (ho : (ClosestHit m ray scene).hitOccur = true) :
    HitOf m ray scene (ClosestHit m ray scene) := by
  have h1 := indexedLoop_at (meshStep ray) scene.meshes Mesh.unset
    (fun st : Hit K × K => st.1.hitOccur = true → HitOf m ray scene st.1)
    (fun st id h0 h1 h => meshStep_hitOf m ray scene st id (vecAt_mem _ _ _ h0 h1) h)
    scene.meshes [] rfl ({ (Hit.unset : Hit K) with hitOccur := false }, DBL_MAX)
    (fun hf => by simp at hf)
  have h2 := indexedLoop_at (triangleStep ray) scene.triangles Triangle.unset
    (fun st : Hit K × K => st.1.hitOccur = true → HitOf m ray scene st.1)
    (fun st id h0 h1 h => triangleStep_hitOf m ray scene st id (vecAt_mem _ _ _ h0 h1) h)
    scene.triangles [] rfl _ h1
  have h3 := indexedLoop_at (sphereStep m ray) scene.spheres Sphere.unset
    (fun st : Hit K × K => st.1.hitOccur = true → HitOf m ray scene st.1)
    (fun st id h0 h1 h => sphereStep_hitOf m ray scene st id (vecAt_mem _ _ _ h0 h1) h)
    scene.spheres [] rfl _ h2
  exact h3 ho

end ShadowFacts

section ShadowGeometry

variable {K : Type} [LinearOrderedField K]

theorem dot_self_pos (n : Vec3f K) (hn : n ≠ ⟨0, 0, 0⟩) : 0 < n.dot n :=
  sphereA_pos ⟨n, n⟩ hn

/-- A ray that starts at `p + N*eps`, off a point `p` of the plane of a face
on the side of its normal `N`, and points to a light on that side or in the
plane, misses the face. -/
theorem shadow_misses_plane (f : Face K) (p L : Vec3f K) (eps : K)
    (hflat : FlatNormal f) (hp : f.normal.dot (p.sub f.v0.coordinates) = 0) (heps : 0 < eps)
    (hside : 0 ≤ f.normal.dot (L.sub p)) :
    ray_triangle_intersect ⟨p.add (f.normal.smul eps), L.sub p⟩ f = -1 := by
  by_contra hne
  obtain ⟨hdet, _, _, _, ht, _⟩ := ray_triangle_intersect_hit _ f hne
  have hon2 := onTriangleAt_cramer _ f hdet
  obtain ⟨h1, h2, hnz⟩ := hflat
  have hNN := dot_self_pos f.normal hnz
  rw [onTriangleAt_iff] at hon2
  obtain ⟨fx, fy, fz⟩ := hon2
  generalize triBeta _ f = b2 at fx fy fz
  generalize triGamma _ f = g2 at fx fy fz
  generalize triT _ f = t2 at fx fy fz ht
  simp only [Vec3f.dot, Vec3f.sub, Vec3f.add, Vec3f.smul] at h1 h2 hNN hside fx fy fz hp
  have key : eps * (f.normal.x * f.normal.x + f.normal.y * f.normal.y + f.normal.z * f.normal.z)
      + t2 * (f.normal.x * (L.x - p.x) + f.normal.y * (L.y - p.y)
          + f.normal.z * (L.z - p.z)) = 0 := by
    linear_combination f.normal.x * fx + f.normal.y * fy + f.normal.z * fz
      - hp + b2 * h1 + g2 * h2
  have hp1 := mul_pos heps hNN
  have hp2 := mul_nonneg ht.le hside
  linarith

/-- A point of a face, given by barycentric coordinates, is in the plane
through `v0` perpendicular to a normal that is perpendicular to the two edges
from `v0`. -/
theorem onTriangleAt_in_plane (ray : Ray K) (f : Face K) (beta gamma t : K)
    (hflat : FlatNormal f) (hon : OnTriangleAt ray f beta gamma t) :
    f.normal.dot ((ray.start.add (ray.dir.smul t)).sub f.v0.coordinates) = 0 := by
  obtain ⟨h1, h2, _⟩ := hflat
  rw [onTriangleAt_iff] at hon
  obtain ⟨ex, ey, ez⟩ := hon
  simp only [Vec3f.dot, Vec3f.sub, Vec3f.add, Vec3f.smul] at h1 h2 ⊢
  linear_combination f.normal.x * ex + f.normal.y * ey + f.normal.z * ez
    + beta * h1 + gamma * h2

theorem shadow_misses_sphere_aux (m : Libm K) (s : Sphere K) (p L N : Vec3f K) (eps n : K)
    (hNx : N.x * n = p.x - s.center_vertex.x) (hNy : N.y * n = p.y - s.center_vertex.y)
    (hNz : N.z * n = p.z - s.center_vertex.z) (hnpos : 0 < n)
    (hnn : n * n = (p.sub s.center_vertex).dot (p.sub s.center_vertex))
    (hpp : n * n = s.radius * s.radius) (heps : 0 < eps) (hL : L ≠ p)
    (hside : 0 ≤ N.dot (L.sub p))
    (hs : SqrtExact m (sphereDelta ⟨p.add (N.smul eps), L.sub p⟩ s)) :
    ray_sphere_intersect m ⟨p.add (N.smul eps), L.sub p⟩ s < 0 := by
  have hnne : n ≠ 0 := ne_of_gt hnpos
  have hdir : (L.sub p) ≠ ⟨0, 0, 0⟩ := by
    intro h
    apply hL
    simp only [Vec3f.sub, Vec3f.mk.injEq] at h
    exact vec3f_ext _ _ (sub_eq_zero.mp h.1) (sub_eq_zero.mp h.2.1) (sub_eq_zero.mp h.2.2)
  generalize hsray : (⟨p.add (N.smul eps), L.sub p⟩ : Ray K) = sray at hs ⊢
  have hdir2 : sray.dir ≠ ⟨0, 0, 0⟩ := by rw [← hsray]; exact hdir
  have hA : 0 < sphereA sray := sphereA_pos sray hdir2
  have hNN : N.x * N.x + N.y * N.y + N.z * N.z = 1 := by
    have h1 : (N.x * N.x + N.y * N.y + N.z * N.z) * (n * n) = 1 * (n * n) := by
      have := hnn
      simp only [Vec3f.dot, Vec3f.sub] at this
      linear_combination (N.x * n + (p.x - s.center_vertex.x)) * hNx
        + (N.y * n + (p.y - s.center_vertex.y)) * hNy
        + (N.z * n + (p.z - s.center_vertex.z)) * hNz - this
    exact mul_right_cancel₀ (mul_ne_zero hnne hnne) h1
  simp only [Vec3f.dot, Vec3f.sub] at hside
  have hC : sphereC sray s = 2 * n * eps + eps * eps := by
    rw [← hsray]
    simp only [sphereC, Vec3f.add, Vec3f.smul]
    linear_combination (-(2 * N.x * eps + N.x * n + (p.x - s.center_vertex.x))) * hNx
      + (-(2 * N.y * eps + N.y * n + (p.y - s.center_vertex.y))) * hNy
      + (-(2 * N.z * eps + N.z * n + (p.z - s.center_vertex.z))) * hNz
      + ((n + eps) * (n + eps)) * hNN + hpp
  have hB : sphereB sray s
      = 2 * (n + eps) * (N.x * (L.x - p.x) + N.y * (L.y - p.y) + N.z * (L.z - p.z)) := by
    rw [← hsray]
    simp only [sphereB, Vec3f.add, Vec3f.smul, Vec3f.sub]
    linear_combination (-(2 * (L.x - p.x))) * hNx + (-(2 * (L.y - p.y))) * hNy
      + (-(2 * (L.z - p.z))) * hNz
  have hCpos : 0 < sphereC sray s := by
    rw [hC]
    have := mul_pos hnpos heps
    have := mul_pos heps heps
    linarith
  have hBnn : 0 ≤ sphereB sray s := by
    rw [hB]
    exact mul_nonneg (by linarith) hside
  have hnoroot : ∀ t : K, 0 ≤ t →
      sphereA sray * t * t + sphereB sray s * t + sphereC sray s ≠ 0 := by
    intro t ht h0
    have h1 : 0 ≤ sphereA sray * t * t := by
      rw [mul_assoc]; exact mul_nonneg hA.le (mul_self_nonneg t)
    have h2 := mul_nonneg hBnn ht
    linarith
  by_cases hdel : sphereDelta sray s ≥ 0
  · have hsq := hs hdel
    obtain ⟨_, hroots⟩ := sphere_roots m sray s hA hsq
    rw [ray_sphere_intersect_of_delta_nonneg m sray s hA hdel hsq]
    have hr1 := (hroots _).mpr (Or.inl rfl)
    have hr2 := (hroots _).mpr (Or.inr rfl)
    have hneg1 : (-sphereB sray s - m.sqrt (sphereDelta sray s)) / (2 * sphereA sray) < 0 := by
      by_contra hc
      exact hnoroot _ (not_lt.mp hc) hr1
    have hneg2 : (-sphereB sray s + m.sqrt (sphereDelta sray s)) / (2 * sphereA sray) < 0 := by
      by_contra hc
      exact hnoroot _ (not_lt.mp hc) hr2
    rw [if_neg (not_lt.mpr hneg1.le)]
    exact hneg2
  · unfold ray_sphere_intersect
    simp only [if_neg hdel]
    norm_num

/-- A ray that starts at distance `eps` outside a point `p` of a sphere, along
the normal at `p`, and points to a light on the side of that normal, misses
the sphere. -/
theorem shadow_misses_sphere (m : Libm K) (s : Sphere K) (p L : Vec3f K) (eps : K)
    (hp : (p.sub s.center_vertex).dot (p.sub s.center_vertex) = s.radius * s.radius)
    (hr : s.radius ≠ 0) (heps : 0 < eps) (hL : L ≠ p)
    (hq : SqrtAt m ((p.sub s.center_vertex).dot (p.sub s.center_vertex)))
    (hside : 0 ≤ ((p.sub s.center_vertex).normalize m).dot (L.sub p))
    (hs : SqrtExact m (sphereDelta
      ⟨p.add (((p.sub s.center_vertex).normalize m).smul eps), L.sub p⟩ s)) :
    ray_sphere_intersect m
      ⟨p.add (((p.sub s.center_vertex).normalize m).smul eps), L.sub p⟩ s < 0 := by
  obtain ⟨hn0, hnn⟩ := hq
  have hrr : 0 < s.radius * s.radius := mul_self_pos.mpr hr
  have hnpos : 0 < m.sqrt ((p.sub s.center_vertex).dot (p.sub s.center_vertex)) := by
    rcases hn0.lt_or_eq with h | h
    · exact h
    · rw [← h, mul_zero] at hnn
      rw [← hnn] at hp
      rw [← hp] at hrr
      exact absurd hrr (lt_irrefl _)
  have hnne := ne_of_gt hnpos
  refine shadow_misses_sphere_aux m s p L _ eps
    (m.sqrt ((p.sub s.center_vertex).dot (p.sub s.center_vertex)))
    ?_ ?_ ?_ hnpos hnn (by rw [hnn, hp]) heps hL hside hs
  · show (p.sub s.center_vertex).x / m.sqrt ((p.sub s.center_vertex).dot (p.sub s.center_vertex))
      * m.sqrt ((p.sub s.center_vertex).dot (p.sub s.center_vertex)) = _
    rw [div_mul_cancel₀ _ hnne]; rfl
  · show (p.sub s.center_vertex).y / m.sqrt ((p.sub s.center_vertex).dot (p.sub s.center_vertex))
      * m.sqrt ((p.sub s.center_vertex).dot (p.sub s.center_vertex)) = _
    rw [div_mul_cancel₀ _ hnne]; rfl
  · show (p.sub s.center_vertex).z / m.sqrt ((p.sub s.center_vertex).dot (p.sub s.center_vertex))
      * m.sqrt ((p.sub s.center_vertex).dot (p.sub s.center_vertex)) = _
    rw [div_mul_cancel₀ _ hnne]; rfl

/-- A sphere struck with a parameter `>= 0` is met at that parameter. -/
theorem ray_sphere_intersect_on (m : Libm K) (ray : Ray K) (s : Sphere K)
    (hd : ray.dir ≠ ⟨0, 0, 0⟩) (hs : SqrtExact m (sphereDelta ray s))
    (h0 : 0 ≤ ray_sphere_intersect m ray s) :
    OnSphereAt ray s (ray_sphere_intersect m ray s) := by
  have hA := sphereA_pos ray hd
  by_cases hdel : sphereDelta ray s ≥ 0
  · have hsq := hs hdel
    obtain ⟨_, hroots⟩ := sphere_roots m ray s hA hsq
    rw [onSphereAt_iff, hroots, ray_sphere_intersect_of_delta_nonneg m ray s hA hdel hsq]
    split_ifs
    · exact Or.inl rfl
    · exact Or.inr rfl
  · unfold ray_sphere_intersect at h0
    simp only [if_neg hdel] at h0
    exact absurd h0 (by norm_num)

end ShadowGeometry

section SelfShadow

variable {K : Type} [LinearOrderedField K]

/-- The shadow ray cast from a hit on a face misses that face when the light
is on the side of the normal or in the plane. -/
theorem shadowRay_misses_face (ray : Ray K) (f : Face K) (hit : Hit K)
    (light : PointLight K) (scene : Scene K) (hflat : FlatNormal f)
    (heps : 0 < scene.shadow_ray_epsilon)
    (ht : hit.t = ray_triangle_intersect ray f) (h0 : 0 ≤ hit.t)
    (hn : hit.normal = f.normal)
    (hpt : hit.intersectPoint = ray.start.add (ray.dir.smul hit.t))
    (hside : 0 ≤ hit.normal.dot (light.position.sub hit.intersectPoint)) :
    ray_triangle_intersect (shadowRay hit light scene) f = -1 := by
  have hne : ray_triangle_intersect ray f ≠ -1 :=
    (ray_triangle_intersect_ne_miss_iff ray f).mpr (ht ▸ h0)
  obtain ⟨hdet, _, _, _, _, hv⟩ := ray_triangle_intersect_hit ray f hne
  have hon := onTriangleAt_cramer ray f hdet
  rw [← hv, ← ht] at hon
  have hp := onTriangleAt_in_plane ray f _ _ _ hflat hon
  rw [← hpt] at hp
  unfold shadowRay
  rw [hn] at hside ⊢
  exact shadow_misses_plane f hit.intersectPoint light.position scene.shadow_ray_epsilon
    hflat hp heps hside

/-- The shadow ray cast from a hit on a sphere misses that sphere when the
light is on the side of the normal. -/
theorem shadowRay_misses_sphere (m : Libm K) (ray : Ray K) (s : Sphere K) (hit : Hit K)
    (light : PointLight K) (scene : Scene K) (heps : 0 < scene.shadow_ray_epsilon)
    (hd : ray.dir ≠ ⟨0, 0, 0⟩) (hL : light.position ≠ hit.intersectPoint)
    (hr : s.radius ≠ 0) (hs1 : SqrtExact m (sphereDelta ray s))
    (hs2 : SqrtExact m ((hit.intersectPoint.sub s.center_vertex).dot
      (hit.intersectPoint.sub s.center_vertex)))
    (hs3 : SqrtExact m (sphereDelta (shadowRay hit light scene) s))
    (ht : hit.t = ray_sphere_intersect m ray s) (h0 : 0 ≤ hit.t)
    (hn : hit.normal = (hit.intersectPoint.sub s.center_vertex).normalize m)
    (hpt : hit.intersectPoint = ray.start.add (ray.dir.smul hit.t))
    (hside : 0 ≤ hit.normal.dot (light.position.sub hit.intersectPoint)) :
    ray_sphere_intersect m (shadowRay hit light scene) s < 0 := by
  have hon := ray_sphere_intersect_on m ray s hd hs1 (ht ▸ h0)
  rw [← ht] at hon
  unfold OnSphereAt at hon
  rw [← hpt] at hon
  have hq : SqrtAt m ((hit.intersectPoint.sub s.center_vertex).dot
      (hit.intersectPoint.sub s.center_vertex)) := by
    apply hs2
    rw [hon]
    exact mul_self_nonneg _
  unfold shadowRay at hs3 ⊢
  rw [hn] at hside hs3 ⊢
  exact shadow_misses_sphere m s hit.intersectPoint light.position scene.shadow_ray_epsilon
    hon hr heps hL hq hside hs3

/-- A record produced from the shadow ray of a record `hit` does not name the
primitive `hit` names, when the light is on the side of the normal of `hit`. -/
theorem shadow_not_same_primitive (m : Libm K) (ray : Ray K) (scene : Scene K)
    (light : PointLight K) (hit hitsh : Hit K)
    (heps : 0 < scene.shadow_ray_epsilon) (hd : ray.dir ≠ ⟨0, 0, 0⟩)
    (h1 : HitOf m ray scene hit) (h0 : 0 ≤ hit.t)
    (hpt : hit.intersectPoint = ray.start.add (ray.dir.smul hit.t))
    (h2 : HitOf m (shadowRay hit light scene) scene hitsh) (h20 : 0 ≤ hitsh.t)
    (hL : light.position ≠ hit.intersectPoint)
    (hside : 0 ≤ hit.normal.dot (light.position.sub hit.intersectPoint))
    (hflatT : ∀ tr ∈ scene.triangles, FlatNormal tr.indices)
    (hflatM : ∀ mesh ∈ scene.meshes, ∀ f ∈ mesh.faces, FlatNormal f)
    (hsph : ∀ s ∈ scene.spheres, s.radius ≠ 0 ∧ SqrtExact m (sphereDelta ray s)
      ∧ SqrtExact m ((hit.intersectPoint.sub s.center_vertex).dot
          (hit.intersectPoint.sub s.center_vertex))
      ∧ SqrtExact m (sphereDelta (shadowRay hit light scene) s)) :
    ¬ SamePrimitive hitsh hit := by
  rintro ⟨hty, hid, hfid⟩
  rcases h1 with ⟨ht1, hm1, hf1, ht, hn⟩ | ⟨ht1, hm1, ht, hn⟩ | ⟨ht1, hm1, ht, hn⟩
  · rcases h2 with ⟨ht2, _, _, hts, _⟩ | ⟨ht2, _⟩ | ⟨ht2, _⟩
    · rw [hid, hfid] at hts
      have hmiss := shadowRay_misses_face ray _ hit light scene (hflatM _ hm1 _ hf1) heps
        ht h0 hn hpt hside
      rw [hmiss] at hts
      rw [hts] at h20
      exact absurd h20 (by norm_num)
    · rw [ht2, ht1] at hty; cases hty
    · rw [ht2, ht1] at hty; cases hty
  · rcases h2 with ⟨ht2, _⟩ | ⟨ht2, _, hts, _⟩ | ⟨ht2, _⟩
    · rw [ht2, ht1] at hty; cases hty
    · rw [hid] at hts
      have hmiss := shadowRay_misses_face ray _ hit light scene (hflatT _ hm1) heps
        ht h0 hn hpt hside
      rw [hmiss] at hts
      rw [hts] at h20
      exact absurd h20 (by norm_num)
    · rw [ht2, ht1] at hty; cases hty
  · rcases h2 with ⟨ht2, _⟩ | ⟨ht2, _⟩ | ⟨ht2, _, hts, _⟩
    · rw [ht2, ht1] at hty; cases hty
    · rw [ht2, ht1] at hty; cases hty
    · rw [hid] at hts
      obtain ⟨hr, hs1, hs2, hs3⟩ := hsph _ hm1
      have hmiss := shadowRay_misses_sphere m ray _ hit light scene heps hd hL hr hs1 hs2 hs3
        ht h0 hn hpt hside
      rw [← hts] at hmiss
      exact absurd h20 (not_le.mpr hmiss)

/-- C13 (amended): for a scene with `shadow_ray_epsilon > 0` in which every
face normal (free triangles and mesh faces) is a non-zero vector
perpendicular to its face and every sphere has a non-zero radius, a ray with
non-zero direction, a hit returned by `ClosestHit` and a light that is not at
the hit point and lies on the side of the hit normal or in its plane
(`N . (L - p) >= 0`), with `sqrt` a square root at the values used for the
spheres: the closest hit of the shadow ray that `isShadow` casts from
`hit.point + hit.normal*epsilon` toward the light is never the primitive
(same `hitType`, `hitID` and `faceID`) that produced the original hit. -/
theorem C13_no_self_shadow_on_lit_side (m : Libm K) (ray : Ray K) (scene : Scene K)
    (light : PointLight K)
    (heps : 0 < scene.shadow_ray_epsilon)
    (ho : (ClosestHit m ray scene).hitOccur = true)
    (hd : ray.dir ≠ ⟨0, 0, 0⟩)
    (hL : light.position ≠ (ClosestHit m ray scene).intersectPoint)
    (hside : 0 ≤ (ClosestHit m ray scene).normal.dot
      (light.position.sub (ClosestHit m ray scene).intersectPoint))
    (hflatT : ∀ tr ∈ scene.triangles, FlatNormal tr.indices)
    (hflatM : ∀ mesh ∈ scene.meshes, ∀ f ∈ mesh.faces, FlatNormal f)
    (hsph : ∀ s ∈ scene.spheres, s.radius ≠ 0 ∧ SqrtExact m (sphereDelta ray s)
      ∧ SqrtExact m (((ClosestHit m ray scene).intersectPoint.sub s.center_vertex).dot
          ((ClosestHit m ray scene).intersectPoint.sub s.center_vertex))
      ∧ SqrtExact m (sphereDelta (shadowRay (ClosestHit m ray scene) light scene) s)) :
    ¬ ((ClosestHit m (shadowRay (ClosestHit m ray scene) light scene) scene).hitOccur = true
        ∧ SamePrimitive
            (ClosestHit m (shadowRay (ClosestHit m ray scene) light scene) scene)
            (ClosestHit m ray scene)) := by
  rintro ⟨hosh, hsame⟩
  exact shadow_not_same_primitive m ray scene light _ _ heps hd
    (closestHit_hitOf m ray scene ho) (closestHit_t_nonneg m ray scene ho).1
    ((closestHit_spec m ray scene).2 ho).2.1
    (closestHit_hitOf m _ scene hosh) (closestHit_t_nonneg m _ scene hosh).1
    hL hside hflatT hflatM hsph hsame

end SelfShadow

section SelfShadowConcrete

theorem rat_sqrt_mul_self (q : ℚ) (hq : 0 ≤ q) : Rat.sqrt (q * q) = q := by
  rw [Rat.sqrt_eq, abs_of_nonneg hq]

theorem unitSphere_hit (scene : Scene ℚ) (h1 : scene.meshes = []) (h2 : scene.triangles = [])
    (h3 : scene.spheres = [sph 0 0 0 1]) :
    ClosestHit ratLibm axisRay scene
      = { hitOccur := true, materialID := 1, hitType := HitType.SPHEREHIT, hitID := 0,
          faceID := 0, replace_all_drawn := false, intersectPoint := ⟨0, 0, 1⟩,
          normal := ⟨0, 0, 1⟩, t := 2 } := by
  have hv := axisRay_value
  simp only [ClosestHit, h1, h2, h3, indexedLoop, sphereStep, hv]
  rw [if_pos ⟨by norm_num, two_lt_DBL_MAX⟩]
  simp only [Hit.unset, axisRay, sph, Vec3f.add, Vec3f.smul, Vec3f.sub, Vec3f.normalize,
    Vec3f.dot, ratLibm]
  norm_num [rat_sqrt_one]

/-- The shadow ray from the top of the unit sphere to the light below it
meets the sphere again at `t = 1/6000`. -/
theorem darkShadow_value :
    ray_sphere_intersect ratLibm ⟨⟨0, 0, 1001 / 1000⟩, ⟨0, 0, -6⟩⟩ (sph 0 0 0 1)
      = 1 / 6000 := by
  have hdel : sphereDelta (⟨⟨0, 0, 1001 / 1000⟩, ⟨0, 0, -6⟩⟩ : Ray ℚ) (sph 0 0 0 1)
      = 12 * 12 := by
    norm_num [sphereDelta, sphereA, sphereB, sphereC, sph]
  have hq : ratLibm.sqrt (sphereDelta (⟨⟨0, 0, 1001 / 1000⟩, ⟨0, 0, -6⟩⟩ : Ray ℚ)
      (sph 0 0 0 1)) = 12 := by
    rw [hdel]
    exact rat_sqrt_mul_self 12 (by norm_num)
  have hA : sphereA (⟨⟨0, 0, 1001 / 1000⟩, ⟨0, 0, -6⟩⟩ : Ray ℚ) = 36 := by
    norm_num [sphereA]
  have hB : sphereB (⟨⟨0, 0, 1001 / 1000⟩, ⟨0, 0, -6⟩⟩ : Ray ℚ) (sph 0 0 0 1)
      = -(12012 / 1000) := by
    norm_num [sphereB, sph]
  rw [ray_sphere_intersect_of_delta_nonneg ratLibm _ (sph 0 0 0 1)
    (by rw [hA]; norm_num) (by rw [hdel]; norm_num) ⟨by rw [hq]; norm_num, by rw [hq, hdel]⟩]
  rw [hq, hA, hB]
  norm_num

theorem darkSideScene_shadowRay :
    shadowRay (ClosestHit ratLibm axisRay darkSideScene) backLight darkSideScene
      = ⟨⟨0, 0, 1001 / 1000⟩, ⟨0, 0, -6⟩⟩ := by
  rw [unitSphere_hit darkSideScene rfl rfl rfl]
  simp only [shadowRay, darkSideScene, sphereScene, emptyScene, backLight, Vec3f.add,
    Vec3f.smul, Vec3f.sub]
  norm_num

theorem darkSideScene_shadow_hit :
    ClosestHit ratLibm ⟨⟨0, 0, 1001 / 1000⟩, ⟨0, 0, -6⟩⟩ darkSideScene
      = { hitOccur := true, materialID := 1, hitType := HitType.SPHEREHIT, hitID := 0,
          faceID := 0, replace_all_drawn := false, intersectPoint := ⟨0, 0, 1⟩,
          normal := ⟨0, 0, 1⟩, t := 1 / 6000 } := by
  have hv := darkShadow_value
  have hlt : (1 / 6000 : ℚ) < DBL_MAX := lt_trans (by norm_num) one_lt_DBL_MAX
  simp only [ClosestHit, darkSideScene, sphereScene, emptyScene, indexedLoop, sphereStep, hv]
  rw [if_pos ⟨by norm_num, hlt⟩]
  simp only [Hit.unset, sph, Vec3f.add, Vec3f.smul, Vec3f.sub, Vec3f.normalize,
    Vec3f.dot, ratLibm]
  norm_num [rat_sqrt_one]

/-- Counterexample to C13 as stated: in the scene of the unit sphere with
`shadow_ray_epsilon = 1/1000` and a light at `(0, 0, -5)`, the ray from
`(0, 0, 3)` towards `-z` hits the sphere at `(0, 0, 1)`; the shadow ray cast
from there toward the light has as closest hit the same sphere (same
`hitType`, `hitID` and `faceID`), and `isShadow` returns `true`. -/
theorem C13_counterexample :
    0 < darkSideScene.shadow_ray_epsilon
    ∧ backLight ∈ darkSideScene.point_lights
    ∧ (ClosestHit ratLibm axisRay darkSideScene).hitOccur = true
    ∧ (ClosestHit ratLibm
        (shadowRay (ClosestHit ratLibm axisRay darkSideScene) backLight darkSideScene)
        darkSideScene).hitOccur = true
    ∧ SamePrimitive
        (ClosestHit ratLibm
          (shadowRay (ClosestHit ratLibm axisRay darkSideScene) backLight darkSideScene)
          darkSideScene)
        (ClosestHit ratLibm axisRay darkSideScene)
    ∧ isShadow ratLibm (ClosestHit ratLibm axisRay darkSideScene) backLight darkSideScene
        = true := by
  have h1 := unitSphere_hit darkSideScene rfl rfl rfl
  have h2 := darkSideScene_shadowRay
  have h3 := darkSideScene_shadow_hit
  refine ⟨by norm_num [darkSideScene, sphereScene, emptyScene],
    by simp [darkSideScene], by rw [h1], by rw [h2, h3], ?_, ?_⟩
  · rw [h2, h3, h1]
    exact ⟨rfl, rfl, rfl⟩
  · rw [isShadow_eq, h2, h3, h1]
    norm_num [backLight, Vec3f.sub, Vec3f.dot]

theorem litSideScene_shadowRay :
    shadowRay (ClosestHit ratLibm axisRay litSideScene) frontLight litSideScene
      = ⟨⟨0, 0, 1001 / 1000⟩, ⟨0, 0, 5⟩⟩ := by
  rw [unitSphere_hit litSideScene rfl rfl rfl]
  simp only [shadowRay, litSideScene, sphereScene, emptyScene, frontLight, Vec3f.add,
    Vec3f.smul, Vec3f.sub]
  norm_num

theorem litSideScene_sqrt : ∀ s ∈ litSideScene.spheres,
    s.radius ≠ 0 ∧ SqrtExact ratLibm (sphereDelta axisRay s)
      ∧ SqrtExact ratLibm
          (((ClosestHit ratLibm axisRay litSideScene).intersectPoint.sub s.center_vertex).dot
            ((ClosestHit ratLibm axisRay litSideScene).intersectPoint.sub s.center_vertex))
      ∧ SqrtExact ratLibm (sphereDelta
          (shadowRay (ClosestHit ratLibm axisRay litSideScene) frontLight litSideScene) s) := by
  intro s hs
  have hs1 : s = sph 0 0 0 1 := by
    simpa [litSideScene, sphereScene] using hs
  subst hs1
  rw [litSideScene_shadowRay, unitSphere_hit litSideScene rfl rfl rfl]
  have e1 : sphereDelta axisRay (sph 0 0 0 1) = 2 * 2 := by
    norm_num [sphereDelta, sphereA, sphereB, sphereC, axisRay, sph]
  have e2 : ((⟨0, 0, 1⟩ : Vec3f ℚ).sub (sph 0 0 0 1).center_vertex).dot
      ((⟨0, 0, 1⟩ : Vec3f ℚ).sub (sph 0 0 0 1).center_vertex) = 1 * 1 := by
    norm_num [Vec3f.sub, Vec3f.dot, sph]
  have e3 : sphereDelta (⟨⟨0, 0, 1001 / 1000⟩, ⟨0, 0, 5⟩⟩ : Ray ℚ) (sph 0 0 0 1)
      = 10 * 10 := by
    norm_num [sphereDelta, sphereA, sphereB, sphereC, sph]
  have hsq : ∀ q : ℚ, 0 ≤ q → SqrtExact ratLibm (q * q) := by
    intro q hq _
    show 0 ≤ Rat.sqrt (q * q) ∧ Rat.sqrt (q * q) * Rat.sqrt (q * q) = q * q
    rw [rat_sqrt_mul_self q hq]
    exact ⟨hq, rfl⟩
  refine ⟨by norm_num [sph], ?_, ?_, ?_⟩
  · rw [e1]; exact hsq 2 (by norm_num)
  · simp only [e2]; exact hsq 1 (by norm_num)
  · rw [e3]; exact hsq 10 (by norm_num)

/-- Witness of C13 (amended): the unit sphere lit from `(0, 0, 6)`, seen along
the ray from `(0, 0, 3)` towards `-z`. -/
theorem C13_no_self_shadow_on_lit_side_witness :
    ¬ ((ClosestHit ratLibm
          (shadowRay (ClosestHit ratLibm axisRay litSideScene) frontLight litSideScene)
          litSideScene).hitOccur = true
        ∧ SamePrimitive
            (ClosestHit ratLibm
              (shadowRay (ClosestHit ratLibm axisRay litSideScene) frontLight litSideScene)
              litSideScene)
            (ClosestHit ratLibm axisRay litSideScene)) :=
  C13_no_self_shadow_on_lit_side ratLibm axisRay litSideScene frontLight
    (by norm_num [litSideScene, sphereScene, emptyScene])
    (by rw [unitSphere_hit litSideScene rfl rfl rfl])
    (by simp [axisRay])
    (by rw [unitSphere_hit litSideScene rfl rfl rfl]; simp [frontLight])
    (by rw [unitSphere_hit litSideScene rfl rfl rfl]
        norm_num [frontLight, Vec3f.sub, Vec3f.dot])
    (by simp [litSideScene, sphereScene, emptyScene])
    (by simp [litSideScene, sphereScene, emptyScene])
    litSideScene_sqrt

end SelfShadowConcrete

section ScalePrimitives

variable {K : Type} [LinearOrderedField K]

/-! ## Scaling the direction of a ray -/

theorem triDet_scale (ray : Ray K) (f : Face K) (k : K) :
    triDet (scaleRay ray k) f = k * triDet ray f := by
  simp only [triDet, scaleRay, Vec3f.smul]; ring

theorem triT_scale (ray : Ray K) (f : Face K) (k : K) :
    triT (scaleRay ray k) f = triT ray f / k := by
  unfold triT
  rw [triDet_scale, div_div, mul_comm k]
  rfl

theorem triBeta_scale (ray : Ray K) (f : Face K) (k : K) (hk : k ≠ 0) :
    triBeta (scaleRay ray k) f = triBeta ray f := by
  unfold triBeta
  rw [triDet_scale]
  simp only [scaleRay, Vec3f.smul]
  rw [← mul_div_mul_left _ (triDet ray f) hk]
  congr 1
  ring

theorem triGamma_scale (ray : Ray K) (f : Face K) (k : K) (hk : k ≠ 0) :
    triGamma (scaleRay ray k) f = triGamma ray f := by
  unfold triGamma
  rw [triDet_scale]
  simp only [scaleRay, Vec3f.smul]
  rw [← mul_div_mul_left _ (triDet ray f) hk]
  congr 1
  ring

/-- The function `ray_triangle_intersect` on the scaled ray: a miss stays a miss, a hit at
`t` becomes a hit at `t / k`. -/
theorem ray_triangle_intersect_scale (ray : Ray K) (f : Face K) (k : K) (hk : 0 < k) :
    ray_triangle_intersect (scaleRay ray k) f
      = if ray_triangle_intersect ray f = -1 then -1 else ray_triangle_intersect ray f / k := by
  have hk0 : k ≠ 0 := ne_of_gt hk
  by_cases hm : ray_triangle_intersect ray f = -1
  · rw [if_pos hm]
    unfold ray_triangle_intersect at hm ⊢
    rw [triDet_scale, triBeta_scale ray f k hk0, triGamma_scale ray f k hk0, triT_scale]
    by_cases h0 : triDet ray f = 0
    · rw [if_pos (by rw [h0, mul_zero])]
    · rw [if_neg (mul_ne_zero hk0 h0)]
      rw [if_neg h0] at hm
      by_cases h1 : triBeta ray f ≥ 0 ∧ triGamma ray f ≥ 0
          ∧ triBeta ray f + triGamma ray f ≤ 1 ∧ triT ray f > 0
      · rw [if_pos h1] at hm
        have := h1.2.2.2
        rw [hm] at this
        exact absurd this (by norm_num)
      · rw [if_neg]
        intro hc
        exact h1 ⟨hc.1, hc.2.1, hc.2.2.1, by
          have := hc.2.2.2
          rcases lt_or_le 0 (triT ray f) with h | h
          · exact h
          · exact absurd this (not_lt.mpr (div_nonpos_of_nonpos_of_nonneg h hk.le))⟩
  · rw [if_neg hm]
    obtain ⟨h0, hb, hg, hbg, ht, hv⟩ := ray_triangle_intersect_hit ray f hm
    rw [hv]
    unfold ray_triangle_intersect
    rw [triDet_scale, triBeta_scale ray f k hk0, triGamma_scale ray f k hk0, triT_scale,
      if_neg (mul_ne_zero hk0 h0), if_pos ⟨hb, hg, hbg, div_pos ht hk⟩]

theorem ray_triangle_intersect_candRel (ray : Ray K) (f : Face K) (k : K) (hk : 0 < k) :
    CandRel k (ray_triangle_intersect ray f) (ray_triangle_intersect (scaleRay ray k) f) := by
  rw [ray_triangle_intersect_scale ray f k hk]
  rcases ray_triangle_intersect_miss_or_pos ray f with hm | hp
  · rw [if_pos hm, hm]
    exact ⟨Iff.rfl, fun h => absurd h (by norm_num)⟩
  · have hne : ray_triangle_intersect ray f ≠ -1 := by
      intro h; rw [h] at hp; exact absurd hp (by norm_num)
    rw [if_neg hne]
    exact ⟨⟨fun _ => hp.le, fun _ => (div_pos hp hk).le⟩, fun _ => rfl⟩

theorem sphereDelta_scale (ray : Ray K) (s : Sphere K) (k : K) :
    sphereDelta (scaleRay ray k) s = k * k * sphereDelta ray s := by
  simp only [sphereDelta, sphereA, sphereB, sphereC, scaleRay, Vec3f.smul]; ring

theorem sphereA_scale (ray : Ray K) (k : K) :
    sphereA (scaleRay ray k) = k * k * sphereA ray := by
  simp only [sphereA, scaleRay, Vec3f.smul]; ring

theorem sphereB_scale (ray : Ray K) (s : Sphere K) (k : K) :
    sphereB (scaleRay ray k) s = k * sphereB ray s := by
  simp only [sphereB, scaleRay, Vec3f.smul]; ring

theorem MIN_div (a b k : K) (hk : 0 < k) : MIN (a / k) (b / k) = MIN a b / k := by
  rw [MIN_eq_min, MIN_eq_min, min_div_div_right hk.le]

theorem MAX_div (a b k : K) (hk : 0 < k) : MAX (a / k) (b / k) = MAX a b / k := by
  rw [MAX_eq_max, MAX_eq_max, max_div_div_right hk.le]

/-- The function `ray_sphere_intersect` on the scaled ray: `-1` stays `-1`, a root `t`
becomes `t / k`. -/
theorem ray_sphere_intersect_scale (m : Libm K) (ray : Ray K) (s : Sphere K) (k : K)
    (hk : 0 < k) (hs1 : SqrtExact m (sphereDelta ray s))
    (hs2 : SqrtExact m (sphereDelta (scaleRay ray k) s)) :
    ray_sphere_intersect m (scaleRay ray k) s
      = if sphereDelta ray s ≥ 0 then ray_sphere_intersect m ray s / k else -1 := by
  have hk0 : k ≠ 0 := ne_of_gt hk
  have hkk : 0 < k * k := mul_pos hk hk
  by_cases hdel : sphereDelta ray s ≥ 0
  · have hdel2 : sphereDelta (scaleRay ray k) s ≥ 0 := by
      rw [sphereDelta_scale]; exact mul_nonneg hkk.le hdel
    obtain ⟨q0, qq⟩ := hs1 hdel
    obtain ⟨r0, rr⟩ := hs2 hdel2
    have hsq : m.sqrt (sphereDelta (scaleRay ray k) s) = k * m.sqrt (sphereDelta ray s) := by
      apply (mul_self_inj r0 (mul_nonneg hk.le q0)).mp
      rw [rr, sphereDelta_scale]
      linear_combination (-(k * k)) * qq
    have hroot : ∀ sg : K,
        (-sphereB (scaleRay ray k) s + sg * m.sqrt (sphereDelta (scaleRay ray k) s))
            / (2 * sphereA (scaleRay ray k))
          = (-sphereB ray s + sg * m.sqrt (sphereDelta ray s)) / (2 * sphereA ray) / k := by
      intro sg
      rw [hsq, sphereA_scale, sphereB_scale, div_div,
        ← mul_div_mul_left _ (2 * sphereA ray * k) hk0]
      congr 1 <;> ring
    have hr1 := hroot (-1)
    have hr2 := hroot 1
    simp only [neg_one_mul, one_mul, ← sub_eq_add_neg] at hr1 hr2
    rw [if_pos hdel]
    unfold ray_sphere_intersect
    simp only [if_pos hdel, if_pos hdel2, hr1, hr2, MIN_div _ _ k hk, MAX_div _ _ k hk]
    by_cases hpos : MIN ((-sphereB ray s - m.sqrt (sphereDelta ray s)) / (2 * sphereA ray))
        ((-sphereB ray s + m.sqrt (sphereDelta ray s)) / (2 * sphereA ray)) > 0
    · rw [if_pos hpos, if_pos (div_pos hpos hk)]
    · rw [if_neg hpos, if_neg]
      intro hc
      exact hpos (by
        rcases lt_or_le 0 (MIN ((-sphereB ray s - m.sqrt (sphereDelta ray s))
          / (2 * sphereA ray))
          ((-sphereB ray s + m.sqrt (sphereDelta ray s)) / (2 * sphereA ray))) with h | h
        · exact h
        · exact absurd hc (not_lt.mpr (div_nonpos_of_nonpos_of_nonneg h hk.le)))
  · have hdel2 : ¬ sphereDelta (scaleRay ray k) s ≥ 0 := by
      rw [sphereDelta_scale]
      intro hc
      exact hdel (le_of_mul_le_mul_left (by rw [mul_zero]; exact hc) hkk)
    rw [if_neg hdel]
    unfold ray_sphere_intersect
    simp only [if_neg hdel2]

theorem ray_sphere_intersect_candRel (m : Libm K) (ray : Ray K) (s : Sphere K) (k : K)
    (hk : 0 < k) (hs1 : SqrtExact m (sphereDelta ray s))
    (hs2 : SqrtExact m (sphereDelta (scaleRay ray k) s)) :
    CandRel k (ray_sphere_intersect m ray s) (ray_sphere_intersect m (scaleRay ray k) s) := by
  rw [ray_sphere_intersect_scale m ray s k hk hs1 hs2]
  by_cases hdel : sphereDelta ray s ≥ 0
  · rw [if_pos hdel]
    refine ⟨⟨fun h => ?_, fun h => div_nonneg h hk.le⟩, fun _ => rfl⟩
    by_contra hc
    exact absurd h (not_le.mpr (div_neg_of_neg_of_pos (not_le.mp hc) hk))
  · rw [if_neg hdel]
    have hv : ray_sphere_intersect m ray s = -1 := by
      unfold ray_sphere_intersect
      simp only [if_neg hdel]
    rw [hv]
    exact ⟨Iff.rfl, fun h => absurd h (by norm_num)⟩

/-- The box test does not depend on the length of the direction. -/
theorem ray_box_intersect_scale (ray : Ray K) (bmin bmax : Vec3f K) (k : K) (hk : 0 < k) :
    ray_box_intersect (scaleRay ray k) bmin bmax = ray_box_intersect ray bmin bmax := by
  have hdiv : ∀ a d : K, a / (d * k) = a / d / k := fun a d => by rw [div_div]
  unfold ray_box_intersect
  simp only [scaleRay, Vec3f.smul, hdiv, MIN_div _ _ k hk, MAX_div _ _ k hk]
  have h1 : ∀ a b : K, a / k ≤ b / k ↔ a ≤ b := fun a b => div_le_div_iff_of_pos_right hk
  have h2 : ∀ a : K, a / k ≥ 0 ↔ a ≥ 0 := fun a => by
    constructor
    · intro h
      by_contra hc
      exact absurd h (not_le.mpr (div_neg_of_neg_of_pos (not_le.mp hc) hk))
    · intro h
      exact div_nonneg h hk.le
  simp only [h1, h2]

end ScalePrimitives

section ScaleLoops

variable {K : Type} [LinearOrderedField K]

theorem belowMax_miss (k : K) (hk : 0 < k) : BelowMax k (-1 : K) := by
  refine ⟨lt_trans (by norm_num) DBL_MAX_pos, lt_trans ?_ DBL_MAX_pos⟩
  exact div_neg_of_neg_of_pos (by norm_num) hk

theorem scaleRel_init (k : K) :
    ScaleRel k ({ (Hit.unset : Hit K) with hitOccur := false }, DBL_MAX)
      ({ (Hit.unset : Hit K) with hitOccur := false }, DBL_MAX) := by
  refine ⟨?_, Or.inl ⟨rfl, rfl, rfl⟩⟩
  simp [Hit.scaleT, Hit.unset]

/-- One test `if (t >= 0 && t < tmin)` keeps the relation between the states
for the ray and for the scaled ray. -/
theorem scaleRel_accept (k : K) (hk : 0 < k) (st st2 : Hit K × K) (t t2 : K)
    (r r2 : Hit K) (h : ScaleRel k st st2) (hc : CandRel k t t2)
    (hb : 0 ≤ t → BelowMax k t) (hro : r.hitOccur = true)
    (hr : 0 ≤ t → r2 = r.scaleT k) :
    ScaleRel k (if t ≥ 0 ∧ t < st.2 then (r, t) else st)
      (if t2 ≥ 0 ∧ t2 < st2.2 then (r2, t2) else st2) := by
  by_cases h0 : 0 ≤ t
  · have e2 := hc.2 h0
    have h02 : 0 ≤ t2 := hc.1.mpr h0
    have hlt : t2 < st2.2 ↔ t < st.2 := by
      rcases h.2 with ⟨_, e, e'⟩ | ⟨_, e'⟩
      · rw [e, e', e2]
        exact ⟨fun _ => (hb h0).1, fun _ => (hb h0).2⟩
      · rw [e', e2]
        exact div_lt_div_iff_of_pos_right hk
    by_cases h1 : t < st.2
    · rw [if_pos ⟨h0, h1⟩, if_pos ⟨h02, hlt.mpr h1⟩]
      exact ⟨hr h0, Or.inr ⟨hro, e2⟩⟩
    · rw [if_neg (fun hx => h1 hx.2), if_neg (fun hx => h1 (hlt.mp hx.2))]
      exact h
  · have h02 : ¬ 0 ≤ t2 := fun hx => h0 (hc.1.mp hx)
    rw [if_neg (fun hx => h0 hx.1), if_neg (fun hx => h02 hx.1)]
    exact h

theorem smul_scale (d : Vec3f K) (k t : K) (hk : k ≠ 0) :
    (d.smul k).smul (t / k) = d.smul t := by
  simp only [Vec3f.smul, Vec3f.mk.injEq]
  refine ⟨?_, ?_, ?_⟩ <;> (field_simp; ring)

theorem boxStep_scale (ray : Ray K) (mesh : Mesh K) (k : K) (hk : 0 < k)
    (hM : ∀ f ∈ mesh.faces, BelowMax k (ray_triangle_intersect ray f))
    (st st2 : Hit K × K) (faceID : Int) (h : ScaleRel k st st2) :
    ScaleRel k (boxStep ray mesh st faceID) (boxStep (scaleRay ray k) mesh st2 faceID) := by
  unfold boxStep
  simp only
  apply scaleRel_accept k hk st st2 _ _ _ _ h
    (ray_triangle_intersect_candRel ray _ k hk)
  · intro _
    rcases vecAt_mem_or_dflt mesh.faces faceID (Face.unset : Face K) with hm | hm
    · exact hM _ hm
    · rw [hm, ray_triangle_intersect_unset]
      exact belowMax_miss k hk
  · rfl
  · intro h0
    have e := (ray_triangle_intersect_candRel ray (vecAt mesh.faces faceID Face.unset) k hk).2 h0
    rw [e, h.1]
    simp only [Hit.scaleT, scaleRay, smul_scale _ _ _ (ne_of_gt hk)]

theorem boxLoop_scale (ray : Ray K) (mesh : Mesh K) (k : K) (hk : 0 < k)
    (hM : ∀ f ∈ mesh.faces, BelowMax k (ray_triangle_intersect ray f)) (ids : List Int) :
    ∀ st st2 : Hit K × K, ScaleRel k st st2 →
      ScaleRel k (ids.foldl (boxStep ray mesh) st)
        (ids.foldl (boxStep (scaleRay ray k) mesh) st2) := by
  induction ids with
  | nil => intro st st2 h; simpa using h
  | cons i ids ih =>
    intro st st2 h
    rw [List.foldl_cons, List.foldl_cons]
    exact ih _ _ (boxStep_scale ray mesh k hk hM st st2 i h)

theorem closestHitInBox_scale (ray : Ray K) (box : Box K) (mesh : Mesh K) (k : K)
    (hk : 0 < k) (hM : ∀ f ∈ mesh.faces, BelowMax k (ray_triangle_intersect ray f)) :
    ClosestHitInBox (scaleRay ray k) box mesh
      = (ClosestHitInBox ray box mesh).map (fun h => h.scaleT k) := by
  cases box with
  | null => rfl
  | node bmin bmax left right li ri =>
    unfold ClosestHitInBox
    simp only
    have h := boxLoop_scale ray mesh k hk hM (faceRange li ri) _ _ (scaleRel_init k)
    have ho : ((faceRange li ri).foldl (boxStep (scaleRay ray k) mesh)
        ({ (Hit.unset : Hit K) with hitOccur := false }, DBL_MAX)).1.hitOccur
        = ((faceRange li ri).foldl (boxStep ray mesh)
        ({ (Hit.unset : Hit K) with hitOccur := false }, DBL_MAX)).1.hitOccur := by
      rw [h.1]; rfl
    rw [ho]
    split_ifs with hh
    · rw [h.1]; rfl
    · rfl

theorem closerHit_scale (k : K) (hk : 0 < k) (l r : Option (Hit K)) :
    closerHit (l.map (fun h => h.scaleT k)) (r.map (fun h => h.scaleT k))
      = (closerHit l r).map (fun h => h.scaleT k) := by
  cases l with
  | none => rfl
  | some a =>
    cases r with
    | none => rfl
    | some b =>
      simp only [closerHit, Option.map_some']
      have hlt : (a.scaleT k).t < (b.scaleT k).t ↔ a.t < b.t := by
        show a.t / k < b.t / k ↔ a.t < b.t
        exact div_lt_div_iff_of_pos_right hk
      by_cases hab : a.t < b.t
      · rw [if_pos hab, if_pos (hlt.mpr hab)]; rfl
      · rw [if_neg hab, if_neg (fun hx => hab (hlt.mp hx))]; rfl

/-- The traversal on the scaled ray returns the hit of the traversal on the
ray, with its parameter divided by `k`. -/
theorem meshBVH_scale (ray : Ray K) (mesh : Mesh K) (k : K) (hk : 0 < k)
    (hM : ∀ f ∈ mesh.faces, BelowMax k (ray_triangle_intersect ray f)) :
    ∀ box : Box K, meshBVH (scaleRay ray k) box mesh
      = (meshBVH ray box mesh).map (fun h => h.scaleT k) := by
  intro box
  induction box with
  | null => simp [meshBVH]
  | node bmin bmax left right li ri ihl ihr =>
    rw [meshBVH, meshBVH, ray_box_intersect_scale ray bmin bmax k hk]
    split_ifs with hb hleaf
    · rfl
    · exact closestHitInBox_scale ray _ mesh k hk hM
    · rw [ihl, ihr]
      exact closerHit_scale k hk _ _

theorem meshStep_scale (ray : Ray K) (k : K) (hk : 0 < k) (st st2 : Hit K × K)
    (meshID : Int) (mesh : Mesh K)
    (hM : ∀ f ∈ mesh.faces, BelowMax k (ray_triangle_intersect ray f))
    (h : ScaleRel k st st2) :
    ScaleRel k (meshStep ray st meshID mesh) (meshStep (scaleRay ray k) st2 meshID mesh) := by
  unfold meshStep
  rw [meshBVH_scale ray mesh k hk hM]
  cases hr : meshBVH ray mesh.head mesh with
  | none => exact h
  | some meshHit =>
    simp only [Option.map_some']
    obtain ⟨hocc, _, _, hpos⟩ := meshBVH_hitOK ray mesh _ _ hr
    obtain ⟨hmem, ht, _⟩ := meshBVH_faceOf ray mesh _ _ hr
    have hbm : BelowMax k meshHit.t := by rw [ht]; exact hM _ hmem
    have hacc := scaleRel_accept k hk st st2 meshHit.t (meshHit.t / k)
      { meshHit with hitID := meshID, replace_all_drawn := false }
      { meshHit.scaleT k with hitID := meshID, replace_all_drawn := false } h
      ⟨⟨fun _ => hpos.le, fun _ => (div_pos hpos hk).le⟩, fun _ => rfl⟩
      (fun _ => hbm) hocc (fun _ => rfl)
    have e1 : (meshHit.t ≥ 0 ∧ meshHit.t < st.2) ↔ meshHit.t < st.2 :=
      ⟨fun hx => hx.2, fun hx => ⟨hpos.le, hx⟩⟩
    have e2 : (meshHit.t / k ≥ 0 ∧ meshHit.t / k < st2.2) ↔ (meshHit.scaleT k).t < st2.2 :=
      ⟨fun hx => hx.2, fun hx => ⟨(div_pos hpos hk).le, hx⟩⟩
    simp only [e1, e2] at hacc
    exact hacc

theorem triangleStep_scale (ray : Ray K) (k : K) (hk : 0 < k) (st st2 : Hit K × K)
    (triangleID : Int) (tr : Triangle K)
    (hT : BelowMax k (ray_triangle_intersect ray tr.indices)) (h : ScaleRel k st st2) :
    ScaleRel k (triangleStep ray st triangleID tr)
      (triangleStep (scaleRay ray k) st2 triangleID tr) := by
  unfold triangleStep
  simp only
  apply scaleRel_accept k hk st st2 _ _ _ _ h
    (ray_triangle_intersect_candRel ray _ k hk) (fun _ => hT)
  · rfl
  · intro h0
    have e := (ray_triangle_intersect_candRel ray tr.indices k hk).2 h0
    rw [e, h.1]
    simp only [Hit.scaleT, scaleRay, smul_scale _ _ _ (ne_of_gt hk)]

theorem sphereStep_scale (m : Libm K) (ray : Ray K) (k : K) (hk : 0 < k) (st st2 : Hit K × K)
    (sphereID : Int) (s : Sphere K)
    (hS : BelowMax k (ray_sphere_intersect m ray s))
    (hs1 : SqrtExact m (sphereDelta ray s))
    (hs2 : SqrtExact m (sphereDelta (scaleRay ray k) s)) (h : ScaleRel k st st2) :
    ScaleRel k (sphereStep m ray st sphereID s)
      (sphereStep m (scaleRay ray k) st2 sphereID s) := by
  unfold sphereStep
  simp only
  apply scaleRel_accept k hk st st2 _ _ _ _ h
    (ray_sphere_intersect_candRel m ray s k hk hs1 hs2) (fun _ => hS)
  · rfl
  · intro h0
    have e := (ray_sphere_intersect_candRel m ray s k hk hs1 hs2).2 h0
    rw [e, h.1]
    simp only [Hit.scaleT, scaleRay, smul_scale _ _ _ (ne_of_gt hk)]

/-- Two loops over the same vector keep a relation between their states when
each pair of iterations does. -/
theorem indexedLoop_rel {α σ : Type} (step step2 : σ → Int → α → σ) (Rel : σ → σ → Prop)
    (xs : List α)
    (hstep : ∀ (st st2 : σ) (id : Int) (x : α), x ∈ xs → Rel st st2 →
      Rel (step st id x) (step2 st2 id x)) :
    ∀ (id : Int) (st st2 : σ), Rel st st2 →
      Rel (indexedLoop step xs id st) (indexedLoop step2 xs id st2) := by
  induction xs with
  | nil => intro id st st2 h; simpa [indexedLoop] using h
  | cons x rest ih =>
    intro id st st2 h
    rw [indexedLoop, indexedLoop]
    exact ih (fun a b i y hy hab => hstep a b i y (List.mem_cons_of_mem _ hy) hab) _ _ _
      (hstep st st2 id x (List.mem_cons_self _ _) h)

/-- The scene intersector on the scaled ray returns the record of the scene
intersector on the ray, with the parameter divided by `k`. -/
theorem closestHit_scale (m : Libm K) (ray : Ray K) (scene : Scene K) (k : K) (hk : 0 < k)
    (hM : ∀ mesh ∈ scene.meshes, ∀ f ∈ mesh.faces,
      BelowMax k (ray_triangle_intersect ray f))
    (hT : ∀ tr ∈ scene.triangles, BelowMax k (ray_triangle_intersect ray tr.indices))
    (hS : ∀ s ∈ scene.spheres, BelowMax k (ray_sphere_intersect m ray s)
      ∧ SqrtExact m (sphereDelta ray s) ∧ SqrtExact m (sphereDelta (scaleRay ray k) s)) :
    ClosestHit m (scaleRay ray k) scene = (ClosestHit m ray scene).scaleT k := by
  have h1 := indexedLoop_rel (meshStep ray) (meshStep (scaleRay ray k)) (ScaleRel k)
    scene.meshes
    (fun st st2 id x hx h => meshStep_scale ray k hk st st2 id x (hM x hx) h) 0 _ _
    (scaleRel_init k)
  have h2 := indexedLoop_rel (triangleStep ray) (triangleStep (scaleRay ray k)) (ScaleRel k)
    scene.triangles
    (fun st st2 id x hx h => triangleStep_scale ray k hk st st2 id x (hT x hx) h) 0 _ _ h1
  have h3 := indexedLoop_rel (sphereStep m ray) (sphereStep m (scaleRay ray k)) (ScaleRel k)
    scene.spheres
    (fun st st2 id x hx h => sphereStep_scale m ray k hk st st2 id x (hS x hx).1
      (hS x hx).2.1 (hS x hx).2.2 h) 0 _ _ h2
  exact h3.1

end ScaleLoops

section ScaleClaim

variable {K : Type} [LinearOrderedField K]

/-- C18 (amended): for a scene, a ray `(e, d)` whose direction has no zero
component and a scale `k > 0` such that the intersection parameter of every
primitive of the scene (mesh faces, free triangles, spheres) stays below
`DBL_MAX` for `(e, d)` and, divided by `k`, for `(e, k*d)`, with `sqrt` a
square root at the discriminants of the spheres: `ClosestHit` on `(e, k*d)`
reports a hit if and only if `ClosestHit` on `(e, d)` does, and then reports
the same primitive (`hitType`, `hitID`, `faceID`), the same intersection point
and normal, and as parameter the `t` of `(e, d)` divided by `k`. -/
theorem C18_scale_invariance_below_max (m : Libm K) (ray : Ray K) (scene : Scene K) (k : K)
    (hk : 0 < k) (hdx : ray.dir.x ≠ 0) (hdy : ray.dir.y ≠ 0) (hdz : ray.dir.z ≠ 0)
    (hM : ∀ mesh ∈ scene.meshes, ∀ f ∈ mesh.faces,
      BelowMax k (ray_triangle_intersect ray f))
    (hT : ∀ tr ∈ scene.triangles, BelowMax k (ray_triangle_intersect ray tr.indices))
    (hS : ∀ s ∈ scene.spheres, BelowMax k (ray_sphere_intersect m ray s)
      ∧ SqrtExact m (sphereDelta ray s) ∧ SqrtExact m (sphereDelta (scaleRay ray k) s)) :
    ((ClosestHit m (scaleRay ray k) scene).hitOccur = true
      ↔ (ClosestHit m ray scene).hitOccur = true)
    ∧ ((ClosestHit m ray scene).hitOccur = true →
        (ClosestHit m (scaleRay ray k) scene).hitType = (ClosestHit m ray scene).hitType
        ∧ (ClosestHit m (scaleRay ray k) scene).hitID = (ClosestHit m ray scene).hitID
        ∧ (ClosestHit m (scaleRay ray k) scene).faceID = (ClosestHit m ray scene).faceID
        ∧ (ClosestHit m (scaleRay ray k) scene).intersectPoint
            = (ClosestHit m ray scene).intersectPoint
        ∧ (ClosestHit m (scaleRay ray k) scene).normal = (ClosestHit m ray scene).normal
        ∧ (ClosestHit m (scaleRay ray k) scene).t = (ClosestHit m ray scene).t / k) := by
  have _hd : ray.dir.x ≠ 0 ∧ ray.dir.y ≠ 0 ∧ ray.dir.z ≠ 0 := ⟨hdx, hdy, hdz⟩
  rw [closestHit_scale m ray scene k hk hM hT hS]
  exact ⟨Iff.rfl, fun _ => ⟨rfl, rfl, rfl, rfl, rfl, rfl⟩⟩

end ScaleClaim

section ScaleConcrete

theorem slantScene_hit : (ClosestHit ratLibm (slantRay 1) triangleScene).hitOccur = true := by
  have hv := slantRay_value 1 (by norm_num)
  simp only [ClosestHit, triangleScene, emptyScene, indexedLoop, triangleStep, hv]
  rw [if_pos ⟨by norm_num, one_lt_DBL_MAX⟩]

/-- The ray `slantRay 1` with its direction scaled by `1 / (2 * DBL_MAX)`
strikes the unit triangle at the parameter `2 * DBL_MAX`. -/
theorem tinyRay_value :
    ray_triangle_intersect (scaleRay (slantRay 1) (1 / (2 * DBL_MAX))) unitTriangle
      = 2 * DBL_MAX := by
  have hpos : (0 : ℚ) < 1 / (2 * DBL_MAX) := by
    have := DBL_MAX_pos (K := ℚ)
    positivity
  rw [ray_triangle_intersect_scale _ _ _ hpos, slantRay_value 1 (by norm_num),
    if_neg (by norm_num)]
  rw [one_div_one_div]

/-- Counterexample to C18 as stated: the ray from `(-3/4, -3/4, 1)` with
direction `(1, 1, -1)` hits the triangle of `triangleScene` (at `t = 1`), and
the same ray with its direction scaled by `k = 1 / (2 * DBL_MAX) > 0` gets no
hit from `ClosestHit`: its parameter `2 * DBL_MAX` is not below the initial
`tmin = DBL_MAX`. -/
theorem C18_counterexample :
    (0 : ℚ) < 1 / (2 * DBL_MAX)
    ∧ (slantRay 1).dir.x ≠ 0 ∧ (slantRay 1).dir.y ≠ 0 ∧ (slantRay 1).dir.z ≠ 0
    ∧ (ClosestHit ratLibm (slantRay 1) triangleScene).hitOccur = true
    ∧ (ClosestHit ratLibm (scaleRay (slantRay 1) (1 / (2 * DBL_MAX))) triangleScene).hitOccur
        = false := by
  have hD := DBL_MAX_pos (K := ℚ)
  refine ⟨by positivity, by norm_num [slantRay], by norm_num [slantRay],
    by norm_num [slantRay], slantScene_hit, ?_⟩
  have hv := tinyRay_value
  simp only [ClosestHit, triangleScene, emptyScene, indexedLoop, triangleStep, hv]
  rw [if_neg (fun h => absurd h.2 (not_lt.mpr (by linarith)))]

/-- Witness of C18 (amended): the ray `slantRay 1`, which hits the triangle of
`triangleScene` at `t = 1`, scaled by `k = 2`. -/
theorem C18_scale_invariance_below_max_witness :
    ((ClosestHit ratLibm (scaleRay (slantRay 1) 2) triangleScene).hitOccur = true
      ↔ (ClosestHit ratLibm (slantRay 1) triangleScene).hitOccur = true)
    ∧ ((ClosestHit ratLibm (slantRay 1) triangleScene).hitOccur = true →
        (ClosestHit ratLibm (scaleRay (slantRay 1) 2) triangleScene).hitType
            = (ClosestHit ratLibm (slantRay 1) triangleScene).hitType
        ∧ (ClosestHit ratLibm (scaleRay (slantRay 1) 2) triangleScene).hitID
            = (ClosestHit ratLibm (slantRay 1) triangleScene).hitID
        ∧ (ClosestHit ratLibm (scaleRay (slantRay 1) 2) triangleScene).faceID
            = (ClosestHit ratLibm (slantRay 1) triangleScene).faceID
        ∧ (ClosestHit ratLibm (scaleRay (slantRay 1) 2) triangleScene).intersectPoint
            = (ClosestHit ratLibm (slantRay 1) triangleScene).intersectPoint
        ∧ (ClosestHit ratLibm (scaleRay (slantRay 1) 2) triangleScene).normal
            = (ClosestHit ratLibm (slantRay 1) triangleScene).normal
        ∧ (ClosestHit ratLibm (scaleRay (slantRay 1) 2) triangleScene).t
            = (ClosestHit ratLibm (slantRay 1) triangleScene).t / 2) :=
  C18_scale_invariance_below_max ratLibm (slantRay 1) triangleScene 2 (by norm_num)
    (by norm_num [slantRay]) (by norm_num [slantRay]) (by norm_num [slantRay])
    (by simp [triangleScene, emptyScene])
    (by
      intro tr htr
      have e : tr = ⟨unitTriangle, 1, -1⟩ := by simpa [triangleScene] using htr
      rw [e, slantRay_value 1 (by norm_num)]
      exact ⟨one_lt_DBL_MAX, lt_trans (by norm_num) one_lt_DBL_MAX⟩)
    (by simp [triangleScene, emptyScene])

end ScaleConcrete

section MirrorFacts

variable {K : Type} [LinearOrderedField K] [FloorRing K]

/-! ## Depth 0: no mirror contribution -/

theorem vecAt_map {α β : Type} (f : α → β) (v : List α) (i : Int) (d : α) :
    vecAt (v.map f) i (f d) = f (vecAt v i d) := by
  unfold vecAt
  split_ifs
  · simp [List.getD_eq_getElem?_getD, List.getElem?_map]
  · rfl

omit [FloorRing K] in
theorem closestHit_noMirror (m : Libm K) (ray : Ray K) (scene : Scene K) :
    ClosestHit m ray scene.noMirror = ClosestHit m ray scene := rfl

omit [FloorRing K] in
theorem hitMaterial_noMirror (hit : Hit K) (scene : Scene K) :
    hitMaterial hit scene.noMirror = (hitMaterial hit scene).noMirror := by
  unfold hitMaterial
  exact vecAt_map Material.noMirror scene.materials (hit.materialID - 1) Material.unset

omit [FloorRing K] in
theorem specular_noMirror (m : Libm K) (ray : Ray K) (hit : Hit K) (light : PointLight K)
    (scene : Scene K) :
    Specular m ray hit light scene.noMirror = Specular m ray hit light scene := by
  unfold Specular
  rw [hitMaterial_noMirror]
  rfl

omit [FloorRing K] in
theorem hitTexture_noMirror (m : Libm K) (ray : Ray K) (hit : Hit K) (scene : Scene K) :
    hitTexture m ray hit scene.noMirror = hitTexture m ray hit scene := rfl

theorem diffuse_noMirror (m : Libm K) (ray : Ray K) (hit : Hit K)
    (light : Option (PointLight K)) (scene : Scene K) :
    Diffuse m ray hit light scene.noMirror = Diffuse m ray hit light scene := by
  unfold Diffuse
  rw [hitTexture_noMirror, hitMaterial_noMirror]
  rfl

omit [FloorRing K] in
theorem isShadow_noMirror (m : Libm K) (hit : Hit K) (light : PointLight K)
    (scene : Scene K) :
    isShadow m hit light scene.noMirror = isShadow m hit light scene := rfl

theorem lightStep_noMirror (m : Libm K) (ray : Ray K) (hit : Hit K) (scene : Scene K)
    (color : Vec3f K) (light : PointLight K) :
    lightStep m ray hit scene.noMirror color light = lightStep m ray hit scene color light := by
  unfold lightStep
  rw [isShadow_noMirror, specular_noMirror, diffuse_noMirror]

theorem lightLoop_noMirror (m : Libm K) (ray : Ray K) (hit : Hit K) (scene : Scene K)
    (lights : List (PointLight K)) :
    ∀ color : Vec3f K, lightLoop m ray hit scene.noMirror lights color
      = lightLoop m ray hit scene lights color := by
  induction lights with
  | nil => intro color; rfl
  | cons light rest ih =>
    intro color
    rw [lightLoop, lightLoop, lightStep_noMirror]
    cases lightStep m ray hit scene color light with
    | error e => rfl
    | ok c => exact ih c

/-- The ambient term, the texture and the direct lighting do not read the
`mirror` of the materials. -/
theorem directColor_noMirror (m : Libm K) (ray : Ray K) (hit : Hit K) (scene : Scene K) :
    directColor m ray hit scene.noMirror = directColor m ray hit scene := by
  unfold directColor
  rw [hitMaterial_noMirror, diffuse_noMirror]
  cases Diffuse m ray hit none scene with
  | error e => rfl
  | ok d => exact lightLoop_noMirror m ray hit scene scene.point_lights _

omit [FloorRing K] in
theorem hasMirror_noMirror (mat : Material K) : hasMirror mat.noMirror = false := by
  simp [hasMirror, Material.noMirror]

/-- At depth 0 the colour is the direct colour: on a mirror the reflected
ray is traced at depth `-1`, which returns black, and black times `mirror`
adds nothing. -/
theorem calculateColor_depth_zero (m : Libm K) (ray : Ray K) (scene : Scene K) :
    CalculateColor m ray 0 scene = directOnly m ray scene := by
  unfold CalculateColor directOnly
  cases hhit : (ClosestHit m ray scene).hitOccur with
  | false =>
    rw [calculateColorLog_miss m ray 0 scene (le_refl 0) hhit]
    rfl
  | true =>
    simp only [Bool.not_true, Bool.false_eq_true, if_false]
    cases hd : directColor m ray (ClosestHit m ray scene) scene with
    | error e =>
      rw [calculateColorLog_error m ray 0 scene (le_refl 0) hhit e hd]
      rfl
    | ok color =>
      cases hm : hasMirror (hitMaterial (ClosestHit m ray scene) scene) with
      | false =>
        rw [calculateColorLog_no_mirror m ray 0 scene (le_refl 0) hhit color hd hm]
        rfl
      | true =>
        have hsub := calculateColorLog_neg m (mirrorRay m ray (ClosestHit m ray scene) scene)
          (0 - 1) scene (by norm_num)
        rw [(calculateColorLog_mirror m ray 0 scene (le_refl 0) hhit color hd hm).2.2
          ⟨0, 0, 0⟩ (by rw [hsub])]
        simp only [Int.cast_zero, zero_mul, add_zero]
        rfl

/-- C21: at depth 0 the mirror contribution vanishes: for every scene and
ray, `CalculateColor(ray, 0, scene)` equals `CalculateColor(ray, 0, scene2)` where `scene2` is
the scene with the `mirror` of every material set to `(0,0,0)`; both are the
colour made of the ambient term, the texture and the direct diffuse and
specular lighting only (or the value these throw). -/
theorem C21_depth_zero_mirror_vanishes (m : Libm K) (ray : Ray K) (scene : Scene K) :
    CalculateColor m ray 0 scene = CalculateColor m ray 0 scene.noMirror
    ∧ CalculateColor m ray 0 scene = directOnly m ray scene
    ∧ (∀ mat ∈ scene.noMirror.materials, mat.mirror = ⟨0, 0, 0⟩) := by
  refine ⟨?_, calculateColor_depth_zero m ray scene, ?_⟩
  · rw [calculateColor_depth_zero, calculateColor_depth_zero]
    unfold directOnly
    rw [closestHit_noMirror, directColor_noMirror]
    rfl
  · intro mat hmat
    obtain ⟨a, _, ha⟩ := List.mem_map.mp hmat
    rw [← ha]
    rfl

end MirrorFacts

section PlaneShadow

variable {K : Type} [LinearOrderedField K]

/-- C22: for a triangle whose stored normal `N` is a non-zero vector
perpendicular to its plane, a point `p` of that plane (the hit point, with
`N` as hit normal), `shadow_ray_epsilon > 0` and a light at `L` on the side of
the normal or in the plane (`N . (L - p) >= 0`): the shadow ray that `isShadow`
builds has origin `p + N*epsilon` and direction `L - p`, and
`ray_triangle_intersect` returns the miss value `-1` for it and that triangle. -/
theorem C22_shadow_ray_misses_own_triangle (f : Face K) (hit : Hit K) (light : PointLight K)
    (scene : Scene K) (hflat : FlatNormal f) (hn : hit.normal = f.normal)
    (hp : f.normal.dot (hit.intersectPoint.sub f.v0.coordinates) = 0)
    (heps : 0 < scene.shadow_ray_epsilon)
    (hside : 0 ≤ f.normal.dot (light.position.sub hit.intersectPoint)) :
    shadowRay hit light scene
        = ⟨hit.intersectPoint.add (f.normal.smul scene.shadow_ray_epsilon),
            light.position.sub hit.intersectPoint⟩
    ∧ ray_triangle_intersect (shadowRay hit light scene) f = -1 := by
  have hray : shadowRay hit light scene
      = ⟨hit.intersectPoint.add (f.normal.smul scene.shadow_ray_epsilon),
          light.position.sub hit.intersectPoint⟩ := by
    unfold shadowRay
    rw [hn]
  refine ⟨hray, ?_⟩
  rw [hray]
  exact shadow_misses_plane f hit.intersectPoint light.position scene.shadow_ray_epsilon
    hflat hp heps hside

/-- Witness of C22: the triangle `(0,0,0),(1,0,0),(0,1,0)` with normal
`(0,0,1)`, the point `(2, 3, 0)` of its plane, `shadow_ray_epsilon = 1/1000`
and the light at `(0, 0, 6)`. -/
theorem C22_shadow_ray_misses_own_triangle_witness :
    shadowRay planeHit frontLight emptyScene
        = ⟨planeHit.intersectPoint.add (unitTriangle.normal.smul emptyScene.shadow_ray_epsilon),
            frontLight.position.sub planeHit.intersectPoint⟩
    ∧ ray_triangle_intersect (shadowRay planeHit frontLight emptyScene) unitTriangle = -1 :=
  C22_shadow_ray_misses_own_triangle unitTriangle planeHit frontLight emptyScene
    ⟨by norm_num [unitTriangle, vtx, Vec3f.dot, Vec3f.sub],
      by norm_num [unitTriangle, vtx, Vec3f.dot, Vec3f.sub],
      by simp [unitTriangle]⟩
    rfl
    (by norm_num [unitTriangle, vtx, planeHit, Vec3f.dot, Vec3f.sub])
    (by norm_num [emptyScene])
    (by norm_num [unitTriangle, planeHit, frontLight, Vec3f.dot, Vec3f.sub])

end PlaneShadow

end RayTracer
